import Mathlib

/-!
# SAFS `io_request`: requests, extensions, wire serialization and extraction

A shallow embedding of `include/io_request.h` and of the callback initiator of
`include/aio_private.h`.

Conventions of the embedding.

* A C `int`, `ssize_t`, `off_t` value is an `Int`; conversions between integer
  types are the explicit functions `to_int`, `to_unsigned`, `to_size_t`,
  `to_ssize_t` below (LP64, two's complement).
* A bit-field is the bit pattern it stores: an unsigned field of width `w` is a
  `Fin (2 ^ w)`, a one-bit flag is a `Bool`, and the signed 48-bit fields are
  stored as `Fin (2 ^ 48)` and sign-extended when read.
* An `io_request` object is the record of its bit-packed header fields followed
  by the bytes of memory that start at its `payload` union.  The union member
  `char buf[0]` addresses exactly these bytes; the pointer members
  (`buf_addr`, `ext`, `compute`) are the little-endian value of the first
  `sizeof_payload` of them.  The same record describes a wire buffer seen
  through the cast `(io_request *) buf`.
* A call that does not return normally yields an `Abort`.
* Sums and differences of signed values are exact, the overflow of a signed sum
  being undefined in the source; only conversions and stores into narrower
  fields reduce a value.
* A method that changes an extension returns the address space afterwards; a
  sequence of calls passes it from one call to the next.
-/

namespace SAFS

/-! ## Machine integers -/

/-- Conversion of an integer value to `int` (32 bits, signed). -/
def to_int (x : Int) : Int := (x + 2147483648) % 4294967296 - 2147483648

/-- Conversion of an integer value to `unsigned` (32 bits). -/
def to_unsigned (x : Int) : Int := x % 4294967296

/-- Conversion of an integer value to `size_t` (64 bits, unsigned). -/
def to_size_t (x : Int) : Int := x % 18446744073709551616

/-- Conversion of an integer value to `ssize_t` (64 bits, signed). -/
def to_ssize_t (x : Int) : Int :=
  (x + 9223372036854775808) % 18446744073709551616 - 9223372036854775808

/-- Conversion of an integer value to a pointer-sized address. -/
def to_addr (x : Int) : Nat := (x % 18446744073709551616).toNat

/-- Bit pattern stored in a signed 48-bit bit-field by the assignment of `x`. -/
def off48_store (x : Int) : Fin 281474976710656 := Fin.ofNat (x % 281474976710656).toNat

/-- Value read from a signed 48-bit bit-field (sign extension). -/
def off48_load (v : Fin 281474976710656) : Int :=
  if v.val < 140737488355328 then (v.val : Int) else (v.val : Int) - 281474976710656

/-- A byte of memory. -/
abbrev byte := Fin 256

/-- Little-endian value of the first eight bytes of a region: the pointer a
pointer-typed member of the `payload` union reads. -/
def ptr_load (p : Nat → byte) : Nat :=
  (p 0).val + (p 1).val * 256 + (p 2).val * 65536 + (p 3).val * 16777216
    + (p 4).val * 4294967296 + (p 5).val * 1099511627776
    + (p 6).val * 281474976710656 + (p 7).val * 72057594037927936

/-- Assignment of the pointer `x` to a pointer-typed member of the `payload`
union: the first eight bytes are replaced, later bytes are untouched. -/
def ptr_store (x : Nat) (p : Nat → byte) : Nat → byte :=
  fun i => if i < 8 then Fin.ofNat (x / 256 ^ i) else p i

/-- Ways in which a call fails to return: `assertion` when an `assert` of the
source fails, `unmodelled` when the call leaves this embedding (a copy that
splits the bit-packed header or runs past every buffer, a buffer added to an
extension by `init`). -/
inductive Abort where
  | assertion
  | unmodelled
  deriving DecidableEq, Repr

/-! ## Constants -/

/-- Declared as `const int MAX_INLINE_SIZE=128`. -/
def MAX_INLINE_SIZE : Int := 128

/-- First enumerator of the payload kinds of `io_request`. -/
def BASIC_REQ : Fin 4 := 0

/-- Second enumerator of the payload kinds of `io_request`. -/
def EXT_REQ : Fin 4 := 1

/-- Third enumerator of the payload kinds of `io_request`. -/
def USER_COMPUTE : Fin 4 := 2

/-- Modelled from the spec: the access-method constant `READ` of `common.h`,
which is not among the sources; the one-bit `access_method` field tells a read
from a write, and `READ` is the value zero. -/
def READ : Nat := 0

/-- Modelled from the spec: the access-method constant `WRITE` of `common.h`,
which is not among the sources; it is the other value of the one-bit field. -/
def WRITE : Nat := 1

/-- Declared as `MAX_BUF_SIZE = (1L << 32) - 1`. -/
def MAX_BUF_SIZE : Int := 4294967295

/-- Declared as `MAX_NODE_ID = (1 << 8) - 1`. -/
def MAX_NODE_ID : Int := 255

/-- Size of the `payload` union: one pointer on LP64. -/
def sizeof_payload : Int := 8

/-- Value of `sizeof(io_request)` on LP64: 32 bytes of bit-packed header fields
followed by the `payload` union. -/
def sizeof_io_request : Int := 40

/-- Offset of the `payload` union inside an `io_request`, which the source
writes `sizeof(io_request) - sizeof(this->payload)`. -/
def payload_offset : Int := sizeof_io_request - sizeof_payload

/-! ## Buffer descriptors, extensions, user computations -/

/-- Class `io_buf`: one buffer of a request. -/
structure io_buf where
  buf : Nat
  size : Fin 2147483648
  is_page : Bool
  deriving DecidableEq

instance : Inhabited io_buf := ⟨⟨0, 0, false⟩⟩

/-- Method `io_buf::get_size`. -/
def io_buf.get_size (b : io_buf) : Int := (b.size.val : Int)

/-- Class `io_req_extension`.  `vec_pointer` is the content of the descriptor
array in use and `embedded` tells whether that array is `embedded_vecs`. -/
structure io_req_extension where
  orig : Nat
  priv : Nat
  user_data : Nat
  num_bufs : Int
  partial_flag : Bool
  vec_capacity : Int
  refcnt : Int
  completed_size : Int
  vec_pointer : List io_buf
  embedded : Bool
  next : Nat
  issue_time : Int × Int
  deriving DecidableEq

/-- Method `io_req_extension::get_num_bufs`. -/
def io_req_extension.get_num_bufs (e : io_req_extension) : Int := e.num_bufs

/-- Method `io_req_extension::get_buf`: the descriptor `vec_pointer[idx]`. -/
def io_req_extension.get_buf (e : io_req_extension) (idx : Int) : io_buf :=
  e.vec_pointer.getD idx.toNat default

/-- Method `io_req_extension::get_size`: the sizes of the first `num_bufs`
descriptors are summed in an `ssize_t` and returned as an `int`. -/
def io_req_extension.get_size (e : io_req_extension) : Int :=
  to_int ((List.range e.num_bufs.toNat).foldl
    (fun s i => s + (e.vec_pointer.getD i default).get_size) 0)

/-- Abstract class `user_compute`: `serialize buf size` gives the bytes found
at `buf` afterwards together with the returned `int`. -/
structure user_compute where
  serialize : (Nat → byte) → Int → (Nat → byte) × Int
  get_serialized_size : Int

/-- The part of the address space a request refers to through pointers: the
byte stored at an address, the extension and the compute object a pointer
designates, the data pointer of a page, and the objects obtained when the bytes
that follow a header are reinterpreted (`(io_req_extension *) payload.buf`,
`(user_compute *) payload.buf`). -/
structure memory where
  byte_at : Nat → byte
  ext : Nat → io_req_extension
  compute : Nat → user_compute
  page_data : Nat → Nat
  ext_in : (Nat → byte) → io_req_extension
  compute_in : (Nat → byte) → user_compute

/-- Modelled from the spec: `io_buf::get_buf` is declared in the header and
defined outside the sources.  A descriptor is either a raw pointer or a
reference to a cache page; the buffer of a page is the data pointer of the
page. -/
def io_buf.get_buf (m : memory) (b : io_buf) : Nat :=
  if b.is_page then m.page_data b.buf else b.buf

/-! ## The request -/

/-- Data members of `io_request` that precede the `payload` union. -/
structure io_request_header where
  file_id : Int
  offset : Fin 281474976710656
  buf_size_low : Fin 65536
  user_data_addr : Fin 281474976710656
  buf_size_high : Fin 65536
  payload_type : Fin 4
  data_inline : Bool
  access_method : Fin 2
  sync : Bool
  high_prio : Bool
  low_latency : Bool
  discarded : Bool
  node_id : Fin 256
  io_addr : Fin 281474976710656
  deriving DecidableEq

/-- Class `io_request`: the header fields and the bytes that start at the
`payload` union. -/
structure io_request extends io_request_header where
  payload : Nat → byte

/-- Class `data_loc_t`. -/
structure data_loc_t where
  file_id : Int
  off : Int
  deriving DecidableEq

/-- An `assert`: the call goes on when the condition holds and aborts
otherwise. -/
def c_assert (c : Prop) [Decidable c] : Except Abort Unit :=
  if c then .ok () else .error .assertion

namespace io_request

/-- Method `is_extended_req`. -/
def is_extended_req (r : io_request) : Bool := decide (r.payload_type = EXT_REQ)

/-- Method `is_data_inline`. -/
def is_data_inline (r : io_request) : Bool := r.data_inline

/-- Method `get_offset`: the signed 48-bit field is sign-extended. -/
def get_offset (r : io_request) : Int := off48_load r.offset

/-- Modelled from the spec: `io_request::get_file_id` is declared in the header
and defined outside the sources; it reports the file identifier of the data
location of the request. -/
def get_file_id (r : io_request) : Int := r.file_id

/-- Method `get_access_method`. -/
def get_access_method (r : io_request) : Int := (r.access_method.val : Int) % 2

/-- Method `get_io`. -/
def get_io (r : io_request) : Nat := r.io_addr.val

/-- Method `get_node_id`. -/
def get_node_id (r : io_request) : Int := (r.node_id.val : Int)

/-- Method `get_int_buf_size`, `(buf_size_high << 16) + buf_size_low`.  Both
bit-fields are narrower than `int`, so both are promoted to `int`: the shift
and the sum are `int` arithmetic and the result is converted to `size_t`. -/
def get_int_buf_size (r : io_request) : Int :=
  to_size_t (to_int (to_int ((r.buf_size_high.val : Int) * 65536) + (r.buf_size_low.val : Int)))

/-- Method `set_int_buf_size`, on a `size_t` argument. -/
def set_int_buf_size (r : io_request) (size : Int) : Except Abort io_request := do
  c_assert (size ≤ MAX_BUF_SIZE)
  pure { r with buf_size_high := Fin.ofNat (size / 65536).toNat,
                buf_size_low := Fin.ofNat (size % 65536).toNat }

/-- Method `get_extension`. -/
def get_extension (m : memory) (r : io_request) : Except Abort io_req_extension := do
  c_assert (r.is_extended_req = true ∧ ptr_load r.payload ≠ 0)
  if r.data_inline then pure (m.ext_in r.payload) else pure (m.ext (ptr_load r.payload))

/-- Method `get_size`, an `ssize_t`. -/
def get_size (m : memory) (r : io_request) : Except Abort Int :=
  if r.is_extended_req = false then pure (to_ssize_t r.get_int_buf_size)
  else do
    let e ← r.get_extension m
    pure e.get_size

/-- Method `get_buf`. -/
def get_buf (m : memory) (r : io_request) (idx : Int) : Except Abort Nat :=
  if r.is_extended_req = false then pure (ptr_load r.payload)
  else do
    let e ← r.get_extension m
    pure ((e.get_buf idx).get_buf m)

/-- Method `get_num_bufs`. -/
def get_num_bufs (m : memory) (r : io_request) : Except Abort Int :=
  if r.is_extended_req = true then do
    let e ← r.get_extension m
    pure e.get_num_bufs
  else pure 1

/-- Method `set_data_loc`. -/
def set_data_loc (r : io_request) (loc : data_loc_t) : io_request :=
  { r with file_id := loc.file_id, offset := off48_store loc.off }

/-- Method `set_io`: the address is stored in the 48-bit field `io_addr`. -/
def set_io (r : io_request) (io_ptr : Nat) : io_request :=
  { r with io_addr := Fin.ofNat io_ptr }

/-- Method `set_node_id`. -/
def set_node_id (r : io_request) (node_id : Int) : Except Abort io_request := do
  c_assert (node_id ≤ MAX_NODE_ID)
  pure { r with node_id := Fin.ofNat (node_id % 256).toNat }

/-- Modelled from the spec: the overload
`init(char *buf, const data_loc_t &loc, ssize_t size, int access_method,
io_interface *io, int node_id)` is declared in the header and defined outside
the sources.  It resets the request to the given data location, owning
interface, access method and node; a request that is not extended is pointed at
the buffer `buf` of `size` bytes, while an extended request keeps its extension
and receives `buf`, when it is not null, as a further buffer, which is outside
this embedding. -/
def init_buf (r : io_request) (buf : Nat) (loc : data_loc_t) (size : Int)
    (access_method : Int) (io_ptr : Nat) (node_id : Int) : Except Abort io_request := do
  let r1 := (r.set_data_loc loc).set_io io_ptr
  let r2 ← if r1.is_extended_req = true then
      (if buf = 0 then pure r1 else throw Abort.unmodelled)
    else do
      let r3 ← r1.set_int_buf_size (to_size_t size)
      pure { r3 with payload := ptr_store buf r3.payload }
  let r4 := { r2 with access_method := Fin.ofNat (access_method % 2).toNat }
  r4.set_node_id node_id

/-- The overlap test that method `extract` asserts, for a request at offset `o`
of `s` bytes and the range `[off, off + size)`. -/
def extract_check (o s off size : Int) : Bool :=
  decide ((off ≥ o ∧ off < o + s)
    ∨ (off + size ≥ o ∧ off + size < o + s)
    ∨ (off ≤ o ∧ off + size ≥ o + s))

/-- Method `extract`: the state in which it leaves `extracted`. -/
def extract (m : memory) (r : io_request) (off : Int) (size : Int)
    (extracted : io_request) : Except Abort io_request := do
  let nb ← r.get_num_bufs m
  c_assert (nb = 1)
  let s ← r.get_size m
  c_assert (extract_check r.get_offset s off size = true)
  let b ← r.get_buf m 0
  let req_off := if off ≤ r.get_offset then r.get_offset else off
  let req_buf := if off ≤ r.get_offset then b else to_addr ((b : Int) + (off - r.get_offset))
  let req_size := min (off + size - req_off) (r.get_offset + s - req_off)
  extracted.init_buf req_buf ⟨r.get_file_id, req_off⟩ req_size r.get_access_method
    r.get_io r.get_node_id

/-- The copy `memcpy(dst, src, sizeof(io_request))` of one request object:
the header fields and the bytes of the `payload` union. -/
def memcpy_request (dst src : io_request) : io_request :=
  { toio_request_header := src.toio_request_header,
    payload := fun i => if (i : Int) < sizeof_payload then src.payload i else dst.payload i }

/-- The copy `memcpy(dst, src, n)` for an `int` length `n` that covers the
header fields.  A length below the offset of the payload splits the bit-packed
header, and a negative length is converted to a `size_t` beyond any buffer;
both are outside this embedding. -/
def memcpy_image (dst src : io_request) (n : Int) : Except Abort io_request :=
  if payload_offset ≤ n then
    pure { toio_request_header := src.toio_request_header,
           payload := fun i => if (i : Int) < n - payload_offset then src.payload i
                               else dst.payload i }
  else throw Abort.unmodelled

/-- Method `get_serialized_size`. -/
def get_serialized_size (m : memory) (r : io_request) : Except Abort Int :=
  if r.payload_type = EXT_REQ then pure sizeof_io_request
  else if r.payload_type = BASIC_REQ then do
    let n ← r.get_size m
    if n > MAX_INLINE_SIZE ∨ r.access_method.val = READ then pure sizeof_io_request
    else pure (to_int (sizeof_io_request - sizeof_payload + n))
  else if r.is_data_inline = false then
    pure (to_int (sizeof_io_request - sizeof_payload
      + (m.compute (ptr_load r.payload)).get_serialized_size))
  else
    pure (to_int (sizeof_io_request - sizeof_payload
      + (m.compute_in r.payload).get_serialized_size))

/-- Method `serialize`: the returned size, the state in which the request
itself is left, and the state in which the buffer `buf` is left. -/
def serialize (m : memory) (r : io_request) (buf : io_request) (size : Int)
    (accept_inline : Bool) : Except Abort (Int × io_request × io_request) :=
  if r.is_data_inline = true then do
    c_assert (accept_inline = true)
    let serialized_size ← r.get_serialized_size m
    c_assert (serialized_size ≤ size)
    let b ← memcpy_image buf r serialized_size
    pure (serialized_size, r, b)
  else if r.payload_type = EXT_REQ then do
    c_assert (sizeof_io_request ≤ size)
    pure (sizeof_io_request,
      { r with payload := ptr_store 0 r.payload, payload_type := BASIC_REQ },
      memcpy_request buf r)
  else if r.payload_type = BASIC_REQ then do
    let n ← r.get_size m
    if n > MAX_INLINE_SIZE ∨ r.access_method.val = READ ∨ accept_inline = false then do
      c_assert (sizeof_io_request ≤ size)
      pure (sizeof_io_request, r, memcpy_request buf r)
    else do
      let serialized_size := to_int (sizeof_io_request - sizeof_payload + n)
      c_assert (serialized_size ≤ size)
      let p := { memcpy_request buf r with data_inline := true }
      if n < 0 then throw Abort.unmodelled
      else pure (serialized_size, r,
        { p with payload := fun i => if (i : Int) < n
                                     then m.byte_at (ptr_load r.payload + i)
                                     else p.payload i })
  else do
    c_assert (accept_inline = true)
    let compute := m.compute (ptr_load r.payload)
    let serialized_size := to_int (sizeof_io_request - sizeof_payload
      + compute.get_serialized_size)
    c_assert (serialized_size ≤ size ∧ sizeof_io_request ≤ to_unsigned size)
    let p := { memcpy_request buf r with data_inline := true }
    pure (serialized_size, r,
      { p with payload := (compute.serialize p.payload
          (to_int (size - (sizeof_io_request - sizeof_payload)))).1 })

/-- Static method `deserialize(io_request &req, char *buf, int size)`: the
state in which it leaves `req`, for the buffer `buf` found at address
`buf_addr`. -/
def deserialize (req : io_request) (buf_addr : Nat) (buf : io_request) (size : Int) :
    Except Abort io_request := do
  c_assert (to_unsigned size ≥ sizeof_io_request)
  let req1 := memcpy_request req buf
  if req1.is_data_inline = true then do
    c_assert (req1.payload_type ≠ EXT_REQ)
    let req2 ← if req1.payload_type = BASIC_REQ ∨ req1.payload_type = USER_COMPUTE then
        pure { req1 with
          payload := ptr_store (to_addr ((buf_addr : Int) + payload_offset)) req1.payload }
      else throw Abort.assertion
    pure { req2 with data_inline := false }
  else pure req1

/-- Static method `deserialize(char *buf, int size)`: the request it returns is
the buffer itself, seen through `(io_request *) buf`. -/
def deserialize_ptr (m : memory) (buf : io_request) (size : Int) : Except Abort io_request := do
  c_assert (to_unsigned size ≥ sizeof_io_request)
  let n ← buf.get_serialized_size m
  c_assert (n ≤ size)
  pure buf

end io_request

end SAFS

namespace SAFS

namespace io_request

/-- Method `use_default_flags`. -/
def use_default_flags (r : io_request) : io_request :=
  { r with sync := false, high_prio := true, low_latency := false, discarded := false }

/-- Constructor `io_request(bool sync)`, run on the storage `raw`: the object is
zeroed by `memset` first. -/
def construct (raw : io_request) (sync : Bool) : io_request :=
  let z : io_request :=
    { file_id := 0, offset := 0, buf_size_low := 0, user_data_addr := 0, buf_size_high := 0,
      payload_type := 0, data_inline := false, access_method := 0, sync := false,
      high_prio := false, low_latency := false, discarded := false, node_id := 0, io_addr := 0,
      payload := fun i => if (i : Int) < sizeof_payload then 0 else raw.payload i }
  { use_default_flags { z with payload_type := BASIC_REQ } with sync := sync }

/-- Constructor `io_request(char *buf, const data_loc_t &loc, ssize_t size,
int access_method, io_interface *io, int node_id, bool sync)`, run on the
storage `raw`. -/
def construct_buf (raw : io_request) (buf : Nat) (loc : data_loc_t) (size : Int)
    (access_method : Int) (io_ptr : Nat) (node_id : Int) (sync : Bool) :
    Except Abort io_request := do
  let r0 := { raw with payload_type := BASIC_REQ, data_inline := false, user_data_addr := 0 }
  let r1 ← r0.init_buf buf loc size access_method io_ptr node_id
  pure { use_default_flags r1 with sync := sync }

/-- Constructor `io_request(io_req_extension *ext, const data_loc_t &loc,
int access_method, io_interface *io, int node_id, bool sync)`, run on the
storage `raw`. -/
def construct_ext (raw : io_request) (ext : Nat) (loc : data_loc_t)
    (access_method : Int) (io_ptr : Nat) (node_id : Int) (sync : Bool) :
    Except Abort io_request := do
  let r0 := { raw with payload_type := EXT_REQ, data_inline := false,
                       payload := ptr_store ext raw.payload, user_data_addr := 0 }
  let r1 ← r0.init_buf 0 loc 0 access_method io_ptr node_id
  pure { use_default_flags r1 with sync := sync }

/-- Constructor `io_request(user_compute *compute, const data_loc_t &loc,
ssize_t size, int access_method, io_interface *io, int node_id, bool sync)`,
run on the storage `raw`. -/
def construct_compute (raw : io_request) (compute : Nat) (loc : data_loc_t) (size : Int)
    (access_method : Int) (io_ptr : Nat) (node_id : Int) (sync : Bool) :
    Except Abort io_request := do
  let r0 := { raw with payload_type := USER_COMPUTE, data_inline := false, user_data_addr := 0 }
  let r1 ← r0.init_buf 0 loc size access_method io_ptr node_id
  let r2 := { r1 with payload := ptr_store compute r1.payload }
  pure { use_default_flags r2 with sync := sync }

end io_request

/-! ## Sample objects for the closed statements -/

/-- A freshly initialised extension without buffers. -/
def sample_extension : io_req_extension :=
  { orig := 0, priv := 0, user_data := 0, num_bufs := 0, partial_flag := false,
    vec_capacity := 0, refcnt := 0, completed_size := 0, vec_pointer := [], embedded := true,
    next := 0, issue_time := (0, 0) }

/-- A compute object of 100 serialized bytes, each of value 7. -/
def sample_compute : user_compute :=
  { serialize := fun b _ => (fun i => if i < 100 then 7 else b i, 100),
    get_serialized_size := 100 }

/-- An address space in which the byte at address `a` is `a mod 256`. -/
def sample_memory : memory :=
  { byte_at := fun a => Fin.ofNat a, ext := fun _ => sample_extension,
    compute := fun _ => sample_compute, page_data := fun a => a,
    ext_in := fun _ => sample_extension, compute_in := fun _ => sample_compute }

/-- Storage filled with zero bytes. -/
def zero_storage : io_request := io_request.construct
  { file_id := 0, offset := 0, buf_size_low := 0, user_data_addr := 0, buf_size_high := 0,
    payload_type := 0, data_inline := false, access_method := 0, sync := false,
    high_prio := false, low_latency := false, discarded := false, node_id := 0, io_addr := 0,
    payload := fun _ => 0 } false

end SAFS

namespace SAFS

/-- The basic request that the constructor builds for the buffer at address
1000 and `size` bytes at offset 4096 of file 3, on node 0, with the default
flags. -/
def sample_basic (size : Fin 65536) (access_method : Fin 2) : io_request :=
  { file_id := 3, offset := 4096, buf_size_low := size, user_data_addr := 0, buf_size_high := 0,
    payload_type := BASIC_REQ, data_inline := false, access_method := access_method,
    sync := false, high_prio := true, low_latency := false, discarded := false, node_id := 0,
    io_addr := 0, payload := ptr_store 1000 zero_storage.payload }

/-- The user-compute request that the constructor builds for the compute object
at address 1000 and a read of 4096 bytes at offset 4096 of file 3. -/
def sample_compute_request : io_request :=
  { sample_basic 4096 0 with
    payload_type := USER_COMPUTE,
    payload := ptr_store 1000 (ptr_store 0 zero_storage.payload) }

/-- The request that `extract` builds in zeroed storage from the read of 4096
bytes at offset 4096 and the range `[5000, 9096)`: 3192 bytes at offset 5000,
in the buffer at address `1000 + 904`. -/
def sample_extracted : io_request :=
  { file_id := 3, offset := 5000, buf_size_low := 3192, user_data_addr := 0, buf_size_high := 0,
    payload_type := BASIC_REQ, data_inline := false, access_method := 0,
    sync := false, high_prio := true, low_latency := false, discarded := false, node_id := 0,
    io_addr := 0, payload := ptr_store 1904 zero_storage.payload }

end SAFS

namespace SAFS

/-! ## Counters, extension state and the operations that go through the extension -/

/-- Conversion of an integer value to `short` (16 bits, signed). -/
def to_short (x : Int) : Int := (x + 32768) % 65536 - 32768

/-- Modelled from the spec: the constant `PAGE_SIZE` of `common.h`, which is
not among the sources; the fixed page size is 4096 bytes. -/
def PAGE_SIZE : Int := 4096

/-- Modelled from the spec: class template `atomic_number` of `concurrency.h`
is not among the sources.  Its `inc(by)` atomically adds `by` to the counter
and returns the counter after the addition; for the counter type `short` the
sum, computed in `int`, is converted to `short`. -/
def atomic_number.inc_short (v d : Int) : Int := to_short (v + d)

/-- Modelled from the spec: `atomic_number<short>::dec(by)` atomically
subtracts `by` from the counter and returns the counter after the
subtraction, converted to `short`. -/
def atomic_number.dec_short (v d : Int) : Int := to_short (v - d)

/-- Modelled from the spec: `atomic_number<ssize_t>::inc(by)` atomically adds
`by` to the counter and returns the counter after the addition; the sum of two
`ssize_t` values is exact, its overflow being undefined. -/
def atomic_number.inc_ssize (v d : Int) : Int := v + d

namespace io_req_extension

/-- Method `inc_ref`: the returned `int` and the extension afterwards. -/
def inc_ref (e : io_req_extension) : Int × io_req_extension :=
  (atomic_number.inc_short e.refcnt 1, { e with refcnt := atomic_number.inc_short e.refcnt 1 })

/-- Method `dec_ref`: the returned `int` and the extension afterwards. -/
def dec_ref (e : io_req_extension) : Int × io_req_extension :=
  (atomic_number.dec_short e.refcnt 1, { e with refcnt := atomic_number.dec_short e.refcnt 1 })

/-- Method `get_ref`. -/
def get_ref (e : io_req_extension) : Int := e.refcnt

/-- Method `inc_completed_size`: the returned `ssize_t` and the extension
afterwards. -/
def inc_completed_size (e : io_req_extension) (size : Int) : Int × io_req_extension :=
  (atomic_number.inc_ssize e.completed_size size,
    { e with completed_size := atomic_number.inc_ssize e.completed_size size })

/-- Method `get_completed_size`. -/
def get_completed_size (e : io_req_extension) : Int := e.completed_size

/-- The effect of `memset(vec_pointer, 0, n * sizeof(io_buf))` on the
descriptor array: its first `n` descriptors become zero. -/
def zero_fill : List io_buf → Nat → List io_buf
  | [], _ => []
  | b :: bs, 0 => b :: bs
  | _ :: bs, n + 1 => default :: zero_fill bs n

/-- Method `init()` of the extension. -/
def init (e : io_req_extension) : io_req_extension :=
  { e with orig := 0, priv := 0, user_data := 0, num_bufs := 0, partial_flag := false,
           vec_pointer := zero_fill e.vec_pointer e.vec_capacity.toNat, next := 0,
           issue_time := (0, 0), refcnt := 0, completed_size := 0 }

end io_req_extension

/-- The address space after the extension found at address `p` has been
replaced by `e`. -/
def memory.store_ext (m : memory) (p : Nat) (e : io_req_extension) : memory :=
  { m with ext := fun q => if q = p then e else m.ext q }

namespace io_request

/-- The write through the pointer that `get_extension()` returned: the
extension of the request becomes `e`.  An extension laid in the bytes that
follow the header (inline flag set) is only read in this embedding. -/
def put_extension (m : memory) (r : io_request) (e : io_req_extension) : Except Abort memory :=
  if r.data_inline then throw Abort.unmodelled
  else pure (m.store_ext (ptr_load r.payload) e)

/-- Method `is_flush`. -/
def is_flush (r : io_request) : Bool :=
  r.sync && r.high_prio && decide (ptr_load r.payload = 0)

/-- Method `is_sync`. -/
def is_sync (r : io_request) : Bool := r.sync

/-- Method `is_discarded`. -/
def is_discarded (r : io_request) : Bool := r.discarded

/-- Method `set_discarded`. -/
def set_discarded (r : io_request) (discarded : Bool) : io_request :=
  { r with discarded := discarded }

/-- Method `is_high_prio`. -/
def is_high_prio (r : io_request) : Bool := r.high_prio

/-- Method `set_high_prio`. -/
def set_high_prio (r : io_request) (high_prio : Bool) : io_request :=
  { r with high_prio := high_prio }

/-- Method `is_low_latency`. -/
def is_low_latency (r : io_request) : Bool := r.low_latency

/-- Method `set_low_latency`. -/
def set_low_latency (r : io_request) (low_latency : Bool) : io_request :=
  { r with low_latency := low_latency }

/-- Method `get_user_data`: the address kept in the signed 48-bit field. -/
def get_user_data (r : io_request) : Nat := to_addr (off48_load r.user_data_addr)

/-- Method `set_user_data`. -/
def set_user_data (r : io_request) (data : Nat) : io_request :=
  { r with user_data_addr := off48_store (to_ssize_t data) }

/-- Method `init()`: the request and the address space afterwards. -/
def init (m : memory) (r : io_request) : Except Abort (io_request × memory) := do
  let r0 := { r with data_inline := false }
  let (r1, m1) ← if r0.is_extended_req = true then do
      let e ← r0.get_extension m
      c_assert (ptr_load r0.payload ≠ 0)
      let m1 ← r0.put_extension m e.init
      pure (r0, m1)
    else
      pure ({ r0 with payload_type := BASIC_REQ, payload := ptr_store 0 r0.payload }, m)
  let r2 := { r1 with file_id := 0, offset := 0, high_prio := false, sync := false,
                      node_id := 0, io_addr := 0, access_method := 0 }
  let r3 ← r2.set_int_buf_size 0
  pure ({ r3 with user_data_addr := 0 }, m1)

/-- Method `get_orig`. -/
def get_orig (m : memory) (r : io_request) : Except Abort Nat := do
  let e ← r.get_extension m
  pure e.orig

/-- Method `set_orig`. -/
def set_orig (m : memory) (r : io_request) (orig : Nat) : Except Abort memory := do
  let e ← r.get_extension m
  r.put_extension m { e with orig := orig }

/-- Method `get_priv`. -/
def get_priv (m : memory) (r : io_request) : Except Abort Nat := do
  let e ← r.get_extension m
  pure e.priv

/-- Method `set_priv`. -/
def set_priv (m : memory) (r : io_request) (priv : Nat) : Except Abort memory := do
  let e ← r.get_extension m
  r.put_extension m { e with priv := priv }

/-- Method `is_empty`. -/
def is_empty (m : memory) (r : io_request) : Except Abort Bool := do
  let e ← r.get_extension m
  pure (decide (e.get_num_bufs = 0))

/-- Method `add_buf`.  The method `add_buf` of the extension is declared in the
header and defined outside the sources; it is the parameter `ext_add_buf`,
called with the buffer, its size and the page bit. -/
def add_buf (ext_add_buf : io_req_extension → Nat → Int → Bool → Except Abort io_req_extension)
    (m : memory) (r : io_request) (buf : Nat) (size : Int) : Except Abort memory := do
  let e ← r.get_extension m
  let e1 ← ext_add_buf e buf size false
  r.put_extension m e1

/-- Method `add_page`, through the same parameter. -/
def add_page (ext_add_buf : io_req_extension → Nat → Int → Bool → Except Abort io_req_extension)
    (m : memory) (r : io_request) (p : Nat) : Except Abort memory := do
  let e ← r.get_extension m
  let e1 ← ext_add_buf e p PAGE_SIZE true
  r.put_extension m e1

/-- Method `add_buf_front`.  The method `add_buf_front` of the extension is
declared in the header and defined outside the sources; it is the parameter
`ext_add_buf_front`. -/
def add_buf_front
    (ext_add_buf_front : io_req_extension → Nat → Int → Bool → Except Abort io_req_extension)
    (m : memory) (r : io_request) (buf : Nat) (size : Int) : Except Abort memory := do
  let e ← r.get_extension m
  let e1 ← ext_add_buf_front e buf size false
  r.put_extension m e1

/-- Method `inc_complete_count`: the returned count and the address space
afterwards. -/
def inc_complete_count (m : memory) (r : io_request) : Except Abort (Int × memory) := do
  let e ← r.get_extension m
  let m1 ← r.put_extension m e.inc_ref.2
  pure (e.inc_ref.1, m1)

/-- Method `dec_complete_count`: the returned count and the address space
afterwards. -/
def dec_complete_count (m : memory) (r : io_request) : Except Abort (Int × memory) := do
  let e ← r.get_extension m
  let m1 ← r.put_extension m e.dec_ref.2
  pure (e.dec_ref.1, m1)

/-- Method `wait4unref`, `while (get_extension()->get_ref() > 0) {}`, run by a
thread on its own: the loop condition is evaluated once and then up to `spins`
more times; `some ()` when the loop is left, `none` when it is still
spinning. -/
def wait4unref (m : memory) (r : io_request) : Nat → Except Abort (Option Unit)
  | 0 => do
    let e ← r.get_extension m
    if e.get_ref > 0 then pure none else pure (some ())
  | spins + 1 => do
    let e ← r.get_extension m
    if e.get_ref > 0 then wait4unref m r spins else pure (some ())

/-- Method `complete_size`: the returned flag and the address space
afterwards. -/
def complete_size (m : memory) (r : io_request) (completed : Int) :
    Except Abort (Bool × memory) := do
  let e ← r.get_extension m
  let res := (e.inc_completed_size completed).1
  let m1 ← r.put_extension m (e.inc_completed_size completed).2
  let size ← r.get_size m1
  c_assert (res ≤ size)
  pure (decide (res = size), m1)

/-- Method `is_complete`. -/
def is_complete (m : memory) (r : io_request) : Except Abort Bool := do
  let e ← r.get_extension m
  let size ← r.get_size m
  pure (decide (e.get_completed_size = size))

/-- Method of `io_request` that sets the one-bit field `partial` of the
extension. -/
def set_partial (m : memory) (r : io_request) (flag : Bool) : Except Abort memory := do
  let e ← r.get_extension m
  r.put_extension m { e with partial_flag := flag }

/-- A sequence of `complete_size` calls on one request: for every call, the
flag it returned and the value of `is_complete()` right after it. -/
def complete_trace (m : memory) (r : io_request) : List Int → Except Abort (List (Bool × Bool))
  | [] => pure []
  | n :: ns => do
    let x ← r.complete_size m n
    let c ← r.is_complete x.2
    let rest ← complete_trace x.2 r ns
    pure ((x.1, c) :: rest)

end io_request

/-- One call that moves the reference count of a request. -/
inductive ref_call where
  | inc
  | dec
  deriving DecidableEq, Repr

/-- A sequence of `inc_complete_count` and `dec_complete_count` calls on one
request: the count each call returned, and the address space afterwards. -/
def ref_trace (m : memory) (r : io_request) : List ref_call → Except Abort (List Int × memory)
  | [] => pure ([], m)
  | ref_call.inc :: cs => do
    let x ← r.inc_complete_count m
    let rest ← ref_trace x.2 r cs
    pure (x.1 :: rest.1, rest.2)
  | ref_call.dec :: cs => do
    let x ← r.dec_complete_count m
    let rest ← ref_trace x.2 r cs
    pure (x.1 :: rest.1, rest.2)

/-- The number of `inc` calls minus the number of `dec` calls after each call
of a sequence, counted from `c`. -/
def running_count (c : Int) : List ref_call → List Int
  | [] => []
  | ref_call.inc :: cs => (c + 1) :: running_count (c + 1) cs
  | ref_call.dec :: cs => (c - 1) :: running_count (c - 1) cs

/-- Structure `thread_callback_s`; the member `cb`, of a type that is not among
the sources, and the three pointers are kept as addresses. -/
structure thread_callback_s where
  cb : Nat
  aio : Nat
  aio_callback : Nat
  cb_allocator : Nat
  req : io_request

/-- Method `callback_allocator::callback_initiator::init`. -/
def callback_initiator.init (m : memory) (cb : thread_callback_s) :
    Except Abort (thread_callback_s × memory) := do
  let x ← cb.req.init m
  pure ({ cb with req := x.1 }, x.2)

/-- An extension with one buffer of 8 bytes at address 1000 and both counters
at zero. -/
def sample_extension8 : io_req_extension :=
  { sample_extension with num_bufs := 1, vec_capacity := 1,
                          vec_pointer := [⟨1000, 8, false⟩] }

/-- An address space in which every extension pointer designates
`sample_extension8`. -/
def sample_ext_memory : memory :=
  { sample_memory with ext := fun _ => sample_extension8 }

/-- The extended request that the constructor builds for the extension at
address 8192 and a read at offset 4096 of file 3. -/
def sample_extended : io_request :=
  { sample_basic 0 0 with
    payload_type := EXT_REQ,
    payload := ptr_store 8192 zero_storage.payload }

end SAFS

namespace SAFS

/-! ## Data locations, buffer descriptors, alignment, the synchronous entry point -/

/-- Declared as `const int INVALID_FILE_ID = -1`. -/
def INVALID_FILE_ID : Int := -1

namespace data_loc_t

/-- Constructor `data_loc_t()`. -/
def construct : data_loc_t := ⟨-1, -1⟩

/-- Constructor `data_loc_t(file_id_t file_id, off_t off)`. -/
def construct_at (file_id : Int) (off : Int) : data_loc_t := ⟨file_id, off⟩

/-- Method `data_loc_t::get_file_id`. -/
def get_file_id (loc : data_loc_t) : Int := loc.file_id

/-- Method `data_loc_t::get_offset`. -/
def get_offset (loc : data_loc_t) : Int := loc.off

end data_loc_t

/-- Declared as `const data_loc_t INVALID_DATA_LOC`, default-constructed. -/
def INVALID_DATA_LOC : data_loc_t := data_loc_t.construct

namespace io_buf

/-- Constructor `io_buf()`. -/
def construct : io_buf := ⟨0, 0, false⟩

/-- Method `init(void *p, int size, bool is_page)`; the size is stored in the
31-bit field. -/
def init_flag (b : io_buf) (p : Nat) (size : Int) (is_page : Bool) : Except Abort io_buf := do
  let b1 := { b with buf := p }
  if is_page = true then c_assert (size = PAGE_SIZE) else pure ()
  pure { b1 with size := Fin.ofNat (size % 2147483648).toNat, is_page := is_page }

/-- Method `init(void *buf, int size)`. -/
def init (b : io_buf) (buf : Nat) (size : Int) : io_buf :=
  { b with buf := buf, size := Fin.ofNat (size % 2147483648).toNat, is_page := false }

/-- Method `get_page`. -/
def get_page (b : io_buf) : Except Abort Nat := do
  c_assert (b.is_page = true)
  pure b.buf

end io_buf

/-- One call of an `init` overload on a buffer descriptor. -/
inductive io_buf_call where
  | init_flag (p : Nat) (size : Int) (is_page : Bool)
  | init (buf : Nat) (size : Int)

/-- The descriptor after one call. -/
def io_buf.call (b : io_buf) : io_buf_call → Except Abort io_buf
  | .init_flag p size is_page => b.init_flag p size is_page
  | .init buf size => pure (b.init buf size)

/-- The descriptor after a sequence of calls, the first of which runs first. -/
def io_buf.run (b : io_buf) : List io_buf_call → Except Abort io_buf
  | [] => pure b
  | c :: cs => do
    let b1 ← b.call c
    io_buf.run b1 cs

namespace io_req_extension

/-- Method `get_orig` of the extension. -/
def get_orig (e : io_req_extension) : Nat := e.orig

/-- Method `get_priv` of the extension. -/
def get_priv (e : io_req_extension) : Nat := e.priv

/-- Method `get_user_data` of the extension. -/
def get_user_data (e : io_req_extension) : Nat := e.user_data

/-- Method `get_next` of the extension. -/
def get_next (e : io_req_extension) : Nat := e.next

/-- Method of the extension that reads its one-bit field `partial`. -/
def is_partial (e : io_req_extension) : Bool := e.partial_flag

end io_req_extension

/-- Modelled from the spec: the macro `ROUND_PAGE` of `common.h`, which is not
among the sources; it rounds an offset down to a multiple of `PAGE_SIZE`. -/
def ROUND_PAGE (off : Int) : Int := off - off % PAGE_SIZE

/-- Modelled from the spec: the macro `ROUND` of `common.h`, which is not among
the sources; it rounds an offset down to a multiple of `base`. -/
def ROUND (off : Int) (base : Int) : Int := off - off % base

namespace io_request

/-- Method `is_valid`. -/
def is_valid (r : io_request) : Bool := decide (r.get_offset ≠ -1)

/-- Method `within_1page`. -/
def within_1page (m : memory) (r : io_request) : Except Abort Bool := do
  let s ← r.get_size m
  pure (decide (r.get_offset + s ≤ ROUND_PAGE r.get_offset + PAGE_SIZE))

/-- Method `inside_RAID_block`.  The global `params` is not among the sources;
the value of `params.get_RAID_block_size()`, a number of pages, is the
parameter `RAID_block_pages`. -/
def inside_RAID_block (RAID_block_pages : Int) (m : memory) (r : io_request) :
    Except Abort Bool := do
  let RAID_block_size := RAID_block_pages * PAGE_SIZE
  let s ← r.get_size m
  pure (decide (ROUND r.get_offset RAID_block_size
    = ROUND (r.get_offset + s - 1) RAID_block_size))

end io_request

/-- Modelled from the spec: the status type `io_status` of `io_interface.h`,
which is not among the sources; the spec names the unsupported-operation
status, returned to the caller, next to the ordinary outcomes of a request. -/
inductive io_status where
  | IO_OK
  | IO_PENDING
  | IO_FAIL
  | IO_UNSUPPORTED
  deriving DecidableEq, Repr

/-- Class `async_io`: its data members, pointers and containers kept as
addresses and association lists. -/
structure async_io where
  buf_idx : Int
  ctx : Nat
  cb : Nat
  AIO_DEPTH : Int
  cb_allocator : Nat
  complete_senders : List (Int × Nat)
  remote_tcbs : List (Int × Nat)
  num_iowait : Int
  num_completed_reqs : Int
  num_local_alloc : Int
  open_files : List (Int × Nat)
  default_io : Nat
  deriving DecidableEq

/-- Method `async_io::access(char *, off_t, ssize_t, int)`: the returned status
and the engine afterwards. -/
def async_io.access (engine : async_io) (_buf : Nat) (_off : Int) (_size : Int)
    (_access_method : Int) : Except Abort (io_status × async_io) :=
  pure (io_status.IO_UNSUPPORTED, engine)

/-- An engine with a queue depth of 32 and no open file. -/
def sample_engine : async_io :=
  { buf_idx := 0, ctx := 4096, cb := 0, AIO_DEPTH := 32, cb_allocator := 8192,
    complete_senders := [], remote_tcbs := [], num_iowait := 0, num_completed_reqs := 0,
    num_local_alloc := 0, open_files := [], default_io := 0 }

end SAFS

namespace fm

open SAFS

/-! ## The index mappings of `NUMA_vector` -/

/-- Class `NUMA_vector`: the members that the index mappings read.  The field
`data_size` is `data.size()`, the number of per-node arrays; the arrays
themselves are read by neither mapping. -/
structure NUMA_vector where
  numa_log : Nat
  numa_mask : Nat
  data_size : Nat
  deriving DecidableEq, Repr

namespace NUMA_vector

/-- Declared as `static const size_t range_size_log = 20`. -/
def range_size_log : Nat := 20

/-- Declared as `static const size_t range_size = 1 << range_size_log`. -/
def range_size : Nat := 1 <<< range_size_log

/-- Declared as `static const size_t range_mask = range_size - 1`. -/
def range_mask : Nat := range_size - 1

/-- Method `get_num_nodes`. -/
def get_num_nodes (v : NUMA_vector) : Nat := v.data_size

/-- Method `map2data`, on a `size_t` index: the node id is an `int`, the local
offset a `size_t`.  A shift by `numa_log` is taken as the shift of a natural
number. -/
def map2data (v : NUMA_vector) (idx : Nat) : Int × Nat :=
  let tmp_idx := idx >>> range_size_log
  let range_idx := idx &&& range_mask
  let node_id := to_int ((tmp_idx &&& v.numa_mask : Nat) : Int)
  let tmp_idx := tmp_idx >>> v.numa_log
  (node_id, ((tmp_idx <<< range_size_log) % 18446744073709551616 + range_idx)
    % 18446744073709551616)

/-- Method `map2logical`: the `int` node id is converted to `size_t` for the
product, and the sum is a `size_t`. -/
def map2logical (v : NUMA_vector) (node_id : Int) (local_off : Nat) : Nat :=
  let off_in_range := local_off &&& range_mask
  let range_id := local_off >>> range_size_log
  ((range_id * range_size % 18446744073709551616 * v.data_size) % 18446744073709551616
    + (range_size * (to_size_t node_id).toNat) % 18446744073709551616
    + off_in_range) % 18446744073709551616

end NUMA_vector

/-- A vector on 4 nodes. -/
def sample_vector : NUMA_vector := ⟨2, 3, 4⟩

/-- A vector on 2^32 nodes. -/
def sample_wide_vector : NUMA_vector := ⟨32, 4294967295, 4294967296⟩

/-! ## The inner product of a column-major matrix

Arrays are addressed in elements: the byte offset `x * entry_size` of the
source is the element offset `x`, and an element is the list of its bytes. -/

/-- The bytes of one element. -/
abbrev entry := List byte

/-- Declared as `const size_t SUB_CHUNK_SIZE = 1024`. -/
def SUB_CHUNK_SIZE : Nat := 1024

/-- The array seen through a pointer `off` elements into `data`. -/
def view (data : Nat → entry) (off : Nat) : Nat → entry := fun x => data (off + x)

/-- The memory `data` after the array at `off` elements has become `arr`. -/
def store_view (data : Nat → entry) (off : Nat) (arr : Nat → entry) : Nat → entry :=
  fun p => if off ≤ p then arr (p - off) else data p

/-- Modelled from the spec: class `bulk_operate` of `bulk_operate.h`, which is
not among the sources.  An operator has the sizes of its two inputs and of its
output and an operation `op` on one pair of elements. -/
structure bulk_operate where
  left_entry_size : Nat
  right_entry_size : Nat
  output_entry_size : Nat
  op : entry → entry → entry

namespace bulk_operate

/-- Modelled from the spec: `runAE(n, left_arr, right, out)` of
`bulk_operate.h` applies the operation to each of the `n` elements of
`left_arr` and the one element `right`; the array `out` afterwards. -/
def runAE (o : bulk_operate) (n : Nat) (left_arr : Nat → entry) (right : entry)
    (out : Nat → entry) : Nat → entry :=
  fun x => if x < n then o.op (left_arr x) right else out x

/-- Modelled from the spec: `runAA(n, left_arr, right_arr, out)` of
`bulk_operate.h` applies the operation to the `n` pairs of elements of
`left_arr` and `right_arr`; the array `out` afterwards. -/
def runAA (o : bulk_operate) (n : Nat) (left_arr right_arr : Nat → entry)
    (out : Nat → entry) : Nat → entry :=
  fun x => if x < n then o.op (left_arr x) (right_arr x) else out x

end bulk_operate

/-- Modelled from the spec: class `mem_dense_matrix` of `mem_dense_matrix.h`,
which is not among the sources, as the right operand uses it: its shape, its
entry size and its virtual element access `get(row, col)`. -/
structure mem_dense_matrix where
  nrow : Nat
  ncol : Nat
  entry_size : Nat
  get : Nat → Nat → entry

/-- Modelled from the spec: class `mem_col_dense_matrix` of
`mem_dense_matrix.h`, which is not among the sources: a column-major matrix,
whose column `c` starts `c * nrow` elements into `data`. -/
structure mem_col_dense_matrix where
  nrow : Nat
  ncol : Nat
  entry_size : Nat
  data : Nat → entry

namespace mem_col_dense_matrix

/-- Method `get_num_rows`. -/
def get_num_rows (a : mem_col_dense_matrix) : Nat := a.nrow

/-- Method `get_num_cols`. -/
def get_num_cols (a : mem_col_dense_matrix) : Nat := a.ncol

/-- Method `get_entry_size`. -/
def get_entry_size (a : mem_col_dense_matrix) : Nat := a.entry_size

/-- Modelled from the spec: `get_col(col)`, the pointer to the column, as an
offset in elements from `data`. -/
def get_col (a : mem_col_dense_matrix) (col : Nat) : Nat := col * a.nrow

/-- Modelled from the spec: `get(row, col)`, the element of the column-major
matrix. -/
def get (a : mem_col_dense_matrix) (row col : Nat) : entry := a.data (a.get_col col + row)

/-- Modelled from the spec: `create(nrow, ncol, entry_size)`; the memory it
allocates holds `raw`. -/
def create (nrow ncol entry_size : Nat) (raw : Nat → entry) : mem_col_dense_matrix :=
  ⟨nrow, ncol, entry_size, raw⟩

/-- Method `reset_data`: `memset` of `nrow * ncol * entry_size` zero bytes. -/
def reset_data (a : mem_col_dense_matrix) : mem_col_dense_matrix :=
  { a with data := fun p => if p < a.get_num_rows * a.get_num_cols
                            then List.replicate a.get_entry_size 0 else a.data p }

/-- Method `mem_dense_matrix::verify_inner_prod`, on a column-major left
operand. -/
def verify_inner_prod (a : mem_col_dense_matrix) (m : mem_dense_matrix)
    (left_op right_op : bulk_operate) : Bool :=
  if a.get_entry_size ≠ left_op.left_entry_size
      ∨ m.entry_size ≠ left_op.right_entry_size then false
  else if left_op.output_entry_size ≠ right_op.left_entry_size then false
  else if right_op.left_entry_size ≠ right_op.right_entry_size
      ∨ right_op.left_entry_size ≠ right_op.output_entry_size then false
  else if a.get_num_cols ≠ m.nrow then false
  else true

end mem_col_dense_matrix

/-- Class `sub_col_matrix`, with the members of its base `sub_matrix`. -/
structure sub_col_matrix where
  start_row : Nat
  start_col : Nat
  nrow : Nat
  ncol : Nat
  m : mem_col_dense_matrix

namespace sub_col_matrix

/-- Constructor `sub_col_matrix(start_row, nrow, start_col, ncol, m)`. -/
def construct (start_row nrow start_col ncol : Nat) (m : mem_col_dense_matrix) :
    Except Abort sub_col_matrix := do
  c_assert (start_row + nrow ≤ m.get_num_rows)
  c_assert (start_col + ncol ≤ m.get_num_cols)
  pure ⟨start_row, start_col, nrow, ncol, m⟩

/-- Method `get_num_rows`. -/
def get_num_rows (s : sub_col_matrix) : Nat := s.nrow

/-- Method `get_start_row`. -/
def get_start_row (s : sub_col_matrix) : Nat := s.start_row

/-- Method `get_start_col`. -/
def get_start_col (s : sub_col_matrix) : Nat := s.start_col

/-- Method `get_col`, as an offset in elements from the data of `m`. -/
def get_col (s : sub_col_matrix) (col : Nat) : Nat :=
  s.m.get_col (s.get_start_col + col) + s.get_start_row

end sub_col_matrix

/-- The values that `k` takes in
`for (size_t k = 0; k < nrow; k += SUB_CHUNK_SIZE)`. -/
def chunk_starts (nrow : Nat) : List Nat :=
  (List.range ((nrow + SUB_CHUNK_SIZE - 1) / SUB_CHUNK_SIZE)).map fun c => c * SUB_CHUNK_SIZE

namespace mem_col_dense_matrix

/-- One round of the loop over `k` in `inner_prod`: the data of the result and
the array `tmp_res` afterwards. -/
def inner_prod_chunk (a : mem_col_dense_matrix) (m : mem_dense_matrix)
    (left_op right_op : bulk_operate) (res : mem_col_dense_matrix)
    (st : (Nat → entry) × (Nat → entry)) (k : Nat) :
    Except Abort ((Nat → entry) × (Nat → entry)) := do
  let subm ← sub_col_matrix.construct k (min SUB_CHUNK_SIZE (a.get_num_rows - k)) 0
    a.get_num_cols a
  pure ((List.range a.get_num_cols).foldl (fun st i =>
    (List.range m.ncol).foldl (fun st j =>
      let tmp_res := left_op.runAE subm.get_num_rows (view a.data (subm.get_col i))
        (m.get i j) st.2
      let store_col := res.get_col j + k
      (store_view st.1 store_col
        (right_op.runAA subm.get_num_rows tmp_res (view st.1 store_col) (view st.1 store_col)),
       tmp_res)) st) st)

/-- Method `mem_col_dense_matrix::inner_prod`: `none` is the null pointer.
The memory that `create` and `malloc` return holds `raw` and `tmp_raw`. -/
def inner_prod (a : mem_col_dense_matrix) (m : mem_dense_matrix)
    (left_op right_op : bulk_operate) (raw tmp_raw : Nat → entry) :
    Except Abort (Option mem_col_dense_matrix) :=
  if a.verify_inner_prod m left_op right_op = false then pure none
  else do
    let ncol := a.get_num_cols
    let nrow := a.get_num_rows
    c_assert (nrow > ncol)
    let res := (create nrow m.ncol right_op.output_entry_size raw).reset_data
    let st ← (chunk_starts nrow).foldlM (a.inner_prod_chunk m left_op right_op res)
      (res.data, tmp_raw)
    pure (some { res with data := st.1 })

/-- The inner product as the specification states it: the entry at row `r` and
column `j` folds `right_op` over `i = 0 .. ncol - 1` of
`left_op(A[r][i], B[i][j])` into an accumulator that starts as zero bytes. -/
def inner_prod_spec (a : mem_col_dense_matrix) (m : mem_dense_matrix)
    (left_op right_op : bulk_operate) (r j : Nat) : entry :=
  (List.range a.ncol).foldl
    (fun acc i => right_op.op (left_op.op (a.get r i) (m.get i j)) acc)
    (List.replicate right_op.output_entry_size 0)

end mem_col_dense_matrix

/-- One-byte multiplication. -/
def sample_mul : bulk_operate :=
  ⟨1, 1, 1, fun x y => [x.headD 0 * y.headD 0]⟩

/-- One-byte addition. -/
def sample_add : bulk_operate :=
  ⟨1, 1, 1, fun x y => [x.headD 0 + y.headD 0]⟩

/-- A column-major matrix of 3 rows and 2 columns of one-byte elements: the
element at row `r` and column `c` is `3 * c + r + 1`. -/
def sample_left : mem_col_dense_matrix :=
  ⟨3, 2, 1, fun p => [Fin.ofNat (p + 1)]⟩

/-- A matrix of 2 rows and 2 columns of one-byte elements: the element at row
`i` and column `j` is `10 * i + j + 1`. -/
def sample_right : mem_dense_matrix :=
  ⟨2, 2, 1, fun i j => [Fin.ofNat (10 * i + j + 1)]⟩

/-- A right operand of 3 rows, which does not match `sample_left`. -/
def sample_mismatch : mem_dense_matrix :=
  ⟨3, 2, 1, fun i j => [Fin.ofNat (10 * i + j + 1)]⟩

end fm

namespace SAFS
open io_request

theorem to_int_eq (x : Int) (h1 : -2147483648 ≤ x) (h2 : x < 2147483648) : to_int x = x := by
  unfold to_int; omega

theorem to_unsigned_eq (x : Int) (h1 : 0 ≤ x) (h2 : x < 4294967296) : to_unsigned x = x := by
  unfold to_unsigned; omega

theorem ptr_load_store (x : Nat) (p : Nat → byte) :
    ptr_load (ptr_store x p) = x % 18446744073709551616 := by
  simp only [ptr_load, ptr_store, Fin.ofNat]
  simp
  omega

theorem ptr_load_congr (p q : Nat → byte) (h : ∀ i : Nat, i < 8 → p i = q i) :
    ptr_load p = ptr_load q := by
  simp only [ptr_load, h 0 (by omega), h 1 (by omega), h 2 (by omega), h 3 (by omega),
    h 4 (by omega), h 5 (by omega), h 6 (by omega), h 7 (by omega)]

theorem is_extended_req_of_ne (r : io_request) (h : r.payload_type ≠ EXT_REQ) :
    r.is_extended_req = false := by
  simp [is_extended_req, h]

theorem get_size_of_not_extended (m : memory) (r : io_request) (h : r.payload_type ≠ EXT_REQ) :
    r.get_size m = .ok (to_ssize_t r.get_int_buf_size) := by
  simp [get_size, is_extended_req_of_ne r h, pure, Except.pure]

theorem get_size_int_range (m : memory) (r : io_request) (n : Int) (h : r.payload_type ≠ EXT_REQ)
    (hn : r.get_size m = .ok n) : -2147483648 ≤ n ∧ n < 2147483648 := by
  rw [get_size_of_not_extended m r h] at hn
  injection hn with hn
  subst hn
  simp only [to_ssize_t, get_int_buf_size, to_size_t, to_int]
  omega

end SAFS

namespace SAFS
open io_request

/-! ## Branches of `serialize` and `deserialize` -/

theorem serialize_basic_inline (m : memory) (r buf : io_request) (size n : Int)
    (hkind : r.payload_type = BASIC_REQ) (hinl : r.is_data_inline = false)
    (hwrite : r.access_method.val = WRITE) (hn : r.get_size m = .ok n)
    (hlo : 0 ≤ n) (hhi : n ≤ MAX_INLINE_SIZE) (hsize : payload_offset + n ≤ size) :
    r.serialize m buf size true = .ok (payload_offset + n, r,
      { toio_request_header := { r.toio_request_header with data_inline := true },
        payload := fun i => if (i : Int) < n then m.byte_at (ptr_load r.payload + i)
                            else if (i : Int) < sizeof_payload then r.payload i
                            else buf.payload i }) := by
  have hne : BASIC_REQ ≠ EXT_REQ := by decide
  have hs : to_int (sizeof_io_request - sizeof_payload + n) = payload_offset + n := by
    simp only [MAX_INLINE_SIZE, payload_offset, sizeof_io_request, sizeof_payload] at *
    exact to_int_eq _ (by omega) (by omega)
  have h1 : ¬ (n > MAX_INLINE_SIZE) := by omega
  have h2 : ¬ ((r.access_method : Nat) = READ) := by rw [hwrite]; decide
  have h3 : ¬ (n < 0) := by omega
  simp [serialize, hinl, hne, hkind, hn, bind, Except.bind, pure, Except.pure, c_assert, h1, h2, h3,
    hs, hsize, memcpy_request]

theorem serialize_basic_plain (m : memory) (r buf : io_request) (size : Int)
    (accept_inline : Bool)
    (hkind : r.payload_type = BASIC_REQ) (hinl : r.is_data_inline = false)
    (hcase : r.access_method.val = READ
      ∨ (∃ n, r.get_size m = .ok n ∧ MAX_INLINE_SIZE < n) ∨ accept_inline = false)
    (hsize : sizeof_io_request ≤ size) :
    r.serialize m buf size accept_inline = .ok (sizeof_io_request, r, memcpy_request buf r) := by
  have hne : BASIC_REQ ≠ EXT_REQ := by decide
  have hg := get_size_of_not_extended m r (by rw [hkind]; exact hne)
  have hc : to_ssize_t r.get_int_buf_size > MAX_INLINE_SIZE ∨ (r.access_method : Nat) = READ
      ∨ accept_inline = false := by
    rcases hcase with h | ⟨n, h1, h2⟩ | h
    · exact Or.inr (Or.inl h)
    · rw [hg] at h1
      injection h1 with h1
      left; omega
    · exact Or.inr (Or.inr h)
  simp [serialize, hinl, hne, hkind, hg, bind, Except.bind, pure, Except.pure, c_assert, hc, hsize]

theorem serialize_extended (m : memory) (r buf : io_request) (size : Int) (accept_inline : Bool)
    (hkind : r.payload_type = EXT_REQ) (hinl : r.is_data_inline = false)
    (hsize : sizeof_io_request ≤ size) :
    r.serialize m buf size accept_inline = .ok (sizeof_io_request,
      { r with payload := ptr_store 0 r.payload, payload_type := BASIC_REQ },
      memcpy_request buf r) := by
  simp [serialize, hinl, hkind, bind, Except.bind, pure, Except.pure, c_assert, hsize]

theorem deserialize_not_inline (req wire : io_request) (buf_addr : Nat) (size : Int)
    (hinl : wire.is_data_inline = false) (hsize : sizeof_io_request ≤ to_unsigned size) :
    deserialize req buf_addr wire size = .ok (memcpy_request req wire) := by
  have h : (memcpy_request req wire).is_data_inline = false := hinl
  simp [deserialize, bind, Except.bind, pure, Except.pure, c_assert, hsize, h]

theorem deserialize_inline_basic (req wire : io_request) (buf_addr : Nat) (size : Int)
    (hinl : wire.is_data_inline = true) (hkind : wire.payload_type = BASIC_REQ)
    (hsize : sizeof_io_request ≤ to_unsigned size) :
    deserialize req buf_addr wire size = .ok
      { toio_request_header := { wire.toio_request_header with data_inline := false },
        payload := ptr_store (to_addr ((buf_addr : Int) + payload_offset))
          (memcpy_request req wire).payload } := by
  have h : (memcpy_request req wire).is_data_inline = true := hinl
  have hk : (memcpy_request req wire).payload_type = BASIC_REQ := hkind
  have hne : BASIC_REQ ≠ EXT_REQ := by decide
  simp [deserialize, bind, Except.bind, pure, Except.pure, c_assert, hsize, h, hk, hne]
  simp [memcpy_request, hkind]

end SAFS

namespace SAFS
open io_request

theorem get_size_header_congr (m : memory) (r q : io_request) (hk : r.payload_type ≠ EXT_REQ)
    (h1 : q.payload_type = r.payload_type) (h2 : q.buf_size_high = r.buf_size_high)
    (h3 : q.buf_size_low = r.buf_size_low) : q.get_size m = r.get_size m := by
  rw [get_size_of_not_extended m r hk, get_size_of_not_extended m q (by rw [h1]; exact hk)]
  simp only [get_int_buf_size, h2, h3]

theorem get_serialized_size_basic_small (m : memory) (r : io_request) (n : Int)
    (hkind : r.payload_type = BASIC_REQ) (hwrite : r.access_method.val = WRITE)
    (hn : r.get_size m = .ok n) (hlo : 0 ≤ n) (hhi : n ≤ MAX_INLINE_SIZE) :
    r.get_serialized_size m = .ok (payload_offset + n) := by
  have hne : BASIC_REQ ≠ EXT_REQ := by decide
  have hs : to_int (sizeof_io_request - sizeof_payload + n) = payload_offset + n := by
    simp only [MAX_INLINE_SIZE, payload_offset, sizeof_io_request, sizeof_payload] at *
    exact to_int_eq _ (by omega) (by omega)
  have h1 : ¬ (n > MAX_INLINE_SIZE) := by omega
  have h2 : ¬ ((r.access_method : Nat) = READ) := by rw [hwrite]; decide
  simp only [get_serialized_size, hkind, hne, ↓reduceIte, hn, bind, Except.bind, h1, h2, or_self,
    hs, pure, Except.pure]

theorem deserialize_ptr_accepts (m : memory) (w : io_request) (size s : Int)
    (hs : w.get_serialized_size m = .ok s) (hu : sizeof_io_request ≤ to_unsigned size)
    (hle : s ≤ size) : deserialize_ptr m w size = .ok w := by
  simp only [deserialize_ptr, hs, bind, Except.bind, c_assert, hu, hle, ge_iff_le, ↓reduceIte,
    pure, Except.pure]

theorem serialize_inline_carrying (m : memory) (r buf : io_request) (size s : Int)
    (hinl : r.is_data_inline = true) (hs : r.get_serialized_size m = .ok s)
    (hsize : s ≤ size) (hcover : payload_offset ≤ s) :
    r.serialize m buf size true = .ok (s, r,
      { toio_request_header := r.toio_request_header,
        payload := fun i => if (i : Int) < s - payload_offset then r.payload i
                            else buf.payload i }) := by
  simp only [serialize, hinl, ↓reduceIte, c_assert, bind, Except.bind, hs, hsize, memcpy_image,
    hcover, pure, Except.pure]

end SAFS

namespace SAFS
open io_request

/-! ## Facts about `extract` -/

theorem off48_load_store (x : Int) (h1 : -140737488355328 ≤ x) (h2 : x < 140737488355328) :
    off48_load (off48_store x) = x := by
  simp only [off48_load, off48_store, Fin.ofNat]
  split <;> omega

theorem off48_load_range (v : Fin 281474976710656) :
    -140737488355328 ≤ off48_load v ∧ off48_load v < 140737488355328 := by
  have := v.isLt
  simp only [off48_load]
  split <;> omega

theorem get_size_range (m : memory) (r : io_request) (s : Int) (hs : r.get_size m = .ok s) :
    -2147483648 ≤ s ∧ s < 2147483648 := by
  by_cases hk : r.payload_type = EXT_REQ
  · simp only [get_size, is_extended_req, hk, decide_True, Bool.true_eq_false, ↓reduceIte, bind,
      Except.bind] at hs
    cases he : r.get_extension m with
    | error a => rw [he] at hs; cases hs
    | ok e =>
      rw [he] at hs
      simp only [pure, Except.pure] at hs
      injection hs with hs
      subst hs
      simp only [io_req_extension.get_size, to_int]
      omega
  · exact get_size_int_range m r s hk hs

theorem buf_size_split (x : Int) (h1 : 0 ≤ x) (h2 : x < 2147483648) :
    to_ssize_t (to_size_t (to_int (to_int
      (((Fin.ofNat (x / 65536).toNat : Fin 65536).val : Int) * 65536)
      + ((Fin.ofNat (x % 65536).toNat : Fin 65536).val : Int)))) = x := by
  simp only [to_ssize_t, to_size_t, to_int, Fin.ofNat]
  omega

theorem init_buf_basic (e dst : io_request) (buf : Nat) (loc : data_loc_t) (size : Int)
    (access_method : Int) (io_ptr : Nat) (node_id : Int)
    (hne : e.payload_type ≠ EXT_REQ)
    (h : e.init_buf buf loc size access_method io_ptr node_id = .ok dst) :
    to_size_t size ≤ MAX_BUF_SIZE
    ∧ dst.payload_type = e.payload_type
    ∧ dst.offset = off48_store loc.off
    ∧ dst.file_id = loc.file_id
    ∧ dst.buf_size_high = Fin.ofNat (to_size_t size / 65536).toNat
    ∧ dst.buf_size_low = Fin.ofNat (to_size_t size % 65536).toNat
    ∧ dst.payload = ptr_store buf e.payload := by
  have hx : (decide (e.payload_type = EXT_REQ)) = false := by simp [hne]
  simp only [init_buf, set_data_loc, set_io, is_extended_req, hx, Bool.false_eq_true, ↓reduceIte,
    set_int_buf_size, set_node_id, c_assert, bind, Except.bind, pure, Except.pure] at h
  by_cases hsz : to_size_t size ≤ MAX_BUF_SIZE
  · by_cases hnode : node_id ≤ MAX_NODE_ID
    · simp only [hsz, hnode, ↓reduceIte] at h
      injection h with h
      subst h
      exact ⟨hsz, rfl, rfl, rfl, rfl, rfl, rfl⟩
    · simp only [hsz, hnode, ↓reduceIte] at h
      cases h
  · simp only [hsz, ↓reduceIte] at h
    cases h

theorem extract_result (m : memory) (r e dst : io_request) (off size : Int)
    (hex : r.extract m off size e = .ok dst) :
    ∃ s b, r.get_size m = .ok s ∧ r.get_num_bufs m = .ok 1
      ∧ extract_check r.get_offset s off size = true
      ∧ e.init_buf (if off ≤ r.get_offset then b else to_addr ((b : Int) + (off - r.get_offset)))
          ⟨r.get_file_id, if off ≤ r.get_offset then r.get_offset else off⟩
          (min (off + size - (if off ≤ r.get_offset then r.get_offset else off))
            (r.get_offset + s - (if off ≤ r.get_offset then r.get_offset else off)))
          r.get_access_method r.get_io r.get_node_id = .ok dst := by
  simp only [extract, bind, Except.bind, c_assert] at hex
  cases h1 : r.get_num_bufs m with
  | error a => rw [h1] at hex; cases hex
  | ok nb =>
    rw [h1] at hex
    simp only at hex
    by_cases hnb : nb = 1
    · simp only [hnb, ↓reduceIte] at hex
      cases h2 : r.get_size m with
      | error a => rw [h2] at hex; cases hex
      | ok s =>
        rw [h2] at hex
        simp only at hex
        by_cases hc : extract_check r.get_offset s off size = true
        · simp only [hc, ↓reduceIte] at hex
          cases h3 : r.get_buf m 0 with
          | error a => rw [h3] at hex; cases hex
          | ok b =>
            rw [h3] at hex
            exact ⟨s, b, rfl, by rw [hnb], hc, hex⟩
        · simp only [hc, ↓reduceIte] at hex
          cases hex
    · simp only [hnb, ↓reduceIte] at hex
      cases hex

/-! ## The sample requests are the ones the code builds -/

theorem sample_write_constructed :
    construct_buf zero_storage 1000 ⟨3, 4096⟩ 64 WRITE 0 0 false = .ok (sample_basic 64 1) := by
  rfl

theorem sample_read_constructed :
    construct_buf zero_storage 1000 ⟨3, 4096⟩ 4096 READ 0 0 false = .ok (sample_basic 4096 0) := by
  rfl

theorem sample_compute_request_constructed :
    construct_compute zero_storage 1000 ⟨3, 4096⟩ 4096 READ 0 0 false
      = .ok sample_compute_request := by
  rfl

theorem sample_extracted_built :
    (sample_basic 4096 0).extract sample_memory 5000 4096 zero_storage
      = .ok sample_extracted := by
  rfl

end SAFS

namespace SAFS
open io_request

/-! ## Inline serialization of small writes -/

/-- C1, as stated, fails on the spec scenario (a write of 64 bytes at offset
4096 of file 3 on node 0, serialized with inlining permitted and deserialized
with the returned size): the request filled by
`deserialize(req, buf, size)` has the header of the source but reports
`is_data_inline() == false`, and the in-place view returned by
`deserialize(buf, size)` reports `is_data_inline() == true` but its header
differs from the source header and its buffer field holds the first payload
bytes instead of an address inside the wire buffer. -/
theorem inline_roundtrip_flag_counterexample :
    ((construct_buf zero_storage 1000 ⟨3, 4096⟩ 64 WRITE 0 0 false).bind fun r =>
      (r.serialize sample_memory zero_storage 4096 true).bind fun x =>
        (deserialize zero_storage 65536 x.2.2 x.1).map fun d =>
          (d.is_data_inline, decide (d.toio_request_header = r.toio_request_header)))
      = .ok (false, true)
    ∧ ((construct_buf zero_storage 1000 ⟨3, 4096⟩ 64 WRITE 0 0 false).bind fun r =>
      (r.serialize sample_memory zero_storage 4096 true).bind fun x =>
        (deserialize_ptr sample_memory x.2.2 x.1).map fun v =>
          (v.is_data_inline, decide (v.toio_request_header = r.toio_request_header),
            v.get_buf sample_memory 0))
      = .ok (true, false, .ok 17289017621348018664) := by
  constructor <;> rfl

/-- C1, amended: for every basic write request that does not already carry
inline data and whose payload has `n` bytes with
`sizeof_payload <= n <= MAX_INLINE_SIZE`, `serialize` with inlining permitted
into a buffer of at least `payload_offset + n` bytes returns
`payload_offset + n` and leaves the request unchanged; the wire header has the
inline flag set; `deserialize(req, buf, size)` with the returned size succeeds
and yields a request whose header fields are those of the source, whose buffer
address is the payload slot of the wire buffer (`buf + payload_offset`), where
the `n` payload bytes equal the source buffer, and on which
`is_data_inline()` is false. -/
theorem serialize_deserialize_inline_write (m : memory) (r buf req : io_request)
    (size n : Int) (buf_addr : Nat)
    (hkind : r.payload_type = BASIC_REQ) (hinl : r.is_data_inline = false)
    (hwrite : r.access_method.val = WRITE) (hn : r.get_size m = .ok n)
    (hlo : sizeof_payload ≤ n) (hhi : n ≤ MAX_INLINE_SIZE)
    (hsize : payload_offset + n ≤ size)
    (haddr : (buf_addr : Int) + payload_offset < 18446744073709551616) :
    ∃ wire dst,
      r.serialize m buf size true = .ok (payload_offset + n, r, wire)
      ∧ wire.is_data_inline = true
      ∧ deserialize req buf_addr wire (payload_offset + n) = .ok dst
      ∧ dst.toio_request_header = r.toio_request_header
      ∧ dst.get_buf m 0 = .ok (buf_addr + payload_offset.toNat)
      ∧ (∀ i : Nat, (i : Int) < n → wire.payload i = m.byte_at (ptr_load r.payload + i))
      ∧ dst.is_data_inline = false := by
  have hn0 : 0 ≤ n := by simp only [sizeof_payload] at hlo; omega
  have hser := serialize_basic_inline m r buf size n hkind hinl hwrite hn hn0 hhi hsize
  have hu : sizeof_io_request ≤ to_unsigned (payload_offset + n) := by
    simp only [MAX_INLINE_SIZE, payload_offset, sizeof_io_request, sizeof_payload,
      to_unsigned] at *
    omega
  refine ⟨_, _, hser, rfl, deserialize_inline_basic req _ buf_addr _ rfl hkind hu, ?_, ?_, ?_, rfl⟩
  · rcases r with ⟨⟨⟩, _⟩
    simp only [is_data_inline] at hinl
    simp [hinl]
  · have hne : BASIC_REQ ≠ EXT_REQ := by decide
    have hto : to_addr ((buf_addr : Int) + payload_offset) = buf_addr + payload_offset.toNat := by
      simp only [payload_offset, sizeof_io_request, sizeof_payload, to_addr] at *
      omega
    have hmod : (buf_addr + payload_offset.toNat) % 18446744073709551616
        = buf_addr + payload_offset.toNat := by
      simp only [payload_offset, sizeof_io_request, sizeof_payload] at *
      omega
    simp only [get_buf, is_extended_req, hkind, hne, decide_False, ↓reduceIte, pure, Except.pure,
      ptr_load_store, hto, hmod]
  · intro i hi
    simp [hi]

end SAFS

namespace SAFS
open io_request

/-- Instance of the amended C1 statement on the sample write of 64 bytes. -/
theorem serialize_deserialize_inline_write_witness :
    ∃ wire dst,
      (sample_basic 64 1).serialize sample_memory zero_storage 4096 true
        = .ok (payload_offset + 64, sample_basic 64 1, wire)
      ∧ wire.is_data_inline = true
      ∧ deserialize zero_storage 65536 wire (payload_offset + 64) = .ok dst
      ∧ dst.toio_request_header = (sample_basic 64 1).toio_request_header
      ∧ dst.get_buf sample_memory 0 = .ok (65536 + payload_offset.toNat)
      ∧ (∀ i : Nat, (i : Int) < 64 → wire.payload i
          = sample_memory.byte_at (ptr_load (sample_basic 64 1).payload + i))
      ∧ dst.is_data_inline = false :=
  serialize_deserialize_inline_write sample_memory (sample_basic 64 1) zero_storage zero_storage
    4096 64 65536 (by decide) (by decide) (by decide) (by rfl) (by decide) (by decide)
    (by decide) (by decide)

/-! ## Serialized size -/

/-- C2, as stated, fails for user-compute requests: the user-compute read
request of 4096 bytes whose compute object has 100 serialized bytes reports
`get_serialized_size() == payload_offset + 100`, which is not
`sizeof(io_request)`. -/
theorem serialized_size_user_compute_counterexample :
    ((construct_compute zero_storage 1000 ⟨3, 4096⟩ 4096 READ 0 0 false).bind fun r =>
      (r.get_size sample_memory).bind fun n =>
        (r.get_serialized_size sample_memory).map fun s =>
          (decide (n > MAX_INLINE_SIZE), decide (r.access_method.val = READ), s,
            decide (s = sizeof_io_request)))
      = .ok (true, true, 132, false) := by
  rfl

/-- C2, amended: for every extended request, and for every basic request that
is a read or whose payload size exceeds `MAX_INLINE_SIZE`,
`get_serialized_size()` is exactly `sizeof(io_request)`. -/
theorem get_serialized_size_header_only (m : memory) (r : io_request)
    (hkind : r.payload_type = EXT_REQ ∨ r.payload_type = BASIC_REQ)
    (hcase : (∃ n, r.get_size m = .ok n ∧ MAX_INLINE_SIZE < n) ∨ r.access_method.val = READ) :
    r.get_serialized_size m = .ok sizeof_io_request := by
  rcases hkind with hkind | hkind
  · simp [get_serialized_size, hkind, pure, Except.pure]
  · have hne : BASIC_REQ ≠ EXT_REQ := by decide
    have hg := get_size_of_not_extended m r (by rw [hkind]; exact hne)
    have hc : to_ssize_t r.get_int_buf_size > MAX_INLINE_SIZE ∨ (r.access_method : Nat) = READ := by
      rcases hcase with ⟨n, h1, h2⟩ | h
      · rw [hg] at h1
        injection h1 with h1
        left; omega
      · exact Or.inr h
    simp [get_serialized_size, hkind, hne, hg, bind, Except.bind, pure, Except.pure, hc]

/-- Instance of the amended C2 statement on the sample read of 4096 bytes. -/
theorem get_serialized_size_header_only_witness :
    (sample_basic 4096 0).get_serialized_size sample_memory = .ok sizeof_io_request :=
  get_serialized_size_header_only sample_memory (sample_basic 4096 0) (Or.inr (by decide))
    (Or.inl ⟨4096, by rfl, by decide⟩)

/-- C3, as stated, fails on its own witness: for the write of 64 bytes at offset
4096 of file 3 on node 0, `serialize` without inlining returns the header size
`H = 40`, and with inlining permitted it returns 96, which is `H + 56` and not
`H + 64`. -/
theorem inline_size_counterexample :
    ((construct_buf zero_storage 1000 ⟨3, 4096⟩ 64 WRITE 0 0 false).bind fun r =>
      (r.serialize sample_memory zero_storage 4096 false).bind fun x =>
        (r.serialize sample_memory zero_storage 4096 true).map fun y =>
          (x.1, y.1, decide (y.1 = x.1 + 64)))
      = .ok (40, 96, false) := by
  rfl

/-- C3, amended: let `H = sizeof(io_request)` be the size `serialize` returns
for a request that is not inlined.  For every basic write request of `n` bytes,
`0 <= n <= MAX_INLINE_SIZE`, that does not already carry inline data,
`serialize` with inlining permitted into a buffer that holds both `H` and
`H - sizeof_payload + n` bytes returns exactly `H - sizeof_payload + n`: the
payload is laid over the `payload` union of the header.  The `n` bytes that end
the returned size, those at the offsets `payload_offset + i` of the wire buffer
for `i < n`, equal the source buffer. -/
theorem serialize_inline_size (m : memory) (r buf : io_request) (size n : Int)
    (hkind : r.payload_type = BASIC_REQ) (hinl : r.is_data_inline = false)
    (hwrite : r.access_method.val = WRITE) (hn : r.get_size m = .ok n)
    (hlo : 0 ≤ n) (hhi : n ≤ MAX_INLINE_SIZE)
    (hsize : sizeof_io_request - sizeof_payload + n ≤ size) (hhdr : sizeof_io_request ≤ size) :
    Except.map Prod.fst (r.serialize m buf size false) = .ok sizeof_io_request
    ∧ ∃ wire, r.serialize m buf size true
        = .ok (sizeof_io_request - sizeof_payload + n, r, wire)
      ∧ sizeof_io_request - sizeof_payload + n - n = payload_offset
      ∧ ∀ i : Nat, (i : Int) < n → wire.payload i = m.byte_at (ptr_load r.payload + i) := by
  constructor
  · rw [serialize_basic_plain m r buf _ false hkind hinl (Or.inr (Or.inr rfl)) hhdr]
    rfl
  · refine ⟨_, serialize_basic_inline m r buf size n hkind hinl hwrite hn hlo hhi hsize, ?_, ?_⟩
    · simp only [payload_offset]; omega
    · intro i hi
      simp [hi]

/-- Instance of the amended C3 statement on the sample write of 64 bytes. -/
theorem serialize_inline_size_witness :
    Except.map Prod.fst ((sample_basic 64 1).serialize sample_memory zero_storage 4096 false)
        = .ok sizeof_io_request
    ∧ ∃ wire, (sample_basic 64 1).serialize sample_memory zero_storage 4096 true
        = .ok (sizeof_io_request - sizeof_payload + 64, sample_basic 64 1, wire)
      ∧ sizeof_io_request - sizeof_payload + 64 - 64 = payload_offset
      ∧ ∀ i : Nat, (i : Int) < 64 → wire.payload i
          = sample_memory.byte_at (ptr_load (sample_basic 64 1).payload + i) :=
  serialize_inline_size sample_memory (sample_basic 64 1) zero_storage 4096 64
    (by decide) (by decide) (by decide) (by rfl) (by decide) (by decide) (by decide) (by decide)

end SAFS

namespace SAFS
open io_request

/-! ## Extended requests -/

/-- C4, evaluated on the extended request built for the extension at address
8192 (a read at offset 4096 of file 3): `serialize` returns
`sizeof(io_request)`, but the header found in the wire buffer still has the
payload kind `EXT_REQ` and the extension pointer 8192; the two assignments that
clear them are applied to the request itself after the copy. -/
theorem serialize_extended_wire_header :
    ((construct_ext zero_storage 8192 ⟨3, 4096⟩ READ 0 0 false).bind fun r =>
      (r.serialize sample_memory zero_storage 4096 true).map fun x =>
        (x.1, x.2.2.payload_type, ptr_load x.2.2.payload))
      = .ok (sizeof_io_request, EXT_REQ, 8192) := by
  rfl

/-- C5, evaluated on the same extended request: before the call the request is
extended and refers to the extension at address 8192; after `serialize` it
reports `is_extended_req() == false` and its payload reference is null. -/
theorem serialize_extended_changes_request :
    ((construct_ext zero_storage 8192 ⟨3, 4096⟩ READ 0 0 false).bind fun r =>
      (r.serialize sample_memory zero_storage 4096 true).map fun x =>
        (r.is_extended_req, ptr_load r.payload, x.2.1.is_extended_req, ptr_load x.2.1.payload))
      = .ok (true, 8192, false, 0) := by
  rfl

/-! ## Requests serialized as the header only -/

/-- C6: for every basic request that does not already carry inline data and
that is a read, or whose size exceeds `MAX_INLINE_SIZE`, or that is serialized
with `accept_inline` false, `serialize` into a buffer of at least
`sizeof(io_request)` bytes returns `sizeof(io_request)` and leaves the request
unchanged; the wire buffer holds the header fields and the eight bytes of the
`payload` union of the request, with the inline flag clear, and no byte beyond
them is written; `deserialize(req, buf, size)` of that wire buffer yields a
request with the same header fields and the same buffer address. -/
theorem serialize_header_only_roundtrip (m : memory) (r buf req : io_request) (size : Int)
    (accept_inline : Bool) (buf_addr : Nat)
    (hkind : r.payload_type = BASIC_REQ) (hinl : r.is_data_inline = false)
    (hcase : r.access_method.val = READ
      ∨ (∃ n, r.get_size m = .ok n ∧ MAX_INLINE_SIZE < n) ∨ accept_inline = false)
    (hsize : sizeof_io_request ≤ size) :
    ∃ wire dst,
      r.serialize m buf size accept_inline = .ok (sizeof_io_request, r, wire)
      ∧ wire.toio_request_header = r.toio_request_header
      ∧ (∀ i : Nat, (i : Int) < sizeof_payload → wire.payload i = r.payload i)
      ∧ (∀ i : Nat, sizeof_payload ≤ (i : Int) → wire.payload i = buf.payload i)
      ∧ wire.is_data_inline = false
      ∧ deserialize req buf_addr wire sizeof_io_request = .ok dst
      ∧ dst.toio_request_header = r.toio_request_header
      ∧ (∀ i : Nat, (i : Int) < sizeof_payload → dst.payload i = r.payload i)
      ∧ dst.get_buf m 0 = r.get_buf m 0
      ∧ dst.get_size m = r.get_size m := by
  have hne : BASIC_REQ ≠ EXT_REQ := by decide
  have hw : (memcpy_request buf r).is_data_inline = false := hinl
  have hd := deserialize_not_inline req (memcpy_request buf r) buf_addr sizeof_io_request hw
    (by decide)
  have hp : ∀ i : Nat, (i : Int) < sizeof_payload →
      (memcpy_request req (memcpy_request buf r)).payload i = r.payload i := by
    intro i hi
    simp [memcpy_request, hi]
  have hk : (memcpy_request req (memcpy_request buf r)).payload_type = BASIC_REQ := hkind
  refine ⟨_, _, serialize_basic_plain m r buf size accept_inline hkind hinl hcase hsize,
    rfl, ?_, ?_, hw, hd, rfl, hp, ?_, ?_⟩
  · intro i hi
    simp [memcpy_request, hi]
  · intro i hi
    have : ¬ ((i : Int) < sizeof_payload) := by omega
    simp [memcpy_request, this]
  · simp only [get_buf, is_extended_req, hk, hkind, hne, decide_False, ↓reduceIte]
    rw [ptr_load_congr _ r.payload]
    intro i hi
    exact hp i (by simp only [sizeof_payload]; omega)
  · rw [get_size_of_not_extended m r (by rw [hkind]; exact hne),
      get_size_of_not_extended m _ (by rw [hk]; exact hne)]
    rfl

/-- Instance of the C6 statement on the sample read of 4096 bytes. -/
theorem serialize_header_only_roundtrip_witness :
    ∃ wire dst,
      (sample_basic 4096 0).serialize sample_memory zero_storage 4096 true
        = .ok (sizeof_io_request, sample_basic 4096 0, wire)
      ∧ wire.toio_request_header = (sample_basic 4096 0).toio_request_header
      ∧ (∀ i : Nat, (i : Int) < sizeof_payload → wire.payload i = (sample_basic 4096 0).payload i)
      ∧ (∀ i : Nat, sizeof_payload ≤ (i : Int) → wire.payload i = zero_storage.payload i)
      ∧ wire.is_data_inline = false
      ∧ deserialize zero_storage 65536 wire sizeof_io_request = .ok dst
      ∧ dst.toio_request_header = (sample_basic 4096 0).toio_request_header
      ∧ (∀ i : Nat, (i : Int) < sizeof_payload → dst.payload i = (sample_basic 4096 0).payload i)
      ∧ dst.get_buf sample_memory 0 = (sample_basic 4096 0).get_buf sample_memory 0
      ∧ dst.get_size sample_memory = (sample_basic 4096 0).get_size sample_memory :=
  serialize_header_only_roundtrip sample_memory (sample_basic 4096 0) zero_storage zero_storage
    4096 true 65536 (by decide) (by decide) (Or.inl (by decide)) (by decide)

end SAFS

namespace SAFS
open io_request

/-! ## User-compute requests -/

/-- C7: for every user-compute request that does not already carry inline data,
with compute object `c`, and every buffer of `size` bytes that holds both
`sizeof(io_request)` and `payload_offset + c.get_serialized_size()` bytes,
`serialize` fails its assertion when inlining is not permitted; when it is
permitted, `serialize` leaves the request unchanged, writes the header with the
inline flag set, lets `c` serialize itself at the payload slot, right after the
fixed header fields, with the remaining capacity `size - payload_offset`, and
returns `payload_offset + c.get_serialized_size()`. -/
theorem serialize_user_compute (m : memory) (r buf : io_request) (size : Int)
    (hkind : r.payload_type = USER_COMPUTE) (hinl : r.is_data_inline = false)
    (hfit : payload_offset + (m.compute (ptr_load r.payload)).get_serialized_size ≤ size)
    (hhdr : sizeof_io_request ≤ size) (hint : size < 2147483648)
    (hobj : -2147483648 ≤ (m.compute (ptr_load r.payload)).get_serialized_size) :
    r.serialize m buf size false = .error Abort.assertion
    ∧ r.serialize m buf size true = .ok
        (payload_offset + (m.compute (ptr_load r.payload)).get_serialized_size, r,
          { toio_request_header := { r.toio_request_header with data_inline := true },
            payload := ((m.compute (ptr_load r.payload)).serialize
              (memcpy_request buf r).payload (size - payload_offset)).1 }) := by
  have h1 : USER_COMPUTE ≠ EXT_REQ := by decide
  have h2 : USER_COMPUTE ≠ BASIC_REQ := by decide
  have hs : to_int (sizeof_io_request - sizeof_payload
      + (m.compute (ptr_load r.payload)).get_serialized_size)
      = payload_offset + (m.compute (ptr_load r.payload)).get_serialized_size := by
    simp only [payload_offset, sizeof_io_request, sizeof_payload] at *
    exact to_int_eq _ (by omega) (by omega)
  have hc : to_int (size - (sizeof_io_request - sizeof_payload)) = size - payload_offset := by
    simp only [payload_offset, sizeof_io_request, sizeof_payload] at *
    exact to_int_eq _ (by omega) (by omega)
  have hu : sizeof_io_request ≤ to_unsigned size := by
    rw [to_unsigned_eq size (by simp only [sizeof_io_request] at hhdr; omega) (by omega)]
    exact hhdr
  constructor
  · simp [serialize, hinl, hkind, h1, h2, bind, Except.bind, c_assert]
  · simp [serialize, hinl, hkind, h1, h2, bind, Except.bind, pure, Except.pure, c_assert, hs, hc,
      hfit, hu, memcpy_request]

/-- Instance of the C7 statement on the sample user-compute request and a buffer
of 4096 bytes. -/
theorem serialize_user_compute_witness :
    sample_compute_request.serialize sample_memory zero_storage 4096 false
      = .error Abort.assertion
    ∧ sample_compute_request.serialize sample_memory zero_storage 4096 true = .ok
        (payload_offset
          + (sample_memory.compute (ptr_load sample_compute_request.payload)).get_serialized_size,
          sample_compute_request,
          { toio_request_header :=
              { sample_compute_request.toio_request_header with data_inline := true },
            payload := ((sample_memory.compute
              (ptr_load sample_compute_request.payload)).serialize
              (memcpy_request zero_storage sample_compute_request).payload
              (4096 - payload_offset)).1 }) :=
  serialize_user_compute sample_memory sample_compute_request zero_storage 4096
    (by decide) (by decide) (by decide) (by decide) (by decide) (by decide)

/-! ## Serializing a request that already carries inline data -/

/-- C8, evaluated on a write of 4 bytes (offset 4096 of file 3, node 0):
`serialize` with inlining permitted returns `L = 36` and sets the inline flag
in the wire header, and `deserialize(buf, L)` then fails its assertion
`(unsigned) size >= sizeof(io_request)`, so no in-place view is obtained. -/
theorem reserialize_small_write_rejected :
    ((construct_buf zero_storage 1000 ⟨3, 4096⟩ 4 WRITE 0 0 false).bind fun r =>
      (r.serialize sample_memory zero_storage 4096 true).map fun x =>
        (x.1, x.2.2.is_data_inline,
          Except.map (fun _ => ()) (deserialize_ptr sample_memory x.2.2 x.1)))
      = .ok (36, true, .error Abort.assertion) := by
  rfl

/-- Supporting fact for C8: when the inline payload has at least
`sizeof_payload` bytes, the in-place view of the wire buffer is accepted at the
length `L` that `serialize` returned, and serializing the view with inlining
permitted returns `L` again and copies the header and the `n` payload bytes
unchanged. -/
theorem reserialize_inline_view (m : memory) (r buf buf2 : io_request) (size size2 n : Int)
    (hkind : r.payload_type = BASIC_REQ) (hinl : r.is_data_inline = false)
    (hwrite : r.access_method.val = WRITE) (hn : r.get_size m = .ok n)
    (hlo : sizeof_payload ≤ n) (hhi : n ≤ MAX_INLINE_SIZE)
    (hsize : payload_offset + n ≤ size) (hsize2 : payload_offset + n ≤ size2) :
    ∃ wire out,
      r.serialize m buf size true = .ok (payload_offset + n, r, wire)
      ∧ deserialize_ptr m wire (payload_offset + n) = .ok wire
      ∧ wire.serialize m buf2 size2 true = .ok (payload_offset + n, wire, out)
      ∧ out.toio_request_header = wire.toio_request_header
      ∧ ∀ i : Nat, (i : Int) < n → out.payload i = wire.payload i := by
  have hn0 : 0 ≤ n := by simp only [sizeof_payload] at hlo; omega
  have hser := serialize_basic_inline m r buf size n hkind hinl hwrite hn hn0 hhi hsize
  have hne : BASIC_REQ ≠ EXT_REQ := by decide
  have hu : sizeof_io_request ≤ to_unsigned (payload_offset + n) := by
    simp only [MAX_INLINE_SIZE, payload_offset, sizeof_io_request, sizeof_payload,
      to_unsigned] at *
    omega
  have hpo : payload_offset ≤ payload_offset + n := by omega
  have key : ∀ w : io_request, w.payload_type = r.payload_type →
      w.buf_size_high = r.buf_size_high → w.buf_size_low = r.buf_size_low →
      w.access_method = r.access_method →
      w.get_serialized_size m = .ok (payload_offset + n) := by
    intro w a b c d
    exact get_serialized_size_basic_small m w n (a.trans hkind) (by rw [d]; exact hwrite)
      ((get_size_header_congr m r w (by rw [hkind]; exact hne) a b c).trans hn) hn0 hhi
  obtain ⟨wire, hser, e1, e2, e3, e4, e5, e6⟩ : ∃ w : io_request,
      r.serialize m buf size true = .ok (payload_offset + n, r, w)
      ∧ w.payload_type = r.payload_type ∧ w.buf_size_high = r.buf_size_high
      ∧ w.buf_size_low = r.buf_size_low ∧ w.access_method = r.access_method
      ∧ w.is_data_inline = true
      ∧ ∀ i : Nat, (i : Int) < n → w.payload i = m.byte_at (ptr_load r.payload + i) :=
    ⟨_, hser, rfl, rfl, rfl, rfl, rfl, fun i hi => by simp only [hi, ↓reduceIte]⟩
  have hg := key wire e1 e2 e3 e4
  refine ⟨wire, _, hser, deserialize_ptr_accepts m wire _ _ hg hu (le_refl _),
    serialize_inline_carrying m wire buf2 size2 _ e5 hg hsize2 hpo, rfl, ?_⟩
  intro i hi
  have hi2 : (i : Int) < payload_offset + n - payload_offset := by omega
  simp only [hi2, ↓reduceIte]

end SAFS

namespace SAFS
open io_request

/-! ## Extraction of a sub-range -/

/-- C9, as stated, fails when the extracted range starts beyond the largest
offset of the signed 48-bit `offset` field: the single-buffer request of 10
bytes at offset `2^47 - 1` accepts `extract(2^47, 5, dst)`, and `dst` then
reports 5 bytes at offset `-2^47`, outside both ranges. -/
theorem extract_offset_wrap_counterexample :
    ((construct_buf zero_storage 1000 ⟨3, 140737488355327⟩ 10 READ 0 0 false).bind fun r =>
      (r.extract sample_memory 140737488355328 5 zero_storage).map fun d =>
        (r.get_offset, r.get_size sample_memory, d.get_offset, d.get_size sample_memory,
          decide (140737488355328 ≤ d.get_offset)))
      = .ok (140737488355327, .ok 10, -140737488355328, .ok 5, false) := by
  rfl

/-- C9, amended: for every single-buffer request with range `[o, o + s)`, every
`off` below `2^47` (so that the start of the extracted range fits the 48-bit
offset field), every `size` and every request `extracted` that is not extended,
if `extract(off, size, extracted)` is accepted then the extracted request `dst`
satisfies `0 <= dst.get_size() <= size` and its range
`[dst.offset, dst.offset + dst.size)` lies inside both `[off, off + size)` and
`[o, o + s)`. -/
theorem extract_within_ranges (m : memory) (r e dst : io_request) (off size s : Int)
    (hsize : -2147483648 ≤ size ∧ size < 2147483648)
    (hoff : -9223372036854775808 ≤ off ∧ off < 140737488355328)
    (he : e.payload_type ≠ EXT_REQ)
    (hs : r.get_size m = .ok s)
    (hex : r.extract m off size e = .ok dst) :
    ∃ ds, dst.get_size m = .ok ds ∧ 0 ≤ ds ∧ ds ≤ size
      ∧ max off r.get_offset ≤ dst.get_offset
      ∧ dst.get_offset + ds ≤ min (off + size) (r.get_offset + s) := by
  obtain ⟨s1, b, hs1, -, hcheck, hinit⟩ := extract_result m r e dst off size hex
  rw [hs] at hs1
  injection hs1 with hs1
  subst hs1
  obtain ⟨hmax, hkind, hoffset, -, hhigh, hlow, -⟩ :=
    init_buf_basic e dst _ _ _ _ _ _ he hinit
  have hso := get_size_range m r s hs
  have hro := off48_load_range r.offset
  have hdst : dst.payload_type ≠ EXT_REQ := by rw [hkind]; exact he
  rw [get_size_of_not_extended m dst hdst]
  simp only [get_int_buf_size, hhigh, hlow]
  simp only [get_offset, hoffset] at *
  simp only [MAX_BUF_SIZE] at hmax
  by_cases hle : off ≤ off48_load r.offset
  · simp only [hle, ↓reduceIte] at hmax ⊢
    have hrs : 0 ≤ min (off + size - off48_load r.offset)
          (off48_load r.offset + s - off48_load r.offset)
        ∧ min (off + size - off48_load r.offset)
          (off48_load r.offset + s - off48_load r.offset) ≤ size := by
      simp only [to_size_t] at hmax
      omega
    have hts : to_size_t (min (off + size - off48_load r.offset)
          (off48_load r.offset + s - off48_load r.offset))
        = min (off + size - off48_load r.offset)
          (off48_load r.offset + s - off48_load r.offset) := by
      simp only [to_size_t]
      omega
    rw [hts, buf_size_split _ hrs.1 (by omega), off48_load_store _ hro.1 hro.2]
    exact ⟨_, rfl, hrs.1, hrs.2, by omega, by omega⟩
  · simp only [hle, ↓reduceIte] at hmax ⊢
    have hrs : 0 ≤ min (off + size - off) (off48_load r.offset + s - off)
        ∧ min (off + size - off) (off48_load r.offset + s - off) ≤ size := by
      simp only [to_size_t] at hmax
      omega
    have hts : to_size_t (min (off + size - off) (off48_load r.offset + s - off))
        = min (off + size - off) (off48_load r.offset + s - off) := by
      simp only [to_size_t]
      omega
    rw [hts, buf_size_split _ hrs.1 (by omega), off48_load_store _ (by omega) hoff.2]
    exact ⟨_, rfl, hrs.1, hrs.2, by omega, by omega⟩

/-- Instance of the amended C9 statement on the sample read of 4096 bytes at
offset 4096 and the range `[5000, 9096)`. -/
theorem extract_within_ranges_witness :
    ∃ ds, sample_extracted.get_size sample_memory = .ok ds ∧ 0 ≤ ds ∧ ds ≤ 4096
      ∧ max 5000 (sample_basic 4096 0).get_offset ≤ sample_extracted.get_offset
      ∧ sample_extracted.get_offset + ds
          ≤ min (5000 + 4096) ((sample_basic 4096 0).get_offset + 4096) :=
  extract_within_ranges sample_memory (sample_basic 4096 0) zero_storage sample_extracted
    5000 4096 4096 (by decide) (by decide) (by decide) (by rfl) (by rfl)

/-- C10, evaluated on the single-buffer request of 4096 bytes at offset 4096
and the range `[0, 4096)`, which has no byte in common with `[4096, 8192)`:
the overlap test passes through its second disjunct
(`off + size >= get_offset()`), no assertion fails, and `extract` produces a
request of 0 bytes at offset 4096. -/
theorem extract_adjacent_range_accepted :
    ((construct_buf zero_storage 1000 ⟨3, 4096⟩ 4096 READ 0 0 false).bind fun r =>
      (r.extract sample_memory 0 4096 zero_storage).map fun d =>
        (r.get_offset, r.get_size sample_memory, extract_check 4096 4096 0 4096,
          d.get_offset, d.get_size sample_memory))
      = .ok (4096, .ok 4096, true, 4096, .ok 0) := by
  rfl

/-- Supporting fact for C10: when the two ranges are not empty, have no byte in
common and the extracted range does not end exactly where the request starts,
`extract` fails its assertion. -/
theorem extract_rejects_separated_ranges (m : memory) (r e : io_request) (off size s : Int)
    (hnb : r.get_num_bufs m = .ok 1) (hs : r.get_size m = .ok s)
    (hsize : 0 < size) (hpos : 0 < s)
    (hdis : off + size < r.get_offset ∨ r.get_offset + s ≤ off) :
    r.extract m off size e = .error Abort.assertion := by
  have hc : extract_check r.get_offset s off size = false := by
    simp only [extract_check, decide_eq_false_iff_not]
    omega
  simp [extract, bind, Except.bind, c_assert, hnb, hs, hc]

end SAFS

namespace SAFS
open io_request

/-! ## Facts about the operations that go through the extension -/

theorem get_extension_of_not_extended (m : memory) (r : io_request)
    (hk : r.payload_type ≠ EXT_REQ) : r.get_extension m = .error Abort.assertion := by
  simp [get_extension, is_extended_req, hk, c_assert, bind, Except.bind]

theorem get_extension_of_extended (m : memory) (r : io_request)
    (hk : r.payload_type = EXT_REQ) (hp : ptr_load r.payload ≠ 0) (hi : r.data_inline = false) :
    r.get_extension m = .ok (m.ext (ptr_load r.payload)) := by
  simp [get_extension, is_extended_req, hk, hp, hi, c_assert, bind, Except.bind, pure,
    Except.pure]

theorem put_extension_of_not_inline (m : memory) (r : io_request) (e : io_req_extension)
    (hi : r.data_inline = false) :
    r.put_extension m e = .ok (m.store_ext (ptr_load r.payload) e) := by
  simp [put_extension, hi, pure, Except.pure]

theorem store_ext_same (m : memory) (p : Nat) (e : io_req_extension) :
    (m.store_ext p e).ext p = e := by
  simp [memory.store_ext]

theorem get_size_of_extended (m : memory) (r : io_request)
    (hk : r.payload_type = EXT_REQ) (hp : ptr_load r.payload ≠ 0) (hi : r.data_inline = false) :
    r.get_size m = .ok (m.ext (ptr_load r.payload)).get_size := by
  simp [get_size, is_extended_req, hk, get_extension_of_extended m r hk hp hi, bind,
    Except.bind, pure, Except.pure]

theorem complete_size_of_extended (m : memory) (r : io_request) (n : Int)
    (hk : r.payload_type = EXT_REQ) (hp : ptr_load r.payload ≠ 0) (hi : r.data_inline = false) :
    r.complete_size m n =
      if (m.ext (ptr_load r.payload)).completed_size + n
          ≤ (m.ext (ptr_load r.payload)).get_size then
        .ok (decide ((m.ext (ptr_load r.payload)).completed_size + n
              = (m.ext (ptr_load r.payload)).get_size),
            m.store_ext (ptr_load r.payload)
              { m.ext (ptr_load r.payload) with
                completed_size := (m.ext (ptr_load r.payload)).completed_size + n })
      else .error Abort.assertion := by
  have hs := get_size_of_extended
    (m.store_ext (ptr_load r.payload)
      { m.ext (ptr_load r.payload) with
        completed_size := (m.ext (ptr_load r.payload)).completed_size + n }) r hk hp hi
  rw [store_ext_same] at hs
  have hg : ({ m.ext (ptr_load r.payload) with
      completed_size := (m.ext (ptr_load r.payload)).completed_size + n }
        : io_req_extension).get_size = (m.ext (ptr_load r.payload)).get_size := rfl
  rw [hg] at hs
  simp only [complete_size, get_extension_of_extended m r hk hp hi, bind, Except.bind,
    io_req_extension.inc_completed_size, atomic_number.inc_ssize,
    put_extension_of_not_inline m r _ hi, hs, c_assert, pure, Except.pure]
  by_cases hc : (m.ext (ptr_load r.payload)).completed_size + n
      ≤ (m.ext (ptr_load r.payload)).get_size
  · simp only [hc, ↓reduceIte]
  · simp only [hc, ↓reduceIte]

theorem is_complete_of_extended (m : memory) (r : io_request)
    (hk : r.payload_type = EXT_REQ) (hp : ptr_load r.payload ≠ 0) (hi : r.data_inline = false) :
    r.is_complete m = .ok (decide ((m.ext (ptr_load r.payload)).completed_size
      = (m.ext (ptr_load r.payload)).get_size)) := by
  simp only [is_complete, get_extension_of_extended m r hk hp hi,
    get_size_of_extended m r hk hp hi, bind, Except.bind, pure, Except.pure,
    io_req_extension.get_completed_size]

end SAFS

namespace SAFS
open io_request

theorem complete_size_step (m : memory) (r : io_request) (n : Int)
    (hk : r.payload_type = EXT_REQ) (hp : ptr_load r.payload ≠ 0) (hi : r.data_inline = false)
    (hle : (m.ext (ptr_load r.payload)).completed_size + n
      ≤ (m.ext (ptr_load r.payload)).get_size) :
    ∃ m1, r.complete_size m n
        = .ok (decide ((m.ext (ptr_load r.payload)).completed_size + n
            = (m.ext (ptr_load r.payload)).get_size), m1)
      ∧ (m1.ext (ptr_load r.payload)).completed_size
        = (m.ext (ptr_load r.payload)).completed_size + n
      ∧ (m1.ext (ptr_load r.payload)).get_size = (m.ext (ptr_load r.payload)).get_size
      ∧ r.is_complete m1 = .ok (decide ((m.ext (ptr_load r.payload)).completed_size + n
            = (m.ext (ptr_load r.payload)).get_size)) := by
  refine ⟨m.store_ext (ptr_load r.payload)
      { m.ext (ptr_load r.payload) with
        completed_size := (m.ext (ptr_load r.payload)).completed_size + n }, ?_, ?_, ?_, ?_⟩
  · rw [complete_size_of_extended m r n hk hp hi, if_pos hle]
  · rw [store_ext_same]
  · rw [store_ext_same]
    rfl
  · rw [is_complete_of_extended _ r hk hp hi, store_ext_same]
    rfl

theorem complete_trace_first_reach (r : io_request)
    (hk : r.payload_type = EXT_REQ) (hp : ptr_load r.payload ≠ 0) (hi : r.data_inline = false) :
    ∀ (ns : List Int) (m : memory), ns ≠ [] →
      (∀ j, j < ns.length → (m.ext (ptr_load r.payload)).completed_size + (ns.take j).sum
        < (m.ext (ptr_load r.payload)).get_size) →
      (m.ext (ptr_load r.payload)).completed_size + ns.sum
        = (m.ext (ptr_load r.payload)).get_size →
      complete_trace m r ns
        = .ok (List.replicate (ns.length - 1) (false, false) ++ [(true, true)]) := by
  intro ns
  induction ns with
  | nil => intro m h; exact absurd rfl h
  | cons n rest ih =>
    intro m _ hbelow hsum
    rw [List.sum_cons] at hsum
    cases rest with
    | nil =>
      simp only [List.sum_nil, add_zero] at hsum
      obtain ⟨m1, h1, -, -, h4⟩ := complete_size_step m r n hk hp hi (le_of_eq hsum)
      have hd : decide ((m.ext (ptr_load r.payload)).completed_size + n
          = (m.ext (ptr_load r.payload)).get_size) = true := decide_eq_true hsum
      rw [hd] at h1 h4
      simp only [complete_trace, h1, h4, bind, Except.bind, pure, Except.pure]
      rfl
    | cons n2 rest2 =>
      have hlt : (m.ext (ptr_load r.payload)).completed_size + n
          < (m.ext (ptr_load r.payload)).get_size := by
        have := hbelow 1 (by simp)
        simpa using this
      obtain ⟨m1, h1, h2, h3, h4⟩ := complete_size_step m r n hk hp hi (le_of_lt hlt)
      have hd : decide ((m.ext (ptr_load r.payload)).completed_size + n
          = (m.ext (ptr_load r.payload)).get_size) = false :=
        decide_eq_false (ne_of_lt hlt)
      rw [hd] at h1 h4
      have hih := ih m1 (by simp)
        (by
          intro j hj
          have := hbelow (j + 1) (by simp only [List.length_cons] at hj ⊢; omega)
          rw [List.take_succ_cons, List.sum_cons] at this
          rw [h2, h3]
          omega)
        (by rw [h2, h3]; omega)
      rw [complete_trace]
      simp only [h1, h4, hih, bind, Except.bind, pure, Except.pure]
      rfl

end SAFS

namespace SAFS
open io_request

theorem init_result (m : memory) (r q : io_request) (m1 : memory)
    (h : r.init m = .ok (q, m1)) :
    q.file_id = 0 ∧ q.get_offset = 0 ∧ q.get_node_id = 0 ∧ q.get_io = 0
    ∧ q.get_user_data = 0 ∧ q.get_access_method = 0
    ∧ q.is_sync = false ∧ q.is_high_prio = false ∧ q.is_data_inline = false
    ∧ q.is_low_latency = r.is_low_latency ∧ q.is_discarded = r.is_discarded
    ∧ q.is_extended_req = r.is_extended_req := by
  simp only [io_request.init, set_int_buf_size, c_assert, bind, Except.bind, pure,
    Except.pure] at h
  by_cases hk : r.payload_type = EXT_REQ
  · have hx : is_extended_req { r with data_inline := false } = true := by
      simp [is_extended_req, hk]
    simp only [hx, ↓reduceIte] at h
    cases he : get_extension m { r with data_inline := false } with
    | error a => rw [he] at h; cases h
    | ok e =>
      rw [he] at h
      simp only at h
      by_cases hp : ptr_load r.payload ≠ 0
      · simp only [put_extension, Bool.false_eq_true, ↓reduceIte, MAX_BUF_SIZE] at h
        rw [if_pos hp] at h
        simp only [show (0 : Int) ≤ 4294967295 by decide, ↓reduceIte, pure, Except.pure] at h
        injection h with h
        injection h with h1 h2
        subst h1
        refine ⟨rfl, ?_, rfl, rfl, ?_, rfl, rfl, rfl, rfl, rfl, rfl, ?_⟩
        · rfl
        · rfl
        · simp [is_extended_req, hk]
      · rw [if_neg hp] at h
        cases h
  · have hx : is_extended_req { r with data_inline := false } = false := by
      simp [is_extended_req, hk]
    simp only [hx, Bool.false_eq_true, ↓reduceIte, MAX_BUF_SIZE] at h
    simp only [show (0 : Int) ≤ 4294967295 by decide, ↓reduceIte] at h
    injection h with h
    injection h with h1 h2
    subst h1
    refine ⟨rfl, ?_, rfl, rfl, ?_, rfl, rfl, rfl, rfl, rfl, rfl, ?_⟩
    · rfl
    · rfl
    · simp [is_extended_req, hk]
      decide

end SAFS

namespace SAFS
open io_request

theorem extension_init_size (e : io_req_extension) : e.init.get_size = 0 := by
  have h : to_int 0 = 0 := by decide
  simp only [io_req_extension.init, io_req_extension.get_size, Int.toNat_zero, List.range_zero,
    List.foldl_nil, h]

theorem init_size_zero (m : memory) (r q : io_request) (m1 : memory)
    (h : r.init m = .ok (q, m1)) : q.get_size m1 = .ok 0 := by
  simp only [io_request.init, set_int_buf_size, c_assert, bind, Except.bind, pure,
    Except.pure] at h
  by_cases hk : r.payload_type = EXT_REQ
  · have hx : is_extended_req { r with data_inline := false } = true := by
      simp [is_extended_req, hk]
    simp only [hx, ↓reduceIte] at h
    cases he : get_extension m { r with data_inline := false } with
    | error a => rw [he] at h; cases h
    | ok e =>
      rw [he] at h
      simp only at h
      by_cases hp : ptr_load r.payload ≠ 0
      · simp only [put_extension, Bool.false_eq_true, ↓reduceIte, MAX_BUF_SIZE] at h
        rw [if_pos hp] at h
        simp only [show (0 : Int) ≤ 4294967295 by decide, ↓reduceIte, pure, Except.pure] at h
        injection h with h
        injection h with h1 h2
        subst h1
        subst h2
        have hq := get_size_of_extended (m.store_ext (ptr_load r.payload) e.init)
          { file_id := 0, offset := 0, buf_size_low := Fin.ofNat (0 % 65536 : Int).toNat,
            user_data_addr := 0, buf_size_high := Fin.ofNat (0 / 65536 : Int).toNat,
            payload_type := r.payload_type, data_inline := false, access_method := 0,
            sync := false, high_prio := false, low_latency := r.low_latency,
            discarded := r.discarded, node_id := 0, io_addr := 0, payload := r.payload }
          hk hp rfl
        rw [store_ext_same, extension_init_size] at hq
        exact hq
      · rw [if_neg hp] at h
        cases h
  · have hx : is_extended_req { r with data_inline := false } = false := by
      simp [is_extended_req, hk]
    simp only [hx, Bool.false_eq_true, ↓reduceIte, MAX_BUF_SIZE] at h
    simp only [show (0 : Int) ≤ 4294967295 by decide, ↓reduceIte] at h
    injection h with h
    injection h with h1 h2
    subst h1
    have hne : BASIC_REQ ≠ EXT_REQ := by decide
    rw [get_size_of_not_extended _ _ hne]
    have hz : to_ssize_t (to_size_t (to_int (to_int
        (((Fin.ofNat (0 / 65536 : Int).toNat : Fin 65536).val : Int) * 65536)
        + ((Fin.ofNat (0 % 65536 : Int).toNat : Fin 65536).val : Int)))) = 0 := by decide
    exact congrArg Except.ok hz

end SAFS

namespace SAFS
open io_request

/-! ## Facts about the reference count -/

theorem to_short_eq (x : Int) (h1 : -32768 ≤ x) (h2 : x ≤ 32767) : to_short x = x := by
  unfold to_short; omega

theorem inc_complete_count_of_extended (m : memory) (r : io_request)
    (hk : r.payload_type = EXT_REQ) (hp : ptr_load r.payload ≠ 0) (hi : r.data_inline = false) :
    r.inc_complete_count m = .ok (to_short ((m.ext (ptr_load r.payload)).refcnt + 1),
      m.store_ext (ptr_load r.payload)
        { m.ext (ptr_load r.payload) with
          refcnt := to_short ((m.ext (ptr_load r.payload)).refcnt + 1) }) := by
  simp only [inc_complete_count, get_extension_of_extended m r hk hp hi, bind, Except.bind,
    io_req_extension.inc_ref, atomic_number.inc_short, put_extension_of_not_inline m r _ hi,
    pure, Except.pure]

theorem dec_complete_count_of_extended (m : memory) (r : io_request)
    (hk : r.payload_type = EXT_REQ) (hp : ptr_load r.payload ≠ 0) (hi : r.data_inline = false) :
    r.dec_complete_count m = .ok (to_short ((m.ext (ptr_load r.payload)).refcnt - 1),
      m.store_ext (ptr_load r.payload)
        { m.ext (ptr_load r.payload) with
          refcnt := to_short ((m.ext (ptr_load r.payload)).refcnt - 1) }) := by
  simp only [dec_complete_count, get_extension_of_extended m r hk hp hi, bind, Except.bind,
    io_req_extension.dec_ref, atomic_number.dec_short, put_extension_of_not_inline m r _ hi,
    pure, Except.pure]

theorem wait4unref_of_extended (m : memory) (r : io_request)
    (hk : r.payload_type = EXT_REQ) (hp : ptr_load r.payload ≠ 0) (hi : r.data_inline = false) :
    ∀ spins : Nat, r.wait4unref m spins
      = if (m.ext (ptr_load r.payload)).get_ref > 0 then .ok none else .ok (some ()) := by
  intro spins
  induction spins with
  | zero =>
    simp only [wait4unref, get_extension_of_extended m r hk hp hi, bind, Except.bind, pure,
      Except.pure]
  | succ k ih =>
    simp only [wait4unref, get_extension_of_extended m r hk hp hi, bind, Except.bind, pure,
      Except.pure, ih]
    split <;> rfl

theorem ref_trace_running (r : io_request)
    (hk : r.payload_type = EXT_REQ) (hp : ptr_load r.payload ≠ 0) (hi : r.data_inline = false) :
    ∀ (cs : List ref_call) (m : memory),
      (∀ x ∈ running_count (m.ext (ptr_load r.payload)).refcnt cs, -32768 ≤ x ∧ x ≤ 32767) →
      ∃ m1, ref_trace m r cs
          = .ok (running_count (m.ext (ptr_load r.payload)).refcnt cs, m1)
        ∧ (m1.ext (ptr_load r.payload)).refcnt
          = (m.ext (ptr_load r.payload)).refcnt
            + (cs.count ref_call.inc : Int) - (cs.count ref_call.dec : Int)
        ∧ (cs ≠ [] → (m1.ext (ptr_load r.payload)).refcnt
            ∈ running_count (m.ext (ptr_load r.payload)).refcnt cs) := by
  intro cs
  induction cs with
  | nil =>
    intro m _
    exact ⟨m, rfl, by simp, fun h => absurd rfl h⟩
  | cons c rest ih =>
    intro m hb
    cases c with
    | inc =>
      have hin := hb ((m.ext (ptr_load r.payload)).refcnt + 1) (by simp [running_count])
      have hs := to_short_eq _ hin.1 hin.2
      obtain ⟨m1, h1, h2, h3⟩ := ih (m.store_ext (ptr_load r.payload)
        { m.ext (ptr_load r.payload) with
          refcnt := (m.ext (ptr_load r.payload)).refcnt + 1 })
        (by
          rw [store_ext_same]
          intro x hx
          exact hb x (by simp only [running_count, List.mem_cons]; exact Or.inr hx))
      rw [store_ext_same] at h1 h2 h3
      dsimp only at h1 h2 h3
      refine ⟨m1, ?_, ?_, ?_⟩
      · simp only [ref_trace, inc_complete_count_of_extended m r hk hp hi, hs, bind,
          Except.bind, h1, pure, Except.pure, running_count]
      · rw [h2]
        simp only [List.count_cons_self, List.count_cons_of_ne (by decide : ref_call.dec ≠ ref_call.inc)]
        push_cast
        omega
      · intro _
        simp only [running_count, List.mem_cons]
        by_cases hr : rest = []
        · left
          rw [h2, hr]
          simp
        · exact Or.inr (h3 hr)
    | dec =>
      have hin := hb ((m.ext (ptr_load r.payload)).refcnt - 1) (by simp [running_count])
      have hs := to_short_eq _ hin.1 hin.2
      obtain ⟨m1, h1, h2, h3⟩ := ih (m.store_ext (ptr_load r.payload)
        { m.ext (ptr_load r.payload) with
          refcnt := (m.ext (ptr_load r.payload)).refcnt - 1 })
        (by
          rw [store_ext_same]
          intro x hx
          exact hb x (by simp only [running_count, List.mem_cons]; exact Or.inr hx))
      rw [store_ext_same] at h1 h2 h3
      dsimp only at h1 h2 h3
      refine ⟨m1, ?_, ?_, ?_⟩
      · simp only [ref_trace, dec_complete_count_of_extended m r hk hp hi, hs, bind,
          Except.bind, h1, pure, Except.pure, running_count]
      · rw [h2]
        simp only [List.count_cons_self, List.count_cons_of_ne (by decide : ref_call.inc ≠ ref_call.dec)]
        push_cast
        omega
      · intro _
        simp only [running_count, List.mem_cons]
        by_cases hr : rest = []
        · left
          rw [h2, hr]
          simp
        · exact Or.inr (h3 hr)

theorem ref_trace_inc_wraps (r : io_request)
    (hk : r.payload_type = EXT_REQ) (hp : ptr_load r.payload ≠ 0) (hi : r.data_inline = false) :
    ∀ (k : Nat) (m : memory), ∃ t m1,
      ref_trace m r (List.replicate k ref_call.inc) = .ok (t, m1)
      ∧ to_short (m1.ext (ptr_load r.payload)).refcnt
        = to_short ((m.ext (ptr_load r.payload)).refcnt + k)
      ∧ (0 < k → (m1.ext (ptr_load r.payload)).refcnt
        = to_short ((m.ext (ptr_load r.payload)).refcnt + k)) := by
  intro k
  induction k with
  | zero =>
    intro m
    exact ⟨[], m, rfl, by simp, fun h => absurd h (by decide)⟩
  | succ k ih =>
    intro m
    obtain ⟨t, m1, h1, h2, h3⟩ := ih (m.store_ext (ptr_load r.payload)
      { m.ext (ptr_load r.payload) with
        refcnt := to_short ((m.ext (ptr_load r.payload)).refcnt + 1) })
    rw [store_ext_same] at h2 h3
    dsimp only at h2 h3
    have e1 : to_short (to_short ((m.ext (ptr_load r.payload)).refcnt + 1) + (k : Int))
        = to_short ((m.ext (ptr_load r.payload)).refcnt + ((k + 1 : Nat) : Int)) := by
      simp only [to_short]
      push_cast
      omega
    refine ⟨to_short ((m.ext (ptr_load r.payload)).refcnt + 1) :: t, m1, ?_, ?_, ?_⟩
    · simp only [List.replicate_succ, ref_trace, inc_complete_count_of_extended m r hk hp hi,
        bind, Except.bind, h1, pure, Except.pure]
    · rw [h2]
      exact e1
    · intro _
      by_cases hk0 : 0 < k
      · rw [h3 hk0]
        exact e1
      · have hk1 : k = 0 := by omega
        subst hk1
        simp only [List.replicate_zero, ref_trace, pure, Except.pure] at h1
        injection h1 with h1
        injection h1 with _ h1
        rw [← h1, store_ext_same]
        simp

end SAFS

namespace SAFS
open io_request

/-! ## Completed bytes -/

/-- C12: for every extended request (its payload is a non-null extension
pointer), with `c` bytes completed so far and total size `T`,
`complete_size(n)` fails its assertion when `c + n > T`; when `c + n <= T` it
succeeds, leaves the counter at `c + n`, which is again at most `T`, changes
nothing else in the extension, and returns `c + n == T`. -/
theorem complete_size_invariant (m : memory) (r : io_request) (n : Int)
    (hk : r.payload_type = EXT_REQ) (hp : ptr_load r.payload ≠ 0) (hi : r.data_inline = false) :
    ((m.ext (ptr_load r.payload)).get_size
        < (m.ext (ptr_load r.payload)).get_completed_size + n →
      r.complete_size m n = .error Abort.assertion)
    ∧ ((m.ext (ptr_load r.payload)).get_completed_size + n
        ≤ (m.ext (ptr_load r.payload)).get_size →
      ∃ m1, r.complete_size m n
          = .ok (decide ((m.ext (ptr_load r.payload)).get_completed_size + n
              = (m.ext (ptr_load r.payload)).get_size), m1)
        ∧ m1.ext (ptr_load r.payload)
          = { m.ext (ptr_load r.payload) with
              completed_size := (m.ext (ptr_load r.payload)).get_completed_size + n }
        ∧ (m1.ext (ptr_load r.payload)).get_completed_size
          ≤ (m1.ext (ptr_load r.payload)).get_size
        ∧ r.get_size m1 = r.get_size m) := by
  simp only [io_req_extension.get_completed_size]
  constructor
  · intro h
    rw [complete_size_of_extended m r n hk hp hi, if_neg (by omega)]
  · intro h
    refine ⟨m.store_ext (ptr_load r.payload)
      { m.ext (ptr_load r.payload) with
        completed_size := (m.ext (ptr_load r.payload)).completed_size + n },
      ?_, store_ext_same _ _ _, ?_, ?_⟩
    · rw [complete_size_of_extended m r n hk hp hi, if_pos h]
    · rw [store_ext_same]
      exact h
    · rw [get_size_of_extended _ r hk hp hi, get_size_of_extended m r hk hp hi, store_ext_same]
      rfl

end SAFS

namespace SAFS
open io_request

/-- Instance of the C12 statement on the sample extended request of 8 bytes:
with no byte completed, `complete_size(9)` fails its assertion and
`complete_size(3)` succeeds and returns false. -/
theorem complete_size_invariant_witness :
    sample_extended.complete_size sample_ext_memory 9 = .error Abort.assertion
    ∧ ∃ m1, sample_extended.complete_size sample_ext_memory 3
          = .ok (decide ((sample_ext_memory.ext
              (ptr_load sample_extended.payload)).get_completed_size + 3
              = (sample_ext_memory.ext (ptr_load sample_extended.payload)).get_size), m1)
        ∧ m1.ext (ptr_load sample_extended.payload)
          = { sample_ext_memory.ext (ptr_load sample_extended.payload) with
              completed_size := (sample_ext_memory.ext
                (ptr_load sample_extended.payload)).get_completed_size + 3 }
        ∧ (m1.ext (ptr_load sample_extended.payload)).get_completed_size
          ≤ (m1.ext (ptr_load sample_extended.payload)).get_size
        ∧ sample_extended.get_size m1 = sample_extended.get_size sample_ext_memory :=
  ⟨(complete_size_invariant sample_ext_memory sample_extended 9 (by decide) (by decide)
      (by decide)).1 (by decide),
    (complete_size_invariant sample_ext_memory sample_extended 3 (by decide) (by decide)
      (by decide)).2 (by decide)⟩

/-- C11, as stated, fails when the running sum does not stay below the total
size before the last call.  On the extended request of total size 8 with a
fresh counter, the calls `complete_size(8)`, `complete_size(0)` have arguments
that sum to 8, yet the first call already returns true and `is_complete()` is
true after it; the calls `complete_size(12)`, `complete_size(-4)` also sum to
8, and the first one fails its assertion. -/
theorem complete_size_sequence_counterexample :
    ((construct_ext zero_storage 8192 ⟨3, 4096⟩ READ 0 0 false).bind fun r =>
      (r.get_size sample_ext_memory).bind fun t =>
        (complete_trace sample_ext_memory r [8, 0]).map fun x => (t, x))
      = .ok (8, [(true, true), (true, true)])
    ∧ ((construct_ext zero_storage 8192 ⟨3, 4096⟩ READ 0 0 false).bind fun r =>
        complete_trace sample_ext_memory r [12, -4])
      = .error Abort.assertion := by
  constructor <;> rfl

/-- C11, amended: for every extended request (its payload is a non-null
extension pointer) with total size `T` whose completed-byte counter is zero,
and every non-empty sequence of calls `complete_size(n_1)`, ...,
`complete_size(n_k)` whose arguments sum to `T` and whose running sum is below
`T` before the last call (as it is when every argument is positive),
`is_complete()` is false before the first call, every call but the last
returns false and leaves `is_complete()` false, and the last call returns true
and leaves `is_complete()` true. -/
theorem complete_size_sequence (m : memory) (r : io_request) (ns : List Int)
    (hk : r.payload_type = EXT_REQ) (hp : ptr_load r.payload ≠ 0) (hi : r.data_inline = false)
    (hfresh : (m.ext (ptr_load r.payload)).get_completed_size = 0)
    (hne : ns ≠ [])
    (hbelow : ∀ j, j < ns.length → (ns.take j).sum < (m.ext (ptr_load r.payload)).get_size)
    (hsum : ns.sum = (m.ext (ptr_load r.payload)).get_size) :
    r.is_complete m = .ok false
    ∧ complete_trace m r ns
      = .ok (List.replicate (ns.length - 1) (false, false) ++ [(true, true)]) := by
  simp only [io_req_extension.get_completed_size] at hfresh
  have h0 : (0 : Int) < (m.ext (ptr_load r.payload)).get_size := by
    have := hbelow 0 (List.length_pos.mpr hne)
    simpa using this
  constructor
  · rw [is_complete_of_extended m r hk hp hi, hfresh]
    have : decide ((0 : Int) = (m.ext (ptr_load r.payload)).get_size) = false := by
      simp only [decide_eq_false_iff_not]; omega
    rw [this]
  · exact complete_trace_first_reach r hk hp hi ns m hne
      (by intro j hj; rw [hfresh]; have := hbelow j hj; omega) (by rw [hfresh]; omega)

/-- Supporting fact for C11: a non-empty sequence of positive arguments that
sum to the total size keeps its running sum below the total size before the
last call. -/
theorem positive_arguments_stay_below (ns : List Int) (hpos : ∀ n ∈ ns, 0 < n) :
    ∀ j, j < ns.length → (ns.take j).sum < ns.sum := by
  intro j hj
  have hsplit : ns.sum = (ns.take j).sum + (ns.drop j).sum := by
    rw [← List.sum_append, List.take_append_drop]
  have hd : 0 < (ns.drop j).sum :=
    List.sum_pos _ (fun x hx => hpos x (List.mem_of_mem_drop hx))
      (by
        intro h
        have := congrArg List.length h
        simp only [List.length_drop, List.length_nil] at this
        omega)
  omega

/-- Instance of the amended C11 statement on the sample extended request of 8
bytes and the calls `complete_size(3)`, `complete_size(5)`. -/
theorem complete_size_sequence_witness :
    sample_extended.is_complete sample_ext_memory = .ok false
    ∧ complete_trace sample_ext_memory sample_extended [3, 5]
      = .ok (List.replicate ([3, 5].length - 1) (false, false) ++ [(true, true)]) :=
  complete_size_sequence sample_ext_memory sample_extended [3, 5] (by decide) (by decide)
    (by decide) (by rfl) (by decide)
    (positive_arguments_stay_below [3, 5] (by decide)) (by rfl)

/-! ## Operations that need an extension -/

/-- C13: for every request whose payload kind is basic or user-compute,
`get_extension()` fails its assertion, and so do `add_buf`, `add_buf_front`,
`add_page`, `complete_size`, `is_complete`, `inc_complete_count`,
`dec_complete_count`, `wait4unref`, `get_orig`, `set_orig`, `get_priv`,
`set_priv`, the setter of the `partial` bit and `is_empty`, whatever their
arguments: each call ends in the assertion failure, so none returns a value or
a changed state. -/
theorem extension_operations_fail_fast (m : memory) (r : io_request)
    (f g : io_req_extension → Nat → Int → Bool → Except Abort io_req_extension)
    (buf : Nat) (size : Int) (n : Int) (spins : Nat) (p : Nat) (flag : Bool)
    (hk : r.payload_type = BASIC_REQ ∨ r.payload_type = USER_COMPUTE) :
    r.get_extension m = .error Abort.assertion
    ∧ add_buf f m r buf size = .error Abort.assertion
    ∧ add_buf_front g m r buf size = .error Abort.assertion
    ∧ add_page f m r p = .error Abort.assertion
    ∧ r.complete_size m n = .error Abort.assertion
    ∧ r.is_complete m = .error Abort.assertion
    ∧ r.inc_complete_count m = .error Abort.assertion
    ∧ r.dec_complete_count m = .error Abort.assertion
    ∧ r.wait4unref m spins = .error Abort.assertion
    ∧ r.get_orig m = .error Abort.assertion
    ∧ r.set_orig m p = .error Abort.assertion
    ∧ r.get_priv m = .error Abort.assertion
    ∧ r.set_priv m p = .error Abort.assertion
    ∧ set_partial m r flag = .error Abort.assertion
    ∧ r.is_empty m = .error Abort.assertion := by
  have hne : r.payload_type ≠ EXT_REQ := by
    rcases hk with h | h <;> rw [h] <;> decide
  have he := get_extension_of_not_extended m r hne
  refine ⟨he, ?_, ?_, ?_, ?_, ?_, ?_, ?_, ?_, ?_, ?_, ?_, ?_, ?_, ?_⟩
  · simp only [add_buf, he, bind, Except.bind]
  · simp only [add_buf_front, he, bind, Except.bind]
  · simp only [add_page, he, bind, Except.bind]
  · simp only [complete_size, he, bind, Except.bind]
  · simp only [is_complete, he, bind, Except.bind]
  · simp only [inc_complete_count, he, bind, Except.bind]
  · simp only [dec_complete_count, he, bind, Except.bind]
  · cases spins <;> simp only [wait4unref, he, bind, Except.bind]
  · simp only [get_orig, he, bind, Except.bind]
  · simp only [set_orig, he, bind, Except.bind]
  · simp only [get_priv, he, bind, Except.bind]
  · simp only [set_priv, he, bind, Except.bind]
  · simp only [ set_partial, he, bind, Except.bind]
  · simp only [is_empty, he, bind, Except.bind]

/-- Instance of the C13 statement on the sample basic write of 64 bytes. -/
theorem extension_operations_fail_fast_witness :
    (sample_basic 64 1).get_extension sample_memory = .error Abort.assertion
    ∧ add_buf (fun e _ _ _ => pure e) sample_memory (sample_basic 64 1) 1000 8
        = .error Abort.assertion
    ∧ add_buf_front (fun e _ _ _ => pure e) sample_memory (sample_basic 64 1) 1000 8
        = .error Abort.assertion
    ∧ add_page (fun e _ _ _ => pure e) sample_memory (sample_basic 64 1) 4096
        = .error Abort.assertion
    ∧ (sample_basic 64 1).complete_size sample_memory 8 = .error Abort.assertion
    ∧ (sample_basic 64 1).is_complete sample_memory = .error Abort.assertion
    ∧ (sample_basic 64 1).inc_complete_count sample_memory = .error Abort.assertion
    ∧ (sample_basic 64 1).dec_complete_count sample_memory = .error Abort.assertion
    ∧ (sample_basic 64 1).wait4unref sample_memory 2 = .error Abort.assertion
    ∧ (sample_basic 64 1).get_orig sample_memory = .error Abort.assertion
    ∧ (sample_basic 64 1).set_orig sample_memory 4096 = .error Abort.assertion
    ∧ (sample_basic 64 1).get_priv sample_memory = .error Abort.assertion
    ∧ (sample_basic 64 1).set_priv sample_memory 4096 = .error Abort.assertion
    ∧ set_partial sample_memory (sample_basic 64 1) true = .error Abort.assertion
    ∧ (sample_basic 64 1).is_empty sample_memory = .error Abort.assertion :=
  extension_operations_fail_fast sample_memory (sample_basic 64 1) (fun e _ _ _ => pure e)
    (fun e _ _ _ => pure e) 1000 8 8 2 4096 true (Or.inl (by decide))

end SAFS

namespace SAFS
open io_request

/-! ## Flush requests and constructors -/

/-- C14: for every request, `is_flush()` is true if and only if the request is
synchronous, high-priority and its buffer address `payload.buf_addr` is null;
the request built by the constructor `io_request(sync = true)`, in whatever
storage, satisfies `is_flush() == true` and `get_size() == 0`. -/
theorem is_flush_iff (m : memory) (r raw : io_request) :
    (r.is_flush = true
      ↔ r.is_sync = true ∧ r.is_high_prio = true ∧ ptr_load r.payload = 0)
    ∧ (construct raw true).is_flush = true
    ∧ (construct raw true).get_size m = .ok 0 := by
  refine ⟨?_, ?_, ?_⟩
  · simp [is_flush, is_sync, is_high_prio, and_assoc]
  · simp [is_flush, construct, use_default_flags, ptr_load, sizeof_payload]
  · have hk : (construct raw true).payload_type ≠ EXT_REQ := by
      show BASIC_REQ ≠ EXT_REQ
      decide
    have hz : (construct raw true).get_int_buf_size = 0 := by
      show to_size_t (to_int (to_int (((0 : Fin 65536).val : Int) * 65536)
        + ((0 : Fin 65536).val : Int))) = 0
      decide
    have ht : to_ssize_t 0 = 0 := by decide
    rw [get_size_of_not_extended m _ hk, hz, ht]

/-- C15, evaluated on the default constructor `io_request()`, whose argument
`sync` defaults to false: in whatever storage it runs, the request it builds
has `is_flush() == false`, because `is_flush()` requires the `sync` flag. -/
theorem default_constructor_not_flush (raw : io_request) :
    (construct raw false).is_flush = false
    ∧ (construct raw false).is_sync = false
    ∧ (construct raw false).is_high_prio = true
    ∧ ptr_load (construct raw false).payload = 0 := by
  refine ⟨?_, rfl, rfl, ?_⟩
  · simp [is_flush, construct, use_default_flags]
  · simp [construct, use_default_flags, ptr_load, sizeof_payload]

/-- C16: every constructor of `io_request` that returns (default, basic buffer,
extension, user-compute), in whatever storage it runs, yields a request for
which `is_sync()` equals the `sync` argument, which is high-priority, not
low-latency and not discarded, has the inline flag clear and null user data,
and whose payload kind is `BASIC_REQ`, `BASIC_REQ`, `EXT_REQ` and
`USER_COMPUTE` respectively. -/
theorem constructors_default_state (raw rb re rc : io_request) (sync : Bool)
    (buf ext compute : Nat) (loc : data_loc_t) (size : Int) (access_method : Int)
    (io_ptr : Nat) (node_id : Int)
    (hb : construct_buf raw buf loc size access_method io_ptr node_id sync = .ok rb)
    (he : construct_ext raw ext loc access_method io_ptr node_id sync = .ok re)
    (hc : construct_compute raw compute loc size access_method io_ptr node_id sync = .ok rc) :
    ((construct raw sync).is_sync = sync ∧ (construct raw sync).is_high_prio = true
      ∧ (construct raw sync).is_low_latency = false ∧ (construct raw sync).is_discarded = false
      ∧ (construct raw sync).is_data_inline = false ∧ (construct raw sync).get_user_data = 0
      ∧ (construct raw sync).payload_type = BASIC_REQ)
    ∧ (rb.is_sync = sync ∧ rb.is_high_prio = true ∧ rb.is_low_latency = false
      ∧ rb.is_discarded = false ∧ rb.is_data_inline = false ∧ rb.get_user_data = 0
      ∧ rb.payload_type = BASIC_REQ)
    ∧ (re.is_sync = sync ∧ re.is_high_prio = true ∧ re.is_low_latency = false
      ∧ re.is_discarded = false ∧ re.is_data_inline = false ∧ re.get_user_data = 0
      ∧ re.payload_type = EXT_REQ)
    ∧ (rc.is_sync = sync ∧ rc.is_high_prio = true ∧ rc.is_low_latency = false
      ∧ rc.is_discarded = false ∧ rc.is_data_inline = false ∧ rc.get_user_data = 0
      ∧ rc.payload_type = USER_COMPUTE) := by
  refine ⟨⟨rfl, rfl, rfl, rfl, rfl, rfl, rfl⟩, ?_, ?_, ?_⟩
  · simp only [construct_buf, init_buf, set_data_loc, set_io, is_extended_req, set_int_buf_size,
      set_node_id, c_assert, bind, Except.bind, pure, Except.pure] at hb
    have hx : decide (BASIC_REQ = EXT_REQ) = false := by decide
    simp only [hx, Bool.false_eq_true, ↓reduceIte] at hb
    by_cases h1 : to_size_t size ≤ MAX_BUF_SIZE
    · by_cases h2 : node_id ≤ MAX_NODE_ID
      · simp only [h1, h2, ↓reduceIte] at hb
        injection hb with hb
        subst hb
        exact ⟨rfl, rfl, rfl, rfl, rfl, rfl, rfl⟩
      · simp only [h1, h2, ↓reduceIte] at hb
        cases hb
    · simp only [h1, ↓reduceIte] at hb
      cases hb
  · simp only [construct_ext, init_buf, set_data_loc, set_io, is_extended_req, set_int_buf_size,
      set_node_id, c_assert, bind, Except.bind, pure, Except.pure] at he
    have hx : decide (EXT_REQ = EXT_REQ) = true := by decide
    simp only [hx, ↓reduceIte] at he
    by_cases h2 : node_id ≤ MAX_NODE_ID
    · simp only [h2, ↓reduceIte] at he
      injection he with he
      subst he
      exact ⟨rfl, rfl, rfl, rfl, rfl, rfl, rfl⟩
    · simp only [h2, ↓reduceIte] at he
      cases he
  · simp only [construct_compute, init_buf, set_data_loc, set_io, is_extended_req,
      set_int_buf_size, set_node_id, c_assert, bind, Except.bind, pure, Except.pure] at hc
    have hx : decide (USER_COMPUTE = EXT_REQ) = false := by decide
    simp only [hx, Bool.false_eq_true, ↓reduceIte] at hc
    by_cases h1 : to_size_t size ≤ MAX_BUF_SIZE
    · by_cases h2 : node_id ≤ MAX_NODE_ID
      · simp only [h1, h2, ↓reduceIte] at hc
        injection hc with hc
        subst hc
        exact ⟨rfl, rfl, rfl, rfl, rfl, rfl, rfl⟩
      · simp only [h1, h2, ↓reduceIte] at hc
        cases hc
    · simp only [h1, ↓reduceIte] at hc
      cases hc

end SAFS

namespace SAFS
open io_request

/-- Instance of the C16 statement on the four sample constructions. -/
theorem constructors_default_state_witness :
    ((construct zero_storage false).is_sync = false
      ∧ (construct zero_storage false).is_high_prio = true
      ∧ (construct zero_storage false).is_low_latency = false
      ∧ (construct zero_storage false).is_discarded = false
      ∧ (construct zero_storage false).is_data_inline = false
      ∧ (construct zero_storage false).get_user_data = 0
      ∧ (construct zero_storage false).payload_type = BASIC_REQ)
    ∧ ((sample_basic 4096 0).is_sync = false ∧ (sample_basic 4096 0).is_high_prio = true
      ∧ (sample_basic 4096 0).is_low_latency = false
      ∧ (sample_basic 4096 0).is_discarded = false
      ∧ (sample_basic 4096 0).is_data_inline = false
      ∧ (sample_basic 4096 0).get_user_data = 0
      ∧ (sample_basic 4096 0).payload_type = BASIC_REQ)
    ∧ (sample_extended.is_sync = false ∧ sample_extended.is_high_prio = true
      ∧ sample_extended.is_low_latency = false ∧ sample_extended.is_discarded = false
      ∧ sample_extended.is_data_inline = false ∧ sample_extended.get_user_data = 0
      ∧ sample_extended.payload_type = EXT_REQ)
    ∧ (sample_compute_request.is_sync = false ∧ sample_compute_request.is_high_prio = true
      ∧ sample_compute_request.is_low_latency = false
      ∧ sample_compute_request.is_discarded = false
      ∧ sample_compute_request.is_data_inline = false
      ∧ sample_compute_request.get_user_data = 0
      ∧ sample_compute_request.payload_type = USER_COMPUTE) :=
  constructors_default_state zero_storage (sample_basic 4096 0) sample_extended
    sample_compute_request false 1000 8192 1000 ⟨3, 4096⟩ 4096 READ 0 0
    (by rfl) (by rfl) (by rfl)

/-! ## Re-initialisation of a request -/

/-- C17, evaluated on a request that was marked low-latency and discarded
(`set_low_latency(true)`, `set_discarded(true)` on a default-constructed
request): after `init()` it still reports `is_low_latency() == true` and
`is_discarded() == true`, while `init()` on the default-constructed request
leaves both false, so the two flags after `init()` depend on the prior
state. -/
theorem init_keeps_low_latency_and_discarded :
    ((init sample_memory
        (set_discarded (set_low_latency (construct zero_storage false) true) true)).map
      fun x => (x.1.is_low_latency, x.1.is_discarded)) = .ok (true, true)
    ∧ ((init sample_memory (construct zero_storage false)).map
      fun x => (x.1.is_low_latency, x.1.is_discarded)) = .ok (false, false) := by
  constructor <;> rfl

/-- C18, evaluated on a callback structure whose request is default-constructed
in zeroed storage: after `callback_initiator::init(cb)` the request reports
`is_extended_req() == false`. -/
theorem callback_initiator_leaves_basic :
    ((callback_initiator.init sample_memory ⟨0, 0, 0, 0, construct zero_storage false⟩).map
      fun x => x.1.req.is_extended_req) = .ok false
    ∧ ((callback_initiator.init sample_memory ⟨0, 0, 0, 0, zero_storage⟩).map
      fun x => x.1.req.payload_type) = .ok BASIC_REQ := by
  constructor <;> rfl

/-- Supporting fact for C18: `callback_initiator::init(cb)` never changes
whether the request of `cb` is extended. -/
theorem callback_initiator_keeps_kind (m m1 : memory) (cb cb1 : thread_callback_s)
    (h : callback_initiator.init m cb = .ok (cb1, m1)) :
    cb1.req.is_extended_req = cb.req.is_extended_req := by
  simp only [callback_initiator.init, bind, Except.bind, pure, Except.pure] at h
  cases hi : cb.req.init m with
  | error a => rw [hi] at h; cases h
  | ok x =>
    rw [hi] at h
    injection h with h
    injection h with h1 h2
    subst h1
    exact (init_result m cb.req x.1 x.2 hi).2.2.2.2.2.2.2.2.2.2.2

/-! ## Node identifiers -/

/-- C20, as stated, fails for negative identifiers: `set_node_id(-1)` passes
the assertion `node_id <= MAX_NODE_ID`, and `get_node_id()` then returns
255. -/
theorem set_node_id_negative_counterexample :
    (set_node_id zero_storage (-1)).map get_node_id = .ok 255 := by
  rfl

/-- C20, amended: `set_node_id(n)` succeeds if and only if `n <= 255`; for `n`
in `0..255` `get_node_id()` then returns `n`, and for a negative `n` it returns
`n` modulo 256; for every `n` above 255 the call fails its assertion and
stores nothing. -/
theorem set_node_id_range (r : io_request) (n : Int) :
    (n ≤ MAX_NODE_ID → ∃ q, r.set_node_id n = .ok q ∧ q.get_node_id = n % 256
      ∧ q = { r with node_id := q.node_id })
    ∧ (0 ≤ n → n ≤ MAX_NODE_ID → ∃ q, r.set_node_id n = .ok q ∧ q.get_node_id = n)
    ∧ (MAX_NODE_ID < n → r.set_node_id n = .error Abort.assertion) := by
  have hv : (((Fin.ofNat (n % 256).toNat : Fin 256).val : Nat) : Int) = n % 256 := by
    simp only [Fin.ofNat]
    omega
  refine ⟨?_, ?_, ?_⟩
  · intro h
    refine ⟨{ r with node_id := Fin.ofNat (n % 256).toNat }, ?_, hv, rfl⟩
    simp only [set_node_id, c_assert, h, ↓reduceIte, bind, Except.bind, pure, Except.pure]
  · intro h0 h
    refine ⟨{ r with node_id := Fin.ofNat (n % 256).toNat }, ?_, ?_⟩
    · simp only [set_node_id, c_assert, h, ↓reduceIte, bind, Except.bind, pure, Except.pure]
    · simp only [MAX_NODE_ID] at h
      show (((Fin.ofNat (n % 256).toNat : Fin 256).val : Nat) : Int) = n
      rw [hv]
      omega
  · intro h
    have : ¬ n ≤ MAX_NODE_ID := by omega
    simp only [set_node_id, c_assert, this, ↓reduceIte, bind, Except.bind]

/-- Instance of the amended C20 statement: node 7 is stored and read back, node
-1 is stored as 255, node 256 is refused. -/
theorem set_node_id_range_witness :
    (∃ q, zero_storage.set_node_id (-1) = .ok q ∧ q.get_node_id = -1 % 256
      ∧ q = { zero_storage with node_id := q.node_id })
    ∧ (∃ q, zero_storage.set_node_id 7 = .ok q ∧ q.get_node_id = 7)
    ∧ zero_storage.set_node_id 256 = .error Abort.assertion :=
  ⟨(set_node_id_range zero_storage (-1)).1 (by decide),
    (set_node_id_range zero_storage 7).2.1 (by decide) (by decide),
    (set_node_id_range zero_storage 256).2.2 (by decide)⟩

end SAFS

namespace SAFS
open io_request

/-! ## Reference count -/

/-- C19, as stated, fails in two ways on the extended request with a fresh
extension.  The sequence `dec_complete_count`, `inc_complete_count` has
`N = M = 1`, and the count reported after its first call is -1.  The counter is
a `short`: after 32768 calls of `inc_complete_count` and no other call the
count is -32768 and not `N - M`. -/
theorem ref_count_counterexample :
    ((construct_ext zero_storage 8192 ⟨3, 4096⟩ READ 0 0 false).bind fun r =>
      (ref_trace sample_ext_memory r [ref_call.dec, ref_call.inc]).map Prod.fst)
      = .ok [-1, 0]
    ∧ (ref_trace sample_ext_memory sample_extended (List.replicate 32768 ref_call.inc)).map
        (fun x => (x.2.ext (ptr_load sample_extended.payload)).get_ref) = .ok (-32768) := by
  constructor
  · rfl
  · obtain ⟨t, m1, h1, -, h3⟩ := ref_trace_inc_wraps sample_extended (by decide) (by decide)
      (by decide) 32768 sample_ext_memory
    rw [h1]
    show Except.ok (m1.ext (ptr_load sample_extended.payload)).refcnt = _
    rw [h3 (by decide)]
    rfl

/-- C19, amended: for every extended request (its payload is a non-null
extension pointer) whose reference count is zero, and every sequence of
`inc_complete_count` and `dec_complete_count` calls during which the number of
`inc` calls made so far minus the number of `dec` calls made so far stays
between 0 and 32767, every call reports exactly that difference, which is
`>= 0`; after the whole sequence, of `N` calls of `inc_complete_count` and `M`
of `dec_complete_count`, the count is `N - M >= 0`, and the loop of
`wait4unref` is left if and only if the count is zero, that is `N == M`. -/
theorem ref_count_sequence (m : memory) (r : io_request) (cs : List ref_call)
    (hk : r.payload_type = EXT_REQ) (hp : ptr_load r.payload ≠ 0) (hi : r.data_inline = false)
    (hfresh : (m.ext (ptr_load r.payload)).get_ref = 0)
    (hbal : ∀ x ∈ running_count 0 cs, 0 ≤ x ∧ x ≤ 32767) :
    ∃ m1, ref_trace m r cs = .ok (running_count 0 cs, m1)
      ∧ (m1.ext (ptr_load r.payload)).get_ref
        = (cs.count ref_call.inc : Int) - (cs.count ref_call.dec : Int)
      ∧ cs.count ref_call.dec ≤ cs.count ref_call.inc
      ∧ ((∃ spins, r.wait4unref m1 spins = .ok (some ()))
        ↔ cs.count ref_call.inc = cs.count ref_call.dec) := by
  simp only [io_req_extension.get_ref] at hfresh ⊢
  obtain ⟨m1, h1, h2, h3⟩ := ref_trace_running r hk hp hi cs m (by
    rw [hfresh]
    intro x hx
    have := hbal x hx
    omega)
  rw [hfresh] at h1 h2 h3
  have hnn : 0 ≤ (m1.ext (ptr_load r.payload)).refcnt := by
    by_cases hc : cs = []
    · rw [h2, hc]
      simp
    · exact (hbal _ (h3 hc)).1
  refine ⟨m1, h1, by rw [h2]; omega, by omega, ?_⟩
  constructor
  · rintro ⟨spins, hw⟩
    rw [wait4unref_of_extended m1 r hk hp hi spins] at hw
    simp only [io_req_extension.get_ref] at hw
    by_cases hpos : (m1.ext (ptr_load r.payload)).refcnt > 0
    · rw [if_pos hpos] at hw
      cases hw
    · omega
  · intro heq
    refine ⟨0, ?_⟩
    rw [wait4unref_of_extended m1 r hk hp hi 0]
    simp only [io_req_extension.get_ref]
    rw [if_neg (by omega)]

/-- Instance of the amended C19 statement on the sample extended request and
the calls inc, inc, dec, dec. -/
theorem ref_count_sequence_witness :
    ∃ m1, ref_trace sample_ext_memory sample_extended
          [ref_call.inc, ref_call.inc, ref_call.dec, ref_call.dec]
        = .ok (running_count 0 [ref_call.inc, ref_call.inc, ref_call.dec, ref_call.dec], m1)
      ∧ (m1.ext (ptr_load sample_extended.payload)).get_ref
        = (([ref_call.inc, ref_call.inc, ref_call.dec, ref_call.dec].count ref_call.inc : Nat)
            : Int)
          - (([ref_call.inc, ref_call.inc, ref_call.dec, ref_call.dec].count ref_call.dec : Nat)
            : Int)
      ∧ [ref_call.inc, ref_call.inc, ref_call.dec, ref_call.dec].count ref_call.dec
        ≤ [ref_call.inc, ref_call.inc, ref_call.dec, ref_call.dec].count ref_call.inc
      ∧ ((∃ spins, sample_extended.wait4unref m1 spins = .ok (some ()))
        ↔ [ref_call.inc, ref_call.inc, ref_call.dec, ref_call.dec].count ref_call.inc
          = [ref_call.inc, ref_call.inc, ref_call.dec, ref_call.dec].count ref_call.dec) :=
  ref_count_sequence sample_ext_memory sample_extended
    [ref_call.inc, ref_call.inc, ref_call.dec, ref_call.dec]
    (by decide) (by decide) (by decide) (by rfl) (by decide)

end SAFS

namespace SAFS

open io_request

/-! ## Data locations and validity -/

/-- C21: for every offset `o` of the signed 48-bit range, after
`set_data_loc(data_loc_t(f, o))` the method `get_offset()` returns `o` and
`is_valid()` is true exactly when `o` is not `-1`; the default-constructed
location `INVALID_DATA_LOC` has file id `-1` and offset `-1`, and a request set
to it is not valid. -/
theorem data_loc_offset_roundtrip (r : io_request) (f o : Int)
    (h1 : -140737488355328 ≤ o) (h2 : o < 140737488355328) :
    (r.set_data_loc (data_loc_t.construct_at f o)).get_offset = o
    ∧ ((r.set_data_loc (data_loc_t.construct_at f o)).is_valid = true ↔ o ≠ -1)
    ∧ INVALID_DATA_LOC.get_file_id = -1
    ∧ INVALID_DATA_LOC.get_offset = -1
    ∧ (r.set_data_loc INVALID_DATA_LOC).is_valid = false := by
  have ho : (r.set_data_loc (data_loc_t.construct_at f o)).get_offset = o := by
    simp only [set_data_loc, get_offset, data_loc_t.construct_at]
    exact off48_load_store o h1 h2
  have hi : (r.set_data_loc INVALID_DATA_LOC).get_offset = -1 := by
    simp only [set_data_loc, get_offset, INVALID_DATA_LOC, data_loc_t.construct]
    exact off48_load_store (-1) (by decide) (by decide)
  refine ⟨ho, ?_, rfl, rfl, ?_⟩
  · simp only [is_valid, ho, decide_eq_true_eq]
  · simp only [is_valid, hi, ne_eq, not_true_eq_false, decide_False]

theorem data_loc_offset_roundtrip_witness :
    (zero_storage.set_data_loc (data_loc_t.construct_at 3 4096)).get_offset = 4096
    ∧ ((zero_storage.set_data_loc (data_loc_t.construct_at 3 4096)).is_valid = true
        ↔ (4096 : Int) ≠ -1)
    ∧ INVALID_DATA_LOC.get_file_id = -1
    ∧ INVALID_DATA_LOC.get_offset = -1
    ∧ (zero_storage.set_data_loc INVALID_DATA_LOC).is_valid = false :=
  data_loc_offset_roundtrip zero_storage 3 4096 (by decide) (by decide)

/-! ## The synchronous entry point of the asynchronous engine -/

/-- C22: `async_io::access(buf, offset, size, access_method)` returns the
status `IO_UNSUPPORTED` to its caller for every combination of arguments and
leaves every data member of the engine as it was. -/
theorem async_access_unsupported (engine : async_io) (buf : Nat) (off size : Int)
    (access_method : Int) :
    engine.access buf off size access_method = .ok (io_status.IO_UNSUPPORTED, engine) := by
  rfl

/-! ## Buffer descriptors -/

theorem io_buf_call_page_size (b b1 : io_buf) (c : io_buf_call) (h : b.call c = .ok b1) :
    b1.is_page = true → b1.get_size = PAGE_SIZE := by
  cases c with
  | init_flag p size is_page =>
    simp only [io_buf.call, io_buf.init_flag, c_assert, bind, Except.bind, pure,
      Except.pure] at h
    cases is_page with
    | false =>
      simp only [Bool.false_eq_true, ↓reduceIte, Except.ok.injEq] at h
      subst h
      intro hp
      cases hp
    | true =>
      by_cases hs : size = PAGE_SIZE
      · simp only [hs, ↓reduceIte, Except.ok.injEq] at h
        subst h
        intro _
        have hv : ((Fin.ofNat (PAGE_SIZE % 2147483648).toNat : Fin 2147483648).val : Int)
            = PAGE_SIZE := by decide
        simp only [io_buf.get_size]
        exact hv
      · simp only [hs, ↓reduceIte] at h
        cases h
  | init buf size =>
    simp only [io_buf.call, io_buf.init, pure, Except.pure, Except.ok.injEq] at h
    subst h
    intro hp
    cases hp

theorem io_buf_run_page_size (cs : List io_buf_call) (b b1 : io_buf)
    (hb : b.is_page = true → b.get_size = PAGE_SIZE) (h : b.run cs = .ok b1) :
    b1.is_page = true → b1.get_size = PAGE_SIZE := by
  induction cs generalizing b with
  | nil =>
    simp only [io_buf.run, pure, Except.pure, Except.ok.injEq] at h
    subst h
    exact hb
  | cons c cs ih =>
    simp only [io_buf.run, bind, Except.bind] at h
    cases hc : b.call c with
    | error a => rw [hc] at h; cases h
    | ok b2 =>
      rw [hc] at h
      exact ih b2 (io_buf_call_page_size b b2 c hc) h

/-- C23: `init(p, size, is_page)` with `is_page` true returns exactly when
`size` is `PAGE_SIZE` and otherwise fails its assertion; the descriptor it
leaves has the page bit set and reports `get_size() == PAGE_SIZE`;
`init(buf, size)` clears the page bit; `get_page()` fails its assertion exactly
on the descriptors whose page bit is clear; and every descriptor that a
sequence of `init` calls leaves, starting from the constructor, reports
`PAGE_SIZE` when its page bit is set. -/
theorem page_descriptor_size (b : io_buf) (p : Nat) (size : Int) (cs : List io_buf_call) :
    ((∃ b1, b.init_flag p size true = .ok b1) ↔ size = PAGE_SIZE)
    ∧ (size ≠ PAGE_SIZE → b.init_flag p size true = .error Abort.assertion)
    ∧ (∀ b1, b.init_flag p size true = .ok b1 →
        b1.is_page = true ∧ b1.get_size = PAGE_SIZE ∧ b1.get_page = .ok p)
    ∧ (b.init p size).is_page = false
    ∧ (b.get_page = .error Abort.assertion ↔ b.is_page = false)
    ∧ (∀ b1, io_buf.construct.run cs = .ok b1 → b1.is_page = true →
        b1.get_size = PAGE_SIZE) := by
  have hrun : ∀ b1, io_buf.construct.run cs = .ok b1 → b1.is_page = true →
      b1.get_size = PAGE_SIZE := fun b1 h =>
    io_buf_run_page_size cs io_buf.construct b1 (fun hp => by cases hp) h
  by_cases hs : size = PAGE_SIZE
  · have hv : ((Fin.ofNat (PAGE_SIZE % 2147483648).toNat : Fin 2147483648).val : Int)
        = PAGE_SIZE := by decide
    refine ⟨⟨fun _ => hs, fun _ => ?_⟩, fun h => absurd hs h, ?_, rfl, ?_⟩
    · simp only [io_buf.init_flag, hs, ↓reduceIte, c_assert, bind, Except.bind, pure,
        Except.pure]
      exact ⟨_, rfl⟩
    · intro b1 h
      simp only [io_buf.init_flag, hs, ↓reduceIte, c_assert, bind, Except.bind, pure,
        Except.pure, Except.ok.injEq] at h
      subst h
      refine ⟨rfl, ?_, ?_⟩
      · simp only [io_buf.get_size]
        exact hv
      · simp only [io_buf.get_page, c_assert, ↓reduceIte, bind, Except.bind, pure, Except.pure]
    · refine ⟨?_, hrun⟩
      cases hb : b.is_page <;>
        simp [io_buf.get_page, c_assert, hb, bind, Except.bind, pure, Except.pure]
  · have hf : b.init_flag p size true = .error Abort.assertion := by
      simp only [io_buf.init_flag, hs, ↓reduceIte, c_assert, bind, Except.bind]
    refine ⟨⟨fun ⟨b1, h⟩ => ?_, fun h => absurd h hs⟩, fun _ => hf, ?_, rfl, ?_⟩
    · rw [hf] at h
      cases h
    · intro b1 h
      rw [hf] at h
      cases h
    · refine ⟨?_, hrun⟩
      cases hb : b.is_page <;>
        simp [io_buf.get_page, c_assert, hb, bind, Except.bind, pure, Except.pure]

theorem page_descriptor_size_witness :
    (∃ b1, io_buf.construct.init_flag 8192 4096 true = .ok b1)
    ∧ io_buf.construct.init_flag 8192 4095 true = .error Abort.assertion
    ∧ ((⟨8192, 4096, true⟩ : io_buf).is_page = true
        ∧ (⟨8192, 4096, true⟩ : io_buf).get_size = PAGE_SIZE
        ∧ (⟨8192, 4096, true⟩ : io_buf).get_page = .ok 8192)
    ∧ io_buf.construct.get_page = .error Abort.assertion
    ∧ (⟨8192, 4096, true⟩ : io_buf).get_size = PAGE_SIZE :=
  ⟨(page_descriptor_size io_buf.construct 8192 4096 []).1.2 rfl,
   (page_descriptor_size io_buf.construct 8192 4095 []).2.1 (by decide),
   (page_descriptor_size io_buf.construct 8192 4096 []).2.2.1 ⟨8192, 4096, true⟩ rfl,
   (page_descriptor_size io_buf.construct 8192 4096 []).2.2.2.2.1.2 rfl,
   (page_descriptor_size io_buf.construct 8192 4096
      [.init 1000 64, .init_flag 8192 4096 true]).2.2.2.2.2 ⟨8192, 4096, true⟩ rfl rfl⟩

/-! ## Alignment predicates -/

/-- C24: for a request of offset `o` and size `s >= 1`, `within_1page()` is
true exactly when the first byte `o` and the last byte `o + s - 1` lie in the
same page, and two requests of equal offset and size get the same answer. -/
theorem within_1page_iff (m : memory) (r : io_request) (s : Int)
    (hs : r.get_size m = .ok s) (h1 : 1 ≤ s) :
    r.within_1page m
      = .ok (decide (r.get_offset / PAGE_SIZE = (r.get_offset + s - 1) / PAGE_SIZE))
    ∧ ∀ (m2 : memory) (r2 : io_request), r2.get_offset = r.get_offset →
        r2.get_size m2 = .ok s → r2.within_1page m2 = r.within_1page m := by
  refine ⟨?_, fun m2 r2 ho hs2 => ?_⟩
  · simp only [within_1page, hs, bind, Except.bind, pure, Except.pure, ROUND_PAGE, PAGE_SIZE,
      Except.ok.injEq, decide_eq_decide]
    omega
  · simp only [within_1page, hs, hs2, ho, bind, Except.bind, pure, Except.pure]

theorem within_1page_iff_witness :
    (sample_basic 4096 0).within_1page sample_memory
      = .ok (decide ((sample_basic 4096 0).get_offset / PAGE_SIZE
          = ((sample_basic 4096 0).get_offset + 4096 - 1) / PAGE_SIZE))
    ∧ ∀ (m2 : memory) (r2 : io_request), r2.get_offset = (sample_basic 4096 0).get_offset →
        r2.get_size m2 = .ok 4096 →
        r2.within_1page m2 = (sample_basic 4096 0).within_1page sample_memory :=
  within_1page_iff sample_memory (sample_basic 4096 0) 4096 rfl (by decide)

/-- C25: with a configured RAID block of `k >= 1` pages, that is of
`B = k * PAGE_SIZE` bytes, `inside_RAID_block()` is true exactly when the first
byte `o` and the last byte `o + s - 1` of the request lie in the same block of
`B` bytes. -/
theorem inside_RAID_block_iff (k : Int) (m : memory) (r : io_request) (s : Int)
    (hk : 1 ≤ k) (hs : r.get_size m = .ok s) :
    r.inside_RAID_block k m
      = .ok (decide (r.get_offset / (k * PAGE_SIZE)
          = (r.get_offset + s - 1) / (k * PAGE_SIZE))) := by
  have hB : k * PAGE_SIZE ≠ 0 := by
    simp only [PAGE_SIZE]
    omega
  simp only [inside_RAID_block, hs, bind, Except.bind, pure, Except.pure, ROUND,
    Except.ok.injEq, decide_eq_decide, Int.emod_def, sub_sub_cancel]
  exact mul_right_inj' hB

theorem inside_RAID_block_iff_witness :
    (sample_basic 4097 0).inside_RAID_block 16 sample_memory
      = .ok (decide ((sample_basic 4097 0).get_offset / (16 * PAGE_SIZE)
          = ((sample_basic 4097 0).get_offset + 4097 - 1) / (16 * PAGE_SIZE))) :=
  inside_RAID_block_iff 16 sample_memory (sample_basic 4097 0) 4097 (by decide) rfl

/-! ## Resetting an extension -/

theorem zero_fill_length (l : List io_buf) (n : Nat) :
    (io_req_extension.zero_fill l n).length = l.length := by
  induction l generalizing n with
  | nil => cases n <;> rfl
  | cons b bs ih =>
    cases n with
    | zero => rfl
    | succ k => simp only [io_req_extension.zero_fill, List.length_cons, ih]

theorem zero_fill_slot (l : List io_buf) (n i : Nat) (hi : i < n) (hl : i < l.length) :
    (io_req_extension.zero_fill l n)[i]? = some default := by
  induction l generalizing n i with
  | nil => simp only [List.length_nil, Nat.not_lt_zero] at hl
  | cons b bs ih =>
    cases n with
    | zero => omega
    | succ k =>
      cases i with
      | zero => simp only [io_req_extension.zero_fill, List.getElem?_cons_zero]
      | succ j =>
        simp only [io_req_extension.zero_fill, List.getElem?_cons_succ]
        exact ih k j (by omega) (by simpa using hl)

/-- C26: whatever the state of an extension, after `init()` it has no buffer,
size 0, reference count 0, completed size 0, null `orig`, `priv`, `user_data`
and `next`, a clear partial flag and a zero descriptor in every slot below the
capacity, while the capacity, the choice between the embedded and the spilled
array and the length of that array are as before. -/
theorem extension_init_clean (e : io_req_extension) :
    e.init.get_num_bufs = 0 ∧ e.init.get_size = 0 ∧ e.init.get_ref = 0
    ∧ e.init.get_completed_size = 0
    ∧ e.init.get_orig = 0 ∧ e.init.get_priv = 0 ∧ e.init.get_user_data = 0
    ∧ e.init.get_next = 0
    ∧ io_req_extension.is_partial e.init = false
    ∧ (∀ i : Nat, (i : Int) < e.vec_capacity → i < e.vec_pointer.length →
        e.init.vec_pointer[i]? = some ⟨0, 0, false⟩)
    ∧ e.init.vec_capacity = e.vec_capacity
    ∧ e.init.embedded = e.embedded
    ∧ e.init.vec_pointer.length = e.vec_pointer.length := by
  refine ⟨rfl, extension_init_size e, rfl, rfl, rfl, rfl, rfl, rfl, rfl, ?_, rfl, rfl, ?_⟩
  · intro i hc hl
    exact zero_fill_slot e.vec_pointer e.vec_capacity.toNat i (by omega) hl
  · exact zero_fill_length e.vec_pointer e.vec_capacity.toNat

theorem extension_init_clean_witness :
    sample_extension8.init.vec_pointer[0]? = some ⟨0, 0, false⟩ :=
  (extension_init_clean sample_extension8).2.2.2.2.2.2.2.2.2.1 0 (by decide) (by decide)

end SAFS

namespace SAFS

open io_request

/-! ## The size stored in the two 16-bit fields -/

theorem int_buf_size_lower_half (r : io_request) (s : Int)
    (h1 : 0 ≤ s) (h2 : s < 2147483648) :
    ∃ q, r.set_int_buf_size s = .ok q ∧ q.get_int_buf_size = s := by
  have ha : s ≤ MAX_BUF_SIZE := by
    simp only [MAX_BUF_SIZE]
    omega
  refine ⟨{ r with buf_size_high := Fin.ofNat (s / 65536).toNat,
                   buf_size_low := Fin.ofNat (s % 65536).toNat }, ?_, ?_⟩
  · simp only [set_int_buf_size, c_assert, ha, ↓reduceIte, bind, Except.bind, pure, Except.pure]
  · simp only [get_int_buf_size, to_size_t, to_int, Fin.ofNat]
    omega

theorem int_buf_size_beyond_maximum (r : io_request) (s : Int) (h : 4294967295 < s) :
    r.set_int_buf_size s = .error Abort.assertion := by
  have ha : ¬ s ≤ MAX_BUF_SIZE := by
    simp only [MAX_BUF_SIZE]
    omega
  simp only [set_int_buf_size, c_assert, ha, ↓reduceIte, bind, Except.bind]

/-- C27, the sizes on which it fails: for every `s` with
`2^31 <= s <= 2^32 - 1` the call `set_int_buf_size(s)` passes its assertion,
and `get_int_buf_size()` then returns `s + 2^64 - 2^32` instead of `s`, so
`get_size()` of a request that is not extended is the negative value
`s - 2^32`. -/
theorem int_buf_size_upper_half (m : memory) (r : io_request) (s : Int)
    (h1 : 2147483648 ≤ s) (h2 : s ≤ 4294967295) :
    ∃ q, r.set_int_buf_size s = .ok q
      ∧ q.get_int_buf_size = s + 18446744069414584320
      ∧ q.get_int_buf_size ≠ s
      ∧ (r.payload_type ≠ EXT_REQ → q.get_size m = .ok (s - 4294967296)) := by
  have ha : s ≤ MAX_BUF_SIZE := by
    simp only [MAX_BUF_SIZE]
    omega
  have hg : ({ r with buf_size_high := Fin.ofNat (s / 65536).toNat,
                      buf_size_low := Fin.ofNat (s % 65536).toNat } : io_request).get_int_buf_size
      = s + 18446744069414584320 := by
    simp only [get_int_buf_size, to_size_t, to_int, Fin.ofNat]
    omega
  refine ⟨{ r with buf_size_high := Fin.ofNat (s / 65536).toNat,
                   buf_size_low := Fin.ofNat (s % 65536).toNat }, ?_, hg, ?_, ?_⟩
  · simp only [set_int_buf_size, c_assert, ha, ↓reduceIte, bind, Except.bind, pure, Except.pure]
  · rw [hg]
    omega
  · intro hne
    have hq := get_size_of_not_extended m
      { r with buf_size_high := Fin.ofNat (s / 65536).toNat,
               buf_size_low := Fin.ofNat (s % 65536).toNat } hne
    rw [hg] at hq
    rw [hq]
    simp only [to_ssize_t, Except.ok.injEq]
    omega

theorem int_buf_size_upper_half_witness :
    ∃ q, zero_storage.set_int_buf_size 2147483648 = .ok q
      ∧ q.get_int_buf_size = 2147483648 + 18446744069414584320
      ∧ q.get_int_buf_size ≠ 2147483648
      ∧ (zero_storage.payload_type ≠ EXT_REQ →
          q.get_size sample_memory = .ok (2147483648 - 4294967296)) :=
  int_buf_size_upper_half sample_memory zero_storage 2147483648 (by decide) (by decide)

/-! ## The arguments with which `extract` initialises its target -/

/-- C28: for a request of one buffer with offset `o`, size `s` and buffer `b`,
and a range `(off, size)` that passes the overlap assertion, `extract` is the
call of `init` on the target with offset `max(off, o)`, size
`min(off + size, o + s) - max(off, o)`, buffer `b + (max(off, o) - o)` and the
file id, access method, owning interface and node id of the source; hence the
address of a file offset `x`, counted from the buffer and offset of the
extracted request, is `b + (x - o)` as in the source. -/
theorem extract_is_intersection (m : memory) (r e : io_request) (off size s : Int) (b : Nat)
    (hnb : r.get_num_bufs m = .ok 1) (hs : r.get_size m = .ok s)
    (hb : r.get_buf m 0 = .ok b) (hbp : b < 18446744073709551616)
    (hc : extract_check r.get_offset s off size = true) :
    r.extract m off size e
      = e.init_buf (to_addr ((b : Int) + (max off r.get_offset - r.get_offset)))
          ⟨r.get_file_id, max off r.get_offset⟩
          (min (off + size) (r.get_offset + s) - max off r.get_offset)
          r.get_access_method r.get_io r.get_node_id
    ∧ ∀ x : Int,
        to_addr (((to_addr ((b : Int) + (max off r.get_offset - r.get_offset)) : Nat) : Int)
          + (x - max off r.get_offset))
        = to_addr ((b : Int) + (x - r.get_offset)) := by
  constructor
  · simp only [extract, hnb, hs, hb, hc, bind, Except.bind, c_assert, ↓reduceIte]
    by_cases ho : off ≤ r.get_offset
    · have e1 : max off r.get_offset = r.get_offset := max_eq_right ho
      have e2 : to_addr ((b : Int) + (r.get_offset - r.get_offset)) = b := by
        simp only [to_addr]
        omega
      have e3 : min (off + size - r.get_offset) (r.get_offset + s - r.get_offset)
          = min (off + size) (r.get_offset + s) - r.get_offset := by
        omega
      simp only [ho, ↓reduceIte, e1, e2, e3]
    · have e1 : max off r.get_offset = off := max_eq_left (by omega)
      have e3 : min (off + size - off) (r.get_offset + s - off)
          = min (off + size) (r.get_offset + s) - off := by
        omega
      simp only [ho, ↓reduceIte, e1, e3]
  · intro x
    simp only [to_addr]
    omega

theorem extract_is_intersection_witness :
    (sample_basic 100 0).extract sample_memory 4100 50 zero_storage
      = zero_storage.init_buf
          (to_addr ((1000 : Int) + (max 4100 (sample_basic 100 0).get_offset
            - (sample_basic 100 0).get_offset)))
          ⟨(sample_basic 100 0).get_file_id, max 4100 (sample_basic 100 0).get_offset⟩
          (min (4100 + 50) ((sample_basic 100 0).get_offset + 100)
            - max 4100 (sample_basic 100 0).get_offset)
          (sample_basic 100 0).get_access_method (sample_basic 100 0).get_io
          (sample_basic 100 0).get_node_id
    ∧ ∀ x : Int,
        to_addr (((to_addr ((1000 : Int) + (max 4100 (sample_basic 100 0).get_offset
            - (sample_basic 100 0).get_offset)) : Nat) : Int)
          + (x - max 4100 (sample_basic 100 0).get_offset))
        = to_addr ((1000 : Int) + (x - (sample_basic 100 0).get_offset)) :=
  extract_is_intersection sample_memory (sample_basic 100 0) zero_storage 4100 50 100 1000
    rfl rfl rfl (by decide) (by decide)

/-! ## The returned length and the reported length -/

/-- C29: whenever `serialize`, called with inlining permitted, returns a
length `L`, the method `get_serialized_size()` of the request before the call
reports that same `L`; this holds for the request that already carries inline
data, the extended request, the basic request and the user-compute request. -/
theorem serialize_returns_serialized_size (m : memory) (r buf r1 w : io_request)
    (size L : Int) (h : r.serialize m buf size true = .ok (L, r1, w)) :
    r.get_serialized_size m = .ok L := by
  cases hin : r.is_data_inline
  case true =>
    simp only [serialize, hin, ↓reduceIte, c_assert, bind, Except.bind] at h
    cases hg : r.get_serialized_size m with
    | error a => rw [hg] at h; cases h
    | ok n =>
      rw [hg] at h
      simp only at h
      by_cases hle : n ≤ size
      · simp only [hle, ↓reduceIte] at h
        cases hm : memcpy_image buf r n with
        | error a => rw [hm] at h; cases h
        | ok img =>
          rw [hm] at h
          simp only [pure, Except.pure, Except.ok.injEq, Prod.mk.injEq] at h
          rw [h.1]
      · simp only [hle, ↓reduceIte] at h
        cases h
  case false =>
    by_cases hk : r.payload_type = EXT_REQ
    · simp only [serialize, hin, hk, Bool.false_eq_true, ↓reduceIte, c_assert, bind,
        Except.bind] at h
      by_cases hle : sizeof_io_request ≤ size
      · simp only [hle, ↓reduceIte, pure, Except.pure, Except.ok.injEq, Prod.mk.injEq] at h
        simp only [get_serialized_size, hk, ↓reduceIte, pure, Except.pure, h.1]
      · simp only [hle, ↓reduceIte] at h
        cases h
    · by_cases hb : r.payload_type = BASIC_REQ
      · have hne : BASIC_REQ ≠ EXT_REQ := by decide
        simp only [serialize, hin, hb, hne, Bool.false_eq_true, ↓reduceIte, bind,
          Except.bind] at h
        simp only [get_serialized_size, hb, hne, ↓reduceIte, bind, Except.bind]
        cases hg : r.get_size m with
        | error a => rw [hg] at h; cases h
        | ok n =>
          rw [hg] at h
          simp only [Bool.true_eq_false, or_false] at h
          simp only
          by_cases hc : n > MAX_INLINE_SIZE ∨ r.access_method.val = READ
          · simp only [hc, ↓reduceIte, c_assert, bind, Except.bind] at h
            by_cases hle : sizeof_io_request ≤ size
            · simp only [hle, ↓reduceIte, pure, Except.pure, Except.ok.injEq,
                Prod.mk.injEq] at h
              simp only [hc, ↓reduceIte, pure, Except.pure, h.1]
            · simp only [hle, ↓reduceIte] at h
              cases h
          · simp only [hc, ↓reduceIte, c_assert, bind, Except.bind] at h
            by_cases hle : to_int (sizeof_io_request - sizeof_payload + n) ≤ size
            · simp only [hle, ↓reduceIte] at h
              by_cases hneg : n < 0
              · simp only [hneg, ↓reduceIte] at h
                cases h
              · simp only [hneg, ↓reduceIte, pure, Except.pure, Except.ok.injEq,
                  Prod.mk.injEq] at h
                simp only [hc, ↓reduceIte, pure, Except.pure, h.1]
            · simp only [hle, ↓reduceIte] at h
              cases h
      · simp only [serialize, hin, hk, hb, Bool.false_eq_true, ↓reduceIte, c_assert, bind,
          Except.bind] at h
        by_cases hle : to_int (sizeof_io_request - sizeof_payload
            + (m.compute (ptr_load r.payload)).get_serialized_size) ≤ size
            ∧ sizeof_io_request ≤ to_unsigned size
        · simp only [hle, and_self, ↓reduceIte, pure, Except.pure, Except.ok.injEq,
            Prod.mk.injEq] at h
          simp only [get_serialized_size, hk, hb, hin, ↓reduceIte, pure, Except.pure, h.1]
        · simp only [hle, ↓reduceIte] at h
          cases h

end SAFS

namespace SAFS

open io_request

theorem serialize_returns_serialized_size_witness :
    (∃ w, (sample_basic 64 1).serialize sample_memory zero_storage 4096 true
        = .ok (96, sample_basic 64 1, w))
    ∧ (sample_basic 64 1).get_serialized_size sample_memory = .ok 96 :=
  ⟨⟨_, serialize_basic_inline sample_memory (sample_basic 64 1) zero_storage 4096 64
      rfl rfl rfl rfl (by decide) (by decide) (by decide)⟩,
   serialize_returns_serialized_size sample_memory (sample_basic 64 1) zero_storage
      (sample_basic 64 1) _ 4096 96
      (serialize_basic_inline sample_memory (sample_basic 64 1) zero_storage 4096 64
        rfl rfl rfl rfl (by decide) (by decide) (by decide))⟩

/-! ## Wire lengths that deserialization rejects -/

/-- C30, the requests on which it fails: a basic write of `n` bytes with
`0 <= n < sizeof(payload)`, serialized with inlining permitted into a buffer
that is large enough, gives the length `L = sizeof(io_request) -
sizeof(payload) + n`, which is below `sizeof(io_request)`; both
`deserialize(req, buf, L)` and `deserialize(buf, L)` then fail their first
assertion. -/
theorem serialized_length_below_header (m : memory) (r buf req : io_request) (buf_addr : Nat)
    (size n : Int)
    (hkind : r.payload_type = BASIC_REQ) (hinl : r.is_data_inline = false)
    (hwrite : r.access_method.val = WRITE) (hn : r.get_size m = .ok n)
    (hlo : 0 ≤ n) (hhi : n < sizeof_payload) (hsize : payload_offset + n ≤ size) :
    ∃ wire, r.serialize m buf size true = .ok (payload_offset + n, r, wire)
      ∧ payload_offset + n < sizeof_io_request
      ∧ deserialize req buf_addr wire (payload_offset + n) = .error Abort.assertion
      ∧ deserialize_ptr m wire (payload_offset + n) = .error Abort.assertion := by
  have hmax : n ≤ MAX_INLINE_SIZE := by
    simp only [sizeof_payload, MAX_INLINE_SIZE] at *
    omega
  have hu : ¬ (to_unsigned (payload_offset + n) ≥ sizeof_io_request) := by
    simp only [payload_offset, sizeof_io_request, sizeof_payload, to_unsigned] at *
    omega
  refine ⟨_, serialize_basic_inline m r buf size n hkind hinl hwrite hn hlo hmax hsize, ?_, ?_, ?_⟩
  · simp only [payload_offset, sizeof_io_request, sizeof_payload] at *
    omega
  · simp only [deserialize, c_assert, hu, ↓reduceIte, bind, Except.bind]
  · simp only [deserialize_ptr, c_assert, hu, ↓reduceIte, bind, Except.bind]

theorem serialized_length_below_header_witness :
    ∃ wire, (sample_basic 4 1).serialize sample_memory zero_storage 4096 true
        = .ok (payload_offset + 4, sample_basic 4 1, wire)
      ∧ payload_offset + 4 < sizeof_io_request
      ∧ deserialize zero_storage 65536 wire (payload_offset + 4) = .error Abort.assertion
      ∧ deserialize_ptr sample_memory wire (payload_offset + 4) = .error Abort.assertion :=
  serialized_length_below_header sample_memory (sample_basic 4 1) zero_storage zero_storage
    65536 4096 4 rfl rfl rfl rfl (by decide) (by decide) (by decide)

theorem sample_small_write_constructed :
    construct_buf zero_storage 1000 ⟨3, 4096⟩ 4 WRITE 0 0 false = .ok (sample_basic 4 1) := by
  rfl

/-- A write of 64 bytes serialized with inlining refused: `serialize` returns
`sizeof(io_request)` and the wire header is not inline, `deserialize(req, buf,
L)` accepts the buffer, while `get_serialized_size()` of the in-place view is
96, so `deserialize(buf, L)` fails its second assertion. -/
theorem plain_small_write_view_rejected :
    ((sample_basic 64 1).serialize sample_memory zero_storage 4096 false).map
        (fun x => (x.1, x.2.2.is_data_inline, x.2.2.get_serialized_size sample_memory,
          Except.map (fun _ => ()) (deserialize zero_storage 65536 x.2.2 x.1),
          Except.map (fun _ => ()) (deserialize_ptr sample_memory x.2.2 x.1)))
      = .ok (40, false, .ok 96, .ok (), .error Abort.assertion) := by
  rfl

end SAFS

namespace SAFS

open io_request

/-- With inlining permitted, `serialize` returns whenever the buffer holds a
whole request header and the length that `get_serialized_size()` reports, and
that length covers the header fields. -/
theorem serialize_returns_in_large_buffer (m : memory) (r buf : io_request) (size L : Int)
    (hg : r.get_serialized_size m = .ok L) (hcover : payload_offset ≤ L) (hL : L ≤ size)
    (hsize : sizeof_io_request ≤ size) (hint : size < 2147483648) :
    ∃ r1 w, r.serialize m buf size true = .ok (L, r1, w) := by
  cases hin : r.is_data_inline
  case true =>
    simp only [serialize, hin, ↓reduceIte, c_assert, bind, Except.bind, hg, hL, memcpy_image,
      hcover, pure, Except.pure]
    exact ⟨_, _, rfl⟩
  case false =>
    by_cases hk : r.payload_type = EXT_REQ
    · simp only [get_serialized_size, hk, ↓reduceIte, pure, Except.pure,
        Except.ok.injEq] at hg
      subst hg
      simp only [serialize, hin, hk, Bool.false_eq_true, ↓reduceIte, c_assert, bind,
        Except.bind, hsize, pure, Except.pure]
      exact ⟨_, _, rfl⟩
    · by_cases hb : r.payload_type = BASIC_REQ
      · have hne : BASIC_REQ ≠ EXT_REQ := by decide
        simp only [get_serialized_size, hb, hne, ↓reduceIte, bind, Except.bind] at hg
        cases hn : r.get_size m with
        | error a => rw [hn] at hg; cases hg
        | ok n =>
          rw [hn] at hg
          simp only at hg
          have hrange := get_size_int_range m r n hk hn
          by_cases hc : n > MAX_INLINE_SIZE ∨ r.access_method.val = READ
          · simp only [hc, ↓reduceIte, pure, Except.pure, Except.ok.injEq] at hg
            subst hg
            simp only [serialize, hin, hb, hne, Bool.false_eq_true, ↓reduceIte, bind,
              Except.bind, hn, hc, Bool.true_eq_false, or_false, c_assert, hsize, pure,
              Except.pure]
            exact ⟨_, _, rfl⟩
          · simp only [hc, ↓reduceIte, pure, Except.pure, Except.ok.injEq] at hg
            have hn0 : ¬ n < 0 := by
              have h1 : ¬ n > MAX_INLINE_SIZE := fun h => hc (Or.inl h)
              simp only [MAX_INLINE_SIZE, payload_offset, sizeof_io_request, sizeof_payload,
                to_int] at *
              omega
            simp only [serialize, hin, hb, hne, Bool.false_eq_true, ↓reduceIte, bind,
              Except.bind, hn, hc, Bool.true_eq_false, or_false, c_assert, hg, hL, hn0, pure,
              Except.pure]
            exact ⟨_, _, rfl⟩
      · simp only [get_serialized_size, hk, hb, hin, ↓reduceIte, pure, Except.pure,
          Except.ok.injEq] at hg
        have hu : sizeof_io_request ≤ to_unsigned size := by
          rw [to_unsigned_eq size (by simp only [sizeof_io_request] at hsize; omega)
            (by omega)]
          exact hsize
        simp only [serialize, hin, hk, hb, Bool.false_eq_true, ↓reduceIte, c_assert, bind,
          Except.bind, hg, hL, hu, and_self, pure, Except.pure]
        exact ⟨_, _, rfl⟩

end SAFS

namespace SAFS

open io_request

/-! ## One page and one RAID block -/

theorem ediv_unique_of_bounds (c k q : Int) (hk : 0 < k) (h1 : k * q ≤ c) (h2 : c < k * q + k) :
    c / k = q := by
  have ha : q ≤ c / k := (Int.le_ediv_iff_mul_le hk).mpr (by rw [mul_comm]; exact h1)
  have hb : c / k < q + 1 := (Int.ediv_lt_iff_lt_mul hk).mpr (by rw [add_mul, mul_comm]; omega)
  omega

theorem same_page_same_block (k a b : Int) (hk : 1 ≤ k)
    (h : a / 4096 = b / 4096) : a / (k * 4096) = b / (k * 4096) := by
  have hB : (0 : Int) < k * 4096 := by omega
  have key : ∀ x : Int, x / (k * 4096) = (x / 4096) / k := by
    intro x
    have e1 := Int.emod_add_ediv x 4096
    have e2 := Int.emod_add_ediv (x / 4096) k
    have m1 := Int.emod_nonneg x (by decide : (4096 : Int) ≠ 0)
    have m2 := Int.emod_lt_of_pos x (by decide : (0 : Int) < 4096)
    have m3 := Int.emod_nonneg (x / 4096) (by omega : k ≠ 0)
    have m4 := Int.emod_lt_of_pos (x / 4096) (by omega : (0 : Int) < k)
    apply ediv_unique_of_bounds x (k * 4096) _ hB
    · have : k * 4096 * (x / 4096 / k) = 4096 * (k * (x / 4096 / k)) := by ring
      rw [this]
      omega
    · have : k * 4096 * (x / 4096 / k) = 4096 * (k * (x / 4096 / k)) := by ring
      rw [this]
      omega
  rw [key a, key b, h]

/-- C31: with a configured RAID block of `k >= 1` pages, every request of size
`s >= 1` for which `within_1page()` is true also satisfies
`inside_RAID_block()`; with a block of one page the two methods return the
same value. -/
theorem one_page_inside_RAID_block (k : Int) (m : memory) (r : io_request) (s : Int)
    (hk : 1 ≤ k) (hs : r.get_size m = .ok s) (h1 : 1 ≤ s) :
    (r.within_1page m = .ok true → r.inside_RAID_block k m = .ok true)
    ∧ r.inside_RAID_block 1 m = r.within_1page m := by
  have hB : k * 4096 ≠ 0 := by omega
  constructor
  · intro h
    simp only [within_1page, hs, bind, Except.bind, pure, Except.pure, ROUND_PAGE, PAGE_SIZE,
      Except.ok.injEq, decide_eq_true_eq] at h
    have hp : r.get_offset / 4096 = (r.get_offset + s - 1) / 4096 := by omega
    have hb := same_page_same_block k r.get_offset (r.get_offset + s - 1) hk hp
    simp only [inside_RAID_block, hs, bind, Except.bind, pure, Except.pure, ROUND, PAGE_SIZE,
      Except.ok.injEq, decide_eq_true_eq, Int.emod_def, sub_sub_cancel]
    rw [hb]
  · simp only [inside_RAID_block, within_1page, hs, bind, Except.bind, pure, Except.pure, ROUND,
      ROUND_PAGE, PAGE_SIZE, Except.ok.injEq, decide_eq_decide, one_mul]
    omega

theorem one_page_inside_RAID_block_witness :
    ((sample_basic 4096 0).within_1page sample_memory = .ok true →
      (sample_basic 4096 0).inside_RAID_block 16 sample_memory = .ok true)
    ∧ (sample_basic 4096 0).inside_RAID_block 1 sample_memory
        = (sample_basic 4096 0).within_1page sample_memory :=
  one_page_inside_RAID_block 16 sample_memory (sample_basic 4096 0) 4096 (by decide) rfl
    (by decide)

end SAFS

namespace fm

open SAFS

/-! ## The index mappings of `NUMA_vector` are inverse -/

theorem map2data_eq (v : NUMA_vector) (idx : Nat)
    (hlog : v.numa_log ≤ 31) (hm : v.numa_mask = 2 ^ v.numa_log - 1)
    (hidx : idx < 18446744073709551616) :
    v.map2data idx = (((idx / 1048576 % 2 ^ v.numa_log : Nat) : Int),
      idx / 1048576 / 2 ^ v.numa_log * 1048576 + idx % 1048576) := by
  have hmask : NUMA_vector.range_mask = 2 ^ 20 - 1 := by decide
  have hN : 2 ^ v.numa_log ≤ 2 ^ 31 := Nat.pow_le_pow_right (by decide) hlog
  have hNpos : 0 < 2 ^ v.numa_log := Nat.pow_pos (by decide)
  have hn := Nat.mod_lt (idx / 1048576) hNpos
  have hdm := Nat.div_add_mod (idx / 1048576) (2 ^ v.numa_log)
  have hle : idx / 1048576 / 2 ^ v.numa_log ≤ idx / 1048576 :=
    Nat.div_le_self _ _
  simp only [NUMA_vector.map2data, NUMA_vector.range_size_log, hmask, hm,
    Nat.and_pow_two_sub_one_eq_mod, Nat.shiftRight_eq_div_pow, Nat.shiftLeft_eq]
  norm_num only
  refine Prod.ext ?_ ?_
  · simp only [to_int]
    omega
  · simp only
    omega

theorem map2logical_map2data (v : NUMA_vector) (idx : Nat)
    (hlog : v.numa_log ≤ 31) (hn : v.get_num_nodes = 2 ^ v.numa_log)
    (hm : v.numa_mask = 2 ^ v.numa_log - 1) (hidx : idx < 18446744073709551616) :
    v.map2logical (v.map2data idx).1 (v.map2data idx).2 = idx := by
  have hmask : NUMA_vector.range_mask = 2 ^ 20 - 1 := by decide
  have hrs : NUMA_vector.range_size = 1048576 := by decide
  have hN : 2 ^ v.numa_log ≤ 2 ^ 31 := Nat.pow_le_pow_right (by decide) hlog
  have hNpos : 0 < 2 ^ v.numa_log := Nat.pow_pos (by decide)
  have hnl := Nat.mod_lt (idx / 1048576) hNpos
  have hdm := Nat.div_add_mod (idx / 1048576) (2 ^ v.numa_log)
  have hds : v.data_size = 2 ^ v.numa_log := hn
  rw [map2data_eq v idx hlog hm hidx]
  simp only [NUMA_vector.map2logical, NUMA_vector.range_size_log, hmask, hrs, hds,
    Nat.and_pow_two_sub_one_eq_mod, Nat.shiftRight_eq_div_pow]
  norm_num only
  have e1 : (idx / 1048576 / 2 ^ v.numa_log * 1048576 + idx % 1048576) % 1048576
      = idx % 1048576 := by omega
  have e2 : (idx / 1048576 / 2 ^ v.numa_log * 1048576 + idx % 1048576) / 1048576
      = idx / 1048576 / 2 ^ v.numa_log := by omega
  have e3 : (to_size_t ((idx / 1048576 % 2 ^ v.numa_log : Nat) : Int)).toNat
      = idx / 1048576 % 2 ^ v.numa_log := by
    simp only [to_size_t]
    omega
  have e4 : idx / 1048576 / 2 ^ v.numa_log * 1048576 * 2 ^ v.numa_log
      = 1048576 * (2 ^ v.numa_log * (idx / 1048576 / 2 ^ v.numa_log)) := by ring
  rw [e1, e2, e3]
  have e5 : idx / 1048576 / 2 ^ v.numa_log * 1048576 % 18446744073709551616
      = idx / 1048576 / 2 ^ v.numa_log * 1048576 := by
    have : idx / 1048576 / 2 ^ v.numa_log ≤ idx / 1048576 := Nat.div_le_self _ _
    omega
  rw [e5, e4]
  omega

end fm

namespace fm

open SAFS

/-- C32, on 2^32 nodes: with `numa_log == 32`, `numa_mask == 2^32 - 1` and
2^32 per-node arrays, the logical index `2^51` gets the node id `-2^31`, which
is not a node, and `map2logical` does not return the index. -/
theorem map2data_wide_counterexample :
    sample_wide_vector.get_num_nodes = 2 ^ sample_wide_vector.numa_log
    ∧ sample_wide_vector.numa_mask = 2 ^ sample_wide_vector.numa_log - 1
    ∧ (2251799813685248 : Nat) < 18446744073709551616
    ∧ sample_wide_vector.map2data 2251799813685248 = (-2147483648, 0)
    ∧ ¬ (0 ≤ (sample_wide_vector.map2data 2251799813685248).1)
    ∧ sample_wide_vector.map2logical (sample_wide_vector.map2data 2251799813685248).1
        (sample_wide_vector.map2data 2251799813685248).2 = 18444492273895866368
    ∧ sample_wide_vector.map2logical (sample_wide_vector.map2data 2251799813685248).1
        (sample_wide_vector.map2data 2251799813685248).2 ≠ 2251799813685248 := by
  decide

/-- C32, for node ids that fit an `int`: when `numa_log <= 31`, the number of
nodes is `2^numa_log` and `numa_mask == 2^numa_log - 1`, every logical index
`idx` below `2^64` is mapped by `map2data` to a pair `(node, off)` with
`0 <= node < number of nodes` and `map2logical(node, off) == idx`; hence two
indices with the same pair are equal. -/
theorem map2data_inverse (v : NUMA_vector) (idx : Nat)
    (hlog : v.numa_log ≤ 31) (hn : v.get_num_nodes = 2 ^ v.numa_log)
    (hm : v.numa_mask = 2 ^ v.numa_log - 1) (hidx : idx < 18446744073709551616) :
    0 ≤ (v.map2data idx).1
    ∧ (v.map2data idx).1 < (v.get_num_nodes : Int)
    ∧ v.map2logical (v.map2data idx).1 (v.map2data idx).2 = idx
    ∧ ∀ idx2 : Nat, idx2 < 18446744073709551616 →
        v.map2data idx2 = v.map2data idx → idx2 = idx := by
  have hNpos : 0 < 2 ^ v.numa_log := Nat.pow_pos (by decide)
  have hnl := Nat.mod_lt (idx / 1048576) hNpos
  refine ⟨?_, ?_, map2logical_map2data v idx hlog hn hm hidx, ?_⟩
  · rw [map2data_eq v idx hlog hm hidx]
    exact Int.ofNat_nonneg _
  · rw [map2data_eq v idx hlog hm hidx, hn]
    exact Int.ofNat_lt.mpr hnl
  · intro idx2 h2 he
    have a := map2logical_map2data v idx2 hlog hn hm h2
    rw [he, map2logical_map2data v idx hlog hn hm hidx] at a
    exact a.symm

theorem map2data_inverse_witness :
    0 ≤ (sample_vector.map2data 5000000).1
    ∧ (sample_vector.map2data 5000000).1 < (sample_vector.get_num_nodes : Int)
    ∧ sample_vector.map2logical (sample_vector.map2data 5000000).1
        (sample_vector.map2data 5000000).2 = 5000000
    ∧ ∀ idx2 : Nat, idx2 < 18446744073709551616 →
        sample_vector.map2data idx2 = sample_vector.map2data 5000000 → idx2 = 5000000 :=
  map2data_inverse sample_vector 5000000 (by decide) (by decide) (by decide) (by decide)

end fm

namespace fm

open SAFS

/-! ## The chunked inner product and its unchunked definition -/

theorem foldl_proj {σ α β : Type} (l : List α) (f : σ → α → σ) (π : σ → β) (g : β → α → β)
    (h : ∀ s a, a ∈ l → π (f s a) = g (π s) a) (s : σ) :
    π (l.foldl f s) = l.foldl g (π s) := by
  induction l generalizing s with
  | nil => rfl
  | cons a l ih =>
    simp only [List.foldl_cons]
    rw [ih (fun s b hb => h s b (List.mem_cons_of_mem a hb)) (f s a),
      h s a (List.mem_cons_self a l)]

theorem foldlM_proj {σ α β : Type} (l : List α) (f : σ → α → Except Abort σ) (π : σ → β)
    (g : β → α → β)
    (h : ∀ s a, a ∈ l → ∃ s1, f s a = .ok s1 ∧ π s1 = g (π s) a) (s : σ) :
    ∃ s1, l.foldlM f s = .ok s1 ∧ π s1 = l.foldl g (π s) := by
  induction l generalizing s with
  | nil => exact ⟨s, rfl, rfl⟩
  | cons a l ih =>
    obtain ⟨s1, h1, h2⟩ := h s a (List.mem_cons_self a l)
    obtain ⟨s2, h3, h4⟩ := ih (fun s b hb => h s b (List.mem_cons_of_mem a hb)) s1
    refine ⟨s2, ?_, ?_⟩
    · simp only [List.foldlM_cons, bind, Except.bind, h1]
      exact h3
    · rw [h4, h2]
      rfl

theorem foldl_range_single {β : Type} (n j0 : Nat) (h : β → β) (v0 : β) :
    (List.range n).foldl (fun v a => if a = j0 then h v else v) v0
      = if j0 < n then h v0 else v0 := by
  induction n with
  | zero => rfl
  | succ n ih =>
    rw [List.range_succ, List.foldl_append, ih]
    simp only [List.foldl_cons, List.foldl_nil]
    by_cases h1 : j0 < n
    · have h2 : n ≠ j0 := by omega
      have h3 : j0 < n + 1 := by omega
      simp only [h1, h2, h3, ↓reduceIte]
    · by_cases h2 : n = j0
      · subst h2
        simp only [Nat.lt_irrefl, Nat.lt_add_one, ↓reduceIte]
      · have h3 : ¬ j0 < n + 1 := by omega
        simp only [h1, h2, h3, ↓reduceIte]

theorem foldl_fixed_cond {α β : Type} (l : List α) (c : Prop) [Decidable c] (h : β → α → β)
    (v0 : β) :
    l.foldl (fun v a => if c then h v a else v) v0 = if c then l.foldl h v0 else v0 := by
  by_cases hc : c
  · simp only [hc, ↓reduceIte]
  · simp only [hc, ↓reduceIte]
    induction l with
    | nil => rfl
    | cons a l ih => simpa only [List.foldl_cons] using ih

theorem inner_step_value (lo ro : bulk_operate) (adata : Nat → entry) (b : entry)
    (D T : Nat → entry) (n src sc p : Nat) :
    store_view D sc (ro.runAA n (lo.runAE n (view adata src) b T) (view D sc) (view D sc)) p
      = if sc ≤ p ∧ p - sc < n then ro.op (lo.op (adata (src + (p - sc))) b) (D p)
        else D p := by
  simp only [store_view, bulk_operate.runAA, bulk_operate.runAE, view]
  by_cases h1 : sc ≤ p
  · have e : sc + (p - sc) = p := by omega
    by_cases h2 : p - sc < n
    · simp only [h1, h2, and_self, ↓reduceIte, e]
    · simp only [h1, h2, and_false, ↓reduceIte, e]
  · simp only [h1, false_and, ↓reduceIte]

theorem column_window_iff (nrow j j0 k n r : Nat) (hn : k + n ≤ nrow) (hr : r < nrow) :
    (j * nrow + k ≤ j0 * nrow + r ∧ j0 * nrow + r - (j * nrow + k) < n)
      ↔ (j = j0 ∧ k ≤ r ∧ r < k + n) := by
  rcases Nat.lt_trichotomy j j0 with h | h | h
  · have h1 : (j + 1) * nrow ≤ j0 * nrow := Nat.mul_le_mul_right nrow h
    rw [Nat.add_mul, Nat.one_mul] at h1
    constructor
    · intro ⟨_, b⟩
      omega
    · intro ⟨a, _, _⟩
      omega
  · subst h
    constructor
    · intro ⟨a, b⟩
      omega
    · intro ⟨_, a, b⟩
      omega
  · have h1 : (j0 + 1) * nrow ≤ j * nrow := Nat.mul_le_mul_right nrow h
    rw [Nat.add_mul, Nat.one_mul] at h1
    constructor
    · intro ⟨a, _⟩
      omega
    · intro ⟨a, _, _⟩
      omega

theorem inner_prod_chunk_value (a : mem_col_dense_matrix) (m : mem_dense_matrix)
    (lo ro : bulk_operate) (res : mem_col_dense_matrix) (st : (Nat → entry) × (Nat → entry))
    (k r j0 : Nat) (hres : res.nrow = a.nrow) (hk : k < a.nrow) (hr : r < a.nrow)
    (hj : j0 < m.ncol) :
    ∃ st1, a.inner_prod_chunk m lo ro res st k = .ok st1
      ∧ st1.1 (j0 * a.nrow + r)
        = if k ≤ r ∧ r < k + min SUB_CHUNK_SIZE (a.nrow - k)
          then (List.range a.ncol).foldl
            (fun acc i => ro.op (lo.op (a.get r i) (m.get i j0)) acc) (st.1 (j0 * a.nrow + r))
          else st.1 (j0 * a.nrow + r) := by
  have hn : k + min SUB_CHUNK_SIZE (a.nrow - k) ≤ a.nrow := by omega
  have hc : 0 + a.ncol ≤ a.ncol := by omega
  simp only [mem_col_dense_matrix.inner_prod_chunk, sub_col_matrix.construct,
    mem_col_dense_matrix.get_num_rows, mem_col_dense_matrix.get_num_cols, c_assert, hn, hc,
    ↓reduceIte, bind, Except.bind, pure, Except.pure]
  refine ⟨_, rfl, ?_⟩
  simp only [sub_col_matrix.get_num_rows, sub_col_matrix.get_col, sub_col_matrix.get_start_col,
    sub_col_matrix.get_start_row, mem_col_dense_matrix.get_col, hres, Nat.zero_add]
  refine (foldl_proj (List.range a.ncol) _ (fun s => s.1 (j0 * a.nrow + r))
    (fun v i => if k ≤ r ∧ r < k + min SUB_CHUNK_SIZE (a.nrow - k)
      then ro.op (lo.op (a.get r i) (m.get i j0)) v else v) ?_ st).trans ?_
  · intro s i _
    refine (foldl_proj (List.range m.ncol) _ (fun s => s.1 (j0 * a.nrow + r))
      (fun v j => if j = j0 then (if k ≤ r ∧ r < k + min SUB_CHUNK_SIZE (a.nrow - k)
        then ro.op (lo.op (a.get r i) (m.get i j0)) v else v) else v) ?_ s).trans ?_
    · intro s2 j _
      simp only
      rw [inner_step_value]
      have hw := column_window_iff a.nrow j j0 k (min SUB_CHUNK_SIZE (a.nrow - k)) r hn hr
      by_cases hjj : j = j0
      · subst hjj
        by_cases hin : k ≤ r ∧ r < k + min SUB_CHUNK_SIZE (a.nrow - k)
        · have hw2 := hw.mpr ⟨rfl, hin⟩
          have e : i * a.nrow + k + (j * a.nrow + r - (j * a.nrow + k)) = i * a.nrow + r := by
            omega
          simp only [hw2, and_self, hin, ↓reduceIte, e, mem_col_dense_matrix.get,
            mem_col_dense_matrix.get_col]
        · have hw2 : ¬ (j * a.nrow + k ≤ j * a.nrow + r
              ∧ j * a.nrow + r - (j * a.nrow + k) < min SUB_CHUNK_SIZE (a.nrow - k)) :=
            fun h => hin (hw.mp h).2
          simp only [hw2, hin, ↓reduceIte]
      · have hw2 : ¬ (j * a.nrow + k ≤ j0 * a.nrow + r
            ∧ j0 * a.nrow + r - (j * a.nrow + k) < min SUB_CHUNK_SIZE (a.nrow - k)) :=
          fun h => hjj (hw.mp h).1
        simp only [hw2, hjj, ↓reduceIte]
    · rw [foldl_range_single, if_pos hj]
  · exact foldl_fixed_cond _ _ _ _

end fm

namespace fm

open SAFS

theorem chunk_starts_lt (nrow k : Nat) (h : k ∈ chunk_starts nrow) : k < nrow := by
  simp only [chunk_starts, SUB_CHUNK_SIZE, List.mem_map, List.mem_range] at h
  obtain ⟨c, hc, rfl⟩ := h
  omega

theorem inner_prod_chunk_ok (a : mem_col_dense_matrix) (m : mem_dense_matrix)
    (lo ro : bulk_operate) (res : mem_col_dense_matrix) (st : (Nat → entry) × (Nat → entry))
    (k : Nat) (hk : k < a.nrow) :
    ∃ st1, a.inner_prod_chunk m lo ro res st k = .ok st1 := by
  have hn : k + min SUB_CHUNK_SIZE (a.nrow - k) ≤ a.nrow := by omega
  have hc : 0 + a.ncol ≤ a.ncol := by omega
  simp only [mem_col_dense_matrix.inner_prod_chunk, sub_col_matrix.construct,
    mem_col_dense_matrix.get_num_rows, mem_col_dense_matrix.get_num_cols, c_assert, hn, hc,
    ↓reduceIte, bind, Except.bind, pure, Except.pure]
  exact ⟨_, rfl⟩

theorem inner_prod_loop_value (a : mem_col_dense_matrix) (m : mem_dense_matrix)
    (lo ro : bulk_operate) (res : mem_col_dense_matrix) (st : (Nat → entry) × (Nat → entry))
    (r j0 : Nat) (hres : res.nrow = a.nrow) (hr : r < a.nrow) (hj : j0 < m.ncol) :
    ∃ st1, (chunk_starts a.nrow).foldlM (a.inner_prod_chunk m lo ro res) st = .ok st1
      ∧ st1.1 (j0 * a.nrow + r)
        = (List.range a.ncol).foldl
            (fun acc i => ro.op (lo.op (a.get r i) (m.get i j0)) acc)
            (st.1 (j0 * a.nrow + r)) := by
  obtain ⟨st1, h1, h2⟩ := foldlM_proj (chunk_starts a.nrow) (a.inner_prod_chunk m lo ro res)
    (fun s => s.1 (j0 * a.nrow + r))
    (fun v k => if k ≤ r ∧ r < k + min SUB_CHUNK_SIZE (a.nrow - k)
      then (List.range a.ncol).foldl
        (fun acc i => ro.op (lo.op (a.get r i) (m.get i j0)) acc) v
      else v)
    (fun s k hk => inner_prod_chunk_value a m lo ro res s k r j0 hres
      (chunk_starts_lt a.nrow k hk) hr hj) st
  refine ⟨st1, h1, ?_⟩
  rw [h2]
  simp only [chunk_starts, List.foldl_map]
  have hf : (fun (v : entry) (c : Nat) =>
      if c * SUB_CHUNK_SIZE ≤ r ∧ r < c * SUB_CHUNK_SIZE + min SUB_CHUNK_SIZE
          (a.nrow - c * SUB_CHUNK_SIZE)
      then (List.range a.ncol).foldl
        (fun acc i => ro.op (lo.op (a.get r i) (m.get i j0)) acc) v
      else v)
      = (fun (v : entry) (c : Nat) => if c = r / SUB_CHUNK_SIZE
          then (List.range a.ncol).foldl
            (fun acc i => ro.op (lo.op (a.get r i) (m.get i j0)) acc) v
          else v) := by
    funext v c
    have hiff : (c * SUB_CHUNK_SIZE ≤ r ∧ r < c * SUB_CHUNK_SIZE + min SUB_CHUNK_SIZE
        (a.nrow - c * SUB_CHUNK_SIZE)) ↔ c = r / SUB_CHUNK_SIZE := by
      simp only [SUB_CHUNK_SIZE]
      omega
    by_cases hc : c = r / SUB_CHUNK_SIZE
    · rw [if_pos hc, if_pos (hiff.mpr hc)]
    · rw [if_neg hc, if_neg (fun h => hc (hiff.mp h))]
  rw [hf, foldl_range_single]
  have hlt : r / SUB_CHUNK_SIZE < (a.nrow + SUB_CHUNK_SIZE - 1) / SUB_CHUNK_SIZE := by
    simp only [SUB_CHUNK_SIZE]
    omega
  rw [if_pos hlt]

/-- C33: when `verify_inner_prod` fails, `inner_prod` returns the null
pointer; when it holds and the column-major matrix `A` has more rows than
columns, `inner_prod` returns a matrix of `nrow` rows and `B.ncol` columns
whose entry at row `r` and column `j` is the fold of `right_op` over
`i = 0 .. ncol - 1` of `left_op(A[r][i], B[i][j])`, started from zero bytes,
for every `nrow`, a multiple of `SUB_CHUNK_SIZE` or not. -/
theorem inner_prod_refines_spec (a : mem_col_dense_matrix) (m : mem_dense_matrix)
    (lo ro : bulk_operate) (raw tmp_raw : Nat → entry) :
    (a.verify_inner_prod m lo ro = false → a.inner_prod m lo ro raw tmp_raw = .ok none)
    ∧ (a.verify_inner_prod m lo ro = true → a.nrow > a.ncol →
        ∃ res, a.inner_prod m lo ro raw tmp_raw = .ok (some res)
          ∧ res.get_num_rows = a.nrow ∧ res.get_num_cols = m.ncol
          ∧ res.get_entry_size = ro.output_entry_size
          ∧ ∀ r j, r < a.nrow → j < m.ncol →
              res.get r j = a.inner_prod_spec m lo ro r j) := by
  constructor
  · intro hv
    simp only [mem_col_dense_matrix.inner_prod, hv, ↓reduceIte, pure, Except.pure]
  · intro hv hshape
    have hst : ∃ st, (chunk_starts a.nrow).foldlM (a.inner_prod_chunk m lo ro
        (mem_col_dense_matrix.create a.nrow m.ncol ro.output_entry_size raw).reset_data)
        ((mem_col_dense_matrix.create a.nrow m.ncol ro.output_entry_size raw).reset_data.data,
          tmp_raw) = .ok st := by
      obtain ⟨st1, h1, _⟩ := foldlM_proj (chunk_starts a.nrow)
        (a.inner_prod_chunk m lo ro
          (mem_col_dense_matrix.create a.nrow m.ncol ro.output_entry_size raw).reset_data)
        (fun _ => ()) (fun _ _ => ())
        (fun s k hk => by
          obtain ⟨s1, hs1⟩ := inner_prod_chunk_ok a m lo ro
            (mem_col_dense_matrix.create a.nrow m.ncol ro.output_entry_size raw).reset_data
            s k (chunk_starts_lt a.nrow k hk)
          exact ⟨s1, hs1, rfl⟩)
        ((mem_col_dense_matrix.create a.nrow m.ncol ro.output_entry_size raw).reset_data.data,
          tmp_raw)
      exact ⟨st1, h1⟩
    obtain ⟨st, hst⟩ := hst
    refine ⟨{ (mem_col_dense_matrix.create a.nrow m.ncol ro.output_entry_size raw).reset_data
              with data := st.1 }, ?_, rfl, rfl, rfl, ?_⟩
    · simp only [mem_col_dense_matrix.inner_prod, hv, Bool.true_eq_false, ↓reduceIte,
        mem_col_dense_matrix.get_num_rows, mem_col_dense_matrix.get_num_cols, c_assert, hshape,
        bind, Except.bind, hst, pure, Except.pure]
    · intro r j hr hj
      obtain ⟨st2, h1, h2⟩ := inner_prod_loop_value a m lo ro
        (mem_col_dense_matrix.create a.nrow m.ncol ro.output_entry_size raw).reset_data
        ((mem_col_dense_matrix.create a.nrow m.ncol ro.output_entry_size raw).reset_data.data,
          tmp_raw) r j rfl hr hj
      rw [hst] at h1
      injection h1 with h1
      subst h1
      have hp : j * a.nrow + r < a.nrow * m.ncol := by
        have h3 : (j + 1) * a.nrow ≤ m.ncol * a.nrow := Nat.mul_le_mul_right a.nrow hj
        rw [Nat.add_mul, Nat.one_mul, Nat.mul_comm m.ncol a.nrow] at h3
        omega
      have hz : (mem_col_dense_matrix.create a.nrow m.ncol ro.output_entry_size
          raw).reset_data.data (j * a.nrow + r) = List.replicate ro.output_entry_size 0 := by
        simp only [mem_col_dense_matrix.reset_data, mem_col_dense_matrix.create,
          mem_col_dense_matrix.get_num_rows, mem_col_dense_matrix.get_num_cols,
          mem_col_dense_matrix.get_entry_size, hp, ↓reduceIte]
      simp only [hz] at h2
      simp only [mem_col_dense_matrix.inner_prod_spec]
      rw [← h2]
      rfl

theorem inner_prod_refines_spec_witness :
    sample_left.inner_prod sample_mismatch sample_mul sample_add (fun _ => []) (fun _ => [])
        = .ok none
    ∧ ∃ res, sample_left.inner_prod sample_right sample_mul sample_add (fun _ => [])
          (fun _ => []) = .ok (some res)
        ∧ res.get_num_rows = sample_left.nrow ∧ res.get_num_cols = sample_right.ncol
        ∧ res.get_entry_size = sample_add.output_entry_size
        ∧ ∀ r j, r < sample_left.nrow → j < sample_right.ncol →
            res.get r j = sample_left.inner_prod_spec sample_right sample_mul sample_add r j :=
  ⟨(inner_prod_refines_spec sample_left sample_mismatch sample_mul sample_add (fun _ => [])
      (fun _ => [])).1 (by decide),
   (inner_prod_refines_spec sample_left sample_right sample_mul sample_add (fun _ => [])
      (fun _ => [])).2 (by decide) (by decide)⟩

end fm
